import Mathlib

/-!
# Eos: command pool, swapchain pacing, deferred destruction, construction

A shallow embedding of `src/vulkan/vulkanClasses.cpp`.

Conventions of the embedding.

* Vulkan handles (`VkSemaphore`, `VkFence`, `VkCommandBuffer`, `VkImageView`, ...) are natural
  numbers, `0` being `VK_NULL_HANDLE`.
* A `CommandBufferData&` / `CommandBufferData*` is the index of the slot inside
  `CommandPool::Buffers`.
* The calls made to the driver that the properties talk about are recorded in the state
  (`CommandPool.Queue` for `vkQueueSubmit2`, `VulkanSwapChain.Waited` for `vkWaitSemaphores`, ...).
* What the driver answers is an input of the function that asks: the fence statuses returned by
  `vkWaitForFences(..., 0)`, the image index written by `vkAcquireNextImageKHR`.
* Driver calls wrapped in `VK_ASSERT` are taken to answer `VK_SUCCESS`, with one exception: the
  second `vkGetSwapchainImagesKHR` of the swapchain constructor answers `VK_INCOMPLETE` when it is
  handed fewer entries than the swapchain has images, and `VK_ASSERT` then ends the run. The
  result codes of `vkAcquireNextImageKHR` and `vkQueuePresentKHR` are taken to be among the
  accepted ones; every other failing `CHECK` ends the run with the `Fault` of its site.
* `uint32_t` / `uint64_t` arithmetic is arithmetic on `Nat` modulo `2^32` / `2^64`.
-/

namespace Eos

/-! ## Basic types -/

/-- The null Vulkan handle. -/
def VK_NULL_HANDLE : Nat := 0

/-- Wrap-around of `uint32_t` arithmetic. -/
def u32 (n : Nat) : Nat := n % 2 ^ 32

/-- Wrap-around of `uint64_t` arithmetic. -/
def u64 (n : Nat) : Nat := n % 2 ^ 64

/-- Sites at which a run stops abnormally: one constructor per `CHECK` message of the source, plus
an access through a null pointer or outside an array, and a polling loop that is still spinning
when the supplied fence observations are used up. -/
inductive Fault where
  | waitSemaphoreNotEmpty
  | bufferNotSubmittedYet
  | invalidSignalSemaphore
  | bufferIndexTooBig
  | bufferNotRecording
  | noCommandBuffersAvailable
  | anotherCommandBufferAcquired
  | presentNotSwapChain
  | imageIndexTooBig
  | noSwapChain
  | swapChainTextureInvalid
  | invalidImageFormat
  | alreadyDestroyedImage
  | shaderModuleNotCreated
  | queueFamilyNoPresentation
  | noSwapChainImages
  | driverCallFailed
  | invalidMemoryAccess
  | spinning
  deriving DecidableEq, Repr

deriving instance DecidableEq for Except

/-- Modelled from the spec: the `CHECK` macro is declared in a header outside `src/`; section 7 of
the spec makes every contract violation a fatal assertion, so a failing `CHECK` aborts the run. -/
def CHECK (cond : Prop) [Decidable cond] (site : Fault) : Except Fault Unit :=
  if cond then .ok () else .error site

/-- Modelled from the spec: the `VK_ASSERT` macro is declared in a header outside `src/`; section 7
of the spec makes every driver call that does not answer success fatal. `success` says that the
call answered `VK_SUCCESS`. -/
def VK_ASSERT (success : Prop) [Decidable success] : Except Fault Unit :=
  if success then .ok () else .error .driverCallFailed

/-- Modelled from the spec: `EOS::SubmitHandle` is declared in a header outside `src/`; it is the
pair (bufferIndex, submissionId) of section 3. -/
structure SubmitHandle where
  BufferIndex : Nat
  ID : Nat
  deriving DecidableEq, Repr

/-- Modelled from the spec: `submissionId == 0` is reserved for the empty handle. -/
def SubmitHandle.Empty (h : SubmitHandle) : Bool := h.ID == 0

/-- The fields of `VkSemaphoreSubmitInfo` that the code writes: the semaphore and, for a timeline
semaphore, the value. -/
structure SemaphoreSubmitInfo where
  semaphore : Nat
  value : Nat
  deriving DecidableEq, Repr

/-- One slot of `CommandPool::Buffers`. `VulkanCommandBuffer` is the active command buffer
(`VK_NULL_HANDLE` when the slot is free). -/
structure CommandBufferData where
  VulkanCommandBuffer : Nat
  VulkanCommandBufferAllocated : Nat
  Handle : SubmitHandle
  Semaphore : Nat
  Fence : Nat
  isEncoding : Bool
  deriving DecidableEq, Repr

/-- The arguments of one `vkQueueSubmit2` call. -/
structure SubmitInfo where
  waits : List SemaphoreSubmitInfo
  commandBuffer : Nat
  signals : List SemaphoreSubmitInfo
  fence : Nat
  deriving DecidableEq, Repr

/-- The state of a `CommandPool`. `Buffers` is the C array `Buffers[MaxCommandBuffers]`, so
`MaxCommandBuffers` is its length; `Queue` lists the submissions handed to `vkQueueSubmit2`, oldest
first. -/
structure CommandPool where
  Buffers : List CommandBufferData
  NumberOfAvailableCommandBuffers : Nat
  WaitOnSemaphore : SemaphoreSubmitInfo
  SignalSemaphore : SemaphoreSubmitInfo
  LastSubmitSemaphore : SemaphoreSubmitInfo
  LastSubmitHandle : SubmitHandle
  NextSubmitHandle : SubmitHandle
  SubmitCounter : Nat
  Queue : List SubmitInfo
  deriving DecidableEq, Repr

/-- The constant `MaxCommandBuffers`: the size of the array `Buffers`. -/
def CommandPool.MaxCommandBuffers (p : CommandPool) : Nat := p.Buffers.length

/-! ## CommandPool -/

/-- The loop of `CommandPool::CommandPool` (lines 441-450): slot `i` gets the command buffer,
semaphore and fence the driver created for it, `Handle.BufferIndex = i`, and is free. -/
def CommandPool.create.slots (cmd sem fence : Nat → Nat) : Nat → List CommandBufferData
  | 0 => []
  | n + 1 =>
    CommandPool.create.slots cmd sem fence n ++
      [{ VulkanCommandBuffer := VK_NULL_HANDLE
         VulkanCommandBufferAllocated := cmd n
         Handle := { BufferIndex := n, ID := 0 }
         Semaphore := sem n
         Fence := fence n
         isEncoding := false }]

/-- The constructor `CommandPool::CommandPool` for `maxCommandBuffers` slots; `cmd i`, `sem i` and
`fence i` are the handles the driver returns for slot `i`.
Modelled from the spec: the member initialisers are in a header outside `src/`; the submission
counter starts at 1 (the first submission has `submissionId == 1`) and every pending semaphore and
handle starts empty. -/
def CommandPool.create (maxCommandBuffers : Nat) (cmd sem fence : Nat → Nat) : CommandPool :=
  { Buffers := CommandPool.create.slots cmd sem fence maxCommandBuffers
    NumberOfAvailableCommandBuffers := u32 maxCommandBuffers
    WaitOnSemaphore := { semaphore := VK_NULL_HANDLE, value := 0 }
    SignalSemaphore := { semaphore := VK_NULL_HANDLE, value := 0 }
    LastSubmitSemaphore := { semaphore := VK_NULL_HANDLE, value := 0 }
    LastSubmitHandle := { BufferIndex := 0, ID := 0 }
    NextSubmitHandle := { BufferIndex := 0, ID := 0 }
    SubmitCounter := 1
    Queue := [] }

/-- `CommandPool::WaitSemaphore` (lines 469-473). -/
def CommandPool.WaitSemaphore (p : CommandPool) (semaphore : Nat) : Except Fault CommandPool := do
  CHECK (p.WaitOnSemaphore.semaphore = VK_NULL_HANDLE) .waitSemaphoreNotEmpty
  pure { p with WaitOnSemaphore := { p.WaitOnSemaphore with semaphore := semaphore } }

/-- `CommandPool::Signal` (lines 522-527). -/
def CommandPool.Signal (p : CommandPool) (semaphore signalValue : Nat) :
    Except Fault CommandPool := do
  CHECK (semaphore ≠ VK_NULL_HANDLE) .invalidSignalSemaphore
  pure { p with SignalSemaphore := { semaphore := semaphore, value := signalValue } }

/-- `CommandPool::IsReady` (lines 529-560). `signalled f` is what `vkWaitForFences` with a zero
timeout reports for the fence `f` (`true` for `VK_SUCCESS`). The `CHECK` on the buffer index and
the access `Buffers[handle.BufferIndex]` are one lookup. -/
def CommandPool.IsReady (signalled : Nat → Bool) (p : CommandPool) (handle : SubmitHandle)
    (fastCheck : Bool) : Except Fault Bool :=
  if handle.Empty then .ok true
  else
    match p.Buffers[handle.BufferIndex]? with
    | none => .error .bufferIndexTooBig
    | some buffer =>
      if buffer.VulkanCommandBuffer = VK_NULL_HANDLE then .ok true
      else if buffer.Handle.ID ≠ handle.ID then .ok true
      else if fastCheck then .ok false
      else .ok (signalled buffer.Fence)

/-- `CommandPool::AcquireLastSubmitSemaphore` (lines 562-565): `std::exchange` of the last-submit
semaphore with `VK_NULL_HANDLE`. -/
def CommandPool.AcquireLastSubmitSemaphore (p : CommandPool) : CommandPool × Nat :=
  ({ p with LastSubmitSemaphore := { p.LastSubmitSemaphore with semaphore := VK_NULL_HANDLE } },
    p.LastSubmitSemaphore.semaphore)

/-- The wait list built by `CommandPool::Submit` (lines 574-582). -/
def CommandPool.Submit.waits (p : CommandPool) : List SemaphoreSubmitInfo :=
  (if p.WaitOnSemaphore.semaphore ≠ VK_NULL_HANDLE then [p.WaitOnSemaphore] else []) ++
  (if p.LastSubmitSemaphore.semaphore ≠ VK_NULL_HANDLE then [p.LastSubmitSemaphore] else [])

/-- The signal list built by `CommandPool::Submit` (lines 584-595). -/
def CommandPool.Submit.signals (p : CommandPool) (data : CommandBufferData) :
    List SemaphoreSubmitInfo :=
  { semaphore := data.Semaphore, value := 0 } ::
  (if p.SignalSemaphore.semaphore ≠ VK_NULL_HANDLE then [p.SignalSemaphore] else [])

/-- The increment of `SubmitCounter` at the end of `CommandPool::Submit` (lines 622-625):
`++SubmitCounter; if (!SubmitCounter) ++SubmitCounter;` on a `uint32_t`. -/
def CommandPool.Submit.nextCounter (c : Nat) : Nat :=
  if u32 (c + 1) = 0 then u32 (u32 (c + 1) + 1) else u32 (c + 1)

/-- `CommandPool::Submit` (lines 567-628) of the slot with index `data`. -/
def CommandPool.Submit (p : CommandPool) (data : Nat) :
    Except Fault (CommandPool × SubmitHandle) :=
  match p.Buffers[data]? with
  | none => .error .invalidMemoryAccess
  | some d => do
    CHECK (d.isEncoding = true) .bufferNotRecording
    let submitInfo : SubmitInfo :=
      { waits := CommandPool.Submit.waits p
        commandBuffer := d.VulkanCommandBuffer
        signals := CommandPool.Submit.signals p d
        fence := d.Fence }
    pure
      ({ p with
          Queue := p.Queue ++ [submitInfo]
          LastSubmitSemaphore := { p.LastSubmitSemaphore with semaphore := d.Semaphore }
          LastSubmitHandle := d.Handle
          WaitOnSemaphore := { p.WaitOnSemaphore with semaphore := VK_NULL_HANDLE }
          SignalSemaphore := { p.SignalSemaphore with semaphore := VK_NULL_HANDLE }
          Buffers := p.Buffers.set data { d with isEncoding := false }
          SubmitCounter := CommandPool.Submit.nextCounter p.SubmitCounter },
        d.Handle)

/-- `CommandPool::GetNextSubmitHandle` (lines 630-633). -/
def CommandPool.GetNextSubmitHandle (p : CommandPool) : SubmitHandle := p.NextSubmitHandle

/-- The loop of `CommandPool::TryResetCommandBuffers` (lines 687-707) over the slots, threading
the counter of available command buffers. -/
def CommandPool.TryResetCommandBuffers.loop (signalled : Nat → Bool) :
    List CommandBufferData → Nat → List CommandBufferData × Nat
  | [], n => ([], n)
  | buffer :: rest, n =>
    if buffer.VulkanCommandBuffer = VK_NULL_HANDLE ∨ buffer.isEncoding = true then
      let r := CommandPool.TryResetCommandBuffers.loop signalled rest n
      (buffer :: r.1, r.2)
    else if signalled buffer.Fence = true then
      let r := CommandPool.TryResetCommandBuffers.loop signalled rest (u32 (n + 1))
      ({ buffer with VulkanCommandBuffer := VK_NULL_HANDLE } :: r.1, r.2)
    else
      let r := CommandPool.TryResetCommandBuffers.loop signalled rest n
      (buffer :: r.1, r.2)

/-- What one round of the loop of `CommandPool::TryResetCommandBuffers` does to a slot. -/
def CommandPool.TryResetCommandBuffers.slot (signalled : Nat → Bool) (buffer : CommandBufferData) :
    CommandBufferData :=
  if buffer.VulkanCommandBuffer = VK_NULL_HANDLE ∨ buffer.isEncoding = true then buffer
  else if signalled buffer.Fence = true then { buffer with VulkanCommandBuffer := VK_NULL_HANDLE }
  else buffer

/-- Whether one round of the loop of `CommandPool::TryResetCommandBuffers` resets the slot: the
slot is pending (active command buffer set, not encoding) and its fence is reported signalled. -/
def CommandPool.TryResetCommandBuffers.resets (signalled : Nat → Bool)
    (buffer : CommandBufferData) : Bool :=
  decide (¬(buffer.VulkanCommandBuffer = VK_NULL_HANDLE ∨ buffer.isEncoding = true)) &&
    signalled buffer.Fence

/-- `CommandPool::TryResetCommandBuffers` (lines 685-708); `signalled f` is the status that
`vkWaitForFences` with a zero timeout reports for the fence `f`. -/
def CommandPool.TryResetCommandBuffers (signalled : Nat → Bool) (p : CommandPool) : CommandPool :=
  let r := CommandPool.TryResetCommandBuffers.loop signalled p.Buffers
    p.NumberOfAvailableCommandBuffers
  { p with Buffers := r.1, NumberOfAvailableCommandBuffers := r.2 }

/-- The `while (!NumberOfAvailableCommandBuffers)` loop of `CommandPool::AcquireCommandBuffer`
(lines 644-648). Each round consumes the fence statuses its `TryResetCommandBuffers` observes; the
loop is still spinning when they are used up. -/
def CommandPool.AcquireCommandBuffer.spin :
    List (Nat → Bool) → CommandPool → Except Fault CommandPool
  | polls, p =>
    if p.NumberOfAvailableCommandBuffers ≠ 0 then .ok p
    else
      match polls with
      | [] => .error .spinning
      | signalled :: rest =>
        CommandPool.AcquireCommandBuffer.spin rest (p.TryResetCommandBuffers signalled)

/-- The search `for (CommandBufferData& buffer : Buffers)` of `CommandPool::AcquireCommandBuffer`
(lines 653-661): index and content of the first slot whose active command buffer is null. -/
def CommandPool.AcquireCommandBuffer.search : List CommandBufferData → Option (Nat × CommandBufferData)
  | [] => none
  | buffer :: rest =>
    if buffer.VulkanCommandBuffer = VK_NULL_HANDLE then some (0, buffer)
    else (CommandPool.AcquireCommandBuffer.search rest).map fun r => (r.1 + 1, r.2)

/-- `CommandPool::AcquireCommandBuffer` (lines 635-683). `polls` lists the fence statuses seen by
the successive calls of `TryResetCommandBuffers`. Returns the new pool and the index of the slot
handed out. -/
def CommandPool.AcquireCommandBuffer (polls : List (Nat → Bool)) (p : CommandPool) :
    Except Fault (CommandPool × Nat) := do
  let (p1, rest) ←
    (if p.NumberOfAvailableCommandBuffers = 0 then
      match polls with
      | [] => .error .spinning
      | signalled :: rest => .ok (p.TryResetCommandBuffers signalled, rest)
    else .ok (p, polls) : Except Fault (CommandPool × List (Nat → Bool)))
  let p2 ← CommandPool.AcquireCommandBuffer.spin rest p1
  let currentCommandBuffer := CommandPool.AcquireCommandBuffer.search p2.Buffers
  CHECK (p2.NumberOfAvailableCommandBuffers ≠ 0) .noCommandBuffersAvailable
  match currentCommandBuffer with
  | none => .error .noCommandBuffersAvailable
  | some (index, buffer) =>
    CHECK (buffer.VulkanCommandBufferAllocated ≠ VK_NULL_HANDLE) .noCommandBuffersAvailable
    let acquired : CommandBufferData :=
      { buffer with
          Handle := { buffer.Handle with ID := p2.SubmitCounter }
          VulkanCommandBuffer := buffer.VulkanCommandBufferAllocated
          isEncoding := true }
    pure
      ({ p2 with
          Buffers := p2.Buffers.set index acquired
          NumberOfAvailableCommandBuffers := u32 (p2.NumberOfAvailableCommandBuffers + (2 ^ 32 - 1))
          NextSubmitHandle := acquired.Handle },
        index)

/-- `CommandPool::Wait` (lines 496-520). `fastCheckDefault` is the default argument of `IsReady`
(declared in a header outside `src/`, so it is a parameter here); `poll` gives the fence statuses
seen by `IsReady`, `later` those seen by `TryResetCommandBuffers`. The blocking
`vkWaitForFences(..., UINT64_MAX)` returns once the fence of the slot is signalled, so the
`TryResetCommandBuffers` that follows finds that fence signalled. -/
def CommandPool.Wait (fastCheckDefault : Bool) (poll later : Nat → Bool) (p : CommandPool)
    (handle : SubmitHandle) : Except Fault CommandPool :=
  if handle.Empty then .ok p
  else do
    let ready ← CommandPool.IsReady poll p handle fastCheckDefault
    if ready then pure p
    else
      match p.Buffers[handle.BufferIndex]? with
      | none => .error .invalidMemoryAccess
      | some buffer => do
        CHECK (buffer.isEncoding = false) .bufferNotSubmittedYet
        pure (p.TryResetCommandBuffers fun f => f = buffer.Fence ∨ later f = true)

/-- Acquire-then-submit use of the pool: for each element of the list, one `AcquireCommandBuffer`
(with that element as its fence observations) followed by the `Submit` of the slot it returned.
Returns the handles that `Submit` returned, oldest first. -/
def CommandPool.frames :
    List (List (Nat → Bool)) → CommandPool → Except Fault (CommandPool × List SubmitHandle)
  | [], p => .ok (p, [])
  | polls :: rest, p => do
    let (p1, slot) ← p.AcquireCommandBuffer polls
    let (p2, handle) ← p1.Submit slot
    let (p3, handles) ← CommandPool.frames rest p2
    pure (p3, handle :: handles)

/-! ## Textures -/

/-- Modelled from the spec: `EOS::TextureHandle` is declared in a header outside `src/`; it is the
opaque pair (index, generation) of section 3, generation 0 being the empty handle `{}`. -/
structure TextureHandle where
  index : Nat
  gen : Nat
  deriving DecidableEq, Repr

/-- Modelled from the spec: the conversion of a handle to `bool` and `Valid()`, declared in a
header outside `src/`: the handle is not the empty one. -/
def TextureHandle.Valid (h : TextureHandle) : Bool := h.gen != 0

/-- The members of `VulkanImage` that the modelled functions read. `IsSwapChain` stands for
`ImageType == EOS::ImageType::SwapChain`; `ImageViewForFramebuffer` is the array indexed by mip
level and layer. -/
structure VulkanImage where
  Image : Nat
  ImageView : Nat
  ImageViewStorage : Nat
  ImageViewForFramebuffer : List (List Nat)
  ImageFormat : Nat
  IsSwapChain : Bool
  IsOwningImage : Bool
  deriving DecidableEq, Repr

/-- One slot of the texture pool: its generation and the object it holds, if any. -/
structure PoolEntry where
  gen : Nat
  obj : Option VulkanImage
  deriving DecidableEq, Repr

/-- Modelled from the spec: the generational `TexturePool` is declared in a header outside `src/`.
A handle resolves iff the slot at its index still holds an object whose generation equals the
handle's generation (section 3). -/
structure VulkanTexturePool where
  Objects : List PoolEntry
  deriving DecidableEq, Repr

/-- Modelled from the spec: `TexturePool.Get`, the object a handle resolves to, or `none`
(`nullptr`). -/
def VulkanTexturePool.Get (pool : VulkanTexturePool) (h : TextureHandle) : Option VulkanImage :=
  match pool.Objects[h.index]? with
  | none => none
  | some e => if e.gen = h.gen then e.obj else none

/-- Modelled from the spec: `TexturePool.Create`, which stores the object in a new slot of
generation 1 and returns its handle. -/
def VulkanTexturePool.Create (pool : VulkanTexturePool) (image : VulkanImage) :
    VulkanTexturePool × TextureHandle :=
  ({ Objects := pool.Objects ++ [{ gen := 1, obj := some image }] },
    { index := pool.Objects.length, gen := 1 })

/-- Modelled from the spec: `TexturePool.Destroy`, which releases the slot of a handle that
resolves and bumps its generation, so that the handle is invalid at once. -/
def VulkanTexturePool.Destroy (pool : VulkanTexturePool) (h : TextureHandle) : VulkanTexturePool :=
  match pool.Objects[h.index]? with
  | none => pool
  | some e =>
    if e.gen = h.gen ∧ e.obj.isSome = true then
      { Objects := pool.Objects.set h.index { gen := e.gen + 1, obj := none } }
    else pool

/-! ## Shader modules -/

/-- Modelled from the spec: `EOS::ShaderModuleHandle` is declared in a header outside `src/`; like
every handle of section 3 it is the opaque pair (index, generation). -/
structure ShaderModuleHandle where
  index : Nat
  gen : Nat
  deriving DecidableEq, Repr

/-- The members of `VulkanShaderModuleState` that `CreateShaderModule` fills (lines 890-894). -/
structure VulkanShaderModuleState where
  ShaderModule : Nat
  PushConstantsSize : Nat
  deriving DecidableEq, Repr

/-- One slot of the shader-module pool: its generation and the object it holds, if any. -/
structure ShaderModulePoolEntry where
  gen : Nat
  obj : Option VulkanShaderModuleState
  deriving DecidableEq, Repr

/-- Modelled from the spec: the generational `ShaderModulePool` is declared in a header outside
`src/`; it is the same pool template as `TexturePool`, holding `VulkanShaderModuleState` objects. -/
structure VulkanShaderModulePool where
  Objects : List ShaderModulePoolEntry
  deriving DecidableEq, Repr

/-- Modelled from the spec: `ShaderModulePool.Get`, the object a handle resolves to, or `none`
(`nullptr`). -/
def VulkanShaderModulePool.Get (pool : VulkanShaderModulePool) (h : ShaderModuleHandle) :
    Option VulkanShaderModuleState :=
  match pool.Objects[h.index]? with
  | none => none
  | some e => if e.gen = h.gen then e.obj else none

/-- Modelled from the spec: `ShaderModulePool.Create`, which stores the object in a new slot of
generation 1 and returns its handle. -/
def VulkanShaderModulePool.Create (pool : VulkanShaderModulePool)
    (state : VulkanShaderModuleState) : VulkanShaderModulePool × ShaderModuleHandle :=
  ({ Objects := pool.Objects ++ [{ gen := 1, obj := some state }] },
    { index := pool.Objects.length, gen := 1 })

/-- Modelled from the spec: `ShaderModulePool.Destroy`, which releases the slot of a handle that
resolves and bumps its generation, so that the handle is invalid at once. -/
def VulkanShaderModulePool.Destroy (pool : VulkanShaderModulePool) (h : ShaderModuleHandle) :
    VulkanShaderModulePool :=
  match pool.Objects[h.index]? with
  | none => pool
  | some e =>
    if e.gen = h.gen ∧ e.obj.isSome = true then
      { Objects := pool.Objects.set h.index { gen := e.gen + 1, obj := none } }
    else pool

/-! ## Swapchain -/

/-- The state of a `VulkanSwapChain`. `Waited` lists the timeline values passed to
`vkWaitSemaphores`, `Acquired` the (semaphore, returned image index) of the
`vkAcquireNextImageKHR` calls and `Presented` the (wait semaphore, image index) of the
`vkQueuePresentKHR` calls, oldest first. -/
structure VulkanSwapChain where
  NumberOfSwapChainImages : Nat
  CurrentImageIndex : Nat
  CurrentFrame : Nat
  GetNextImage : Bool
  AcquireSemaphores : List Nat
  Textures : List TextureHandle
  TimelineWaitValues : List Nat
  Waited : List Nat
  Acquired : List (Nat × Nat)
  Presented : List (Nat × Nat)
  deriving DecidableEq, Repr

/-- `VulkanSwapChain::Present` (lines 291-308). `CurrentFrame` is a 64-bit counter. -/
def VulkanSwapChain.Present (sc : VulkanSwapChain) (waitSemaphore : Nat) : VulkanSwapChain :=
  { sc with
      Presented := sc.Presented ++ [(waitSemaphore, sc.CurrentImageIndex)]
      GetNextImage := true
      CurrentFrame := u64 (sc.CurrentFrame + 1) }

/-- `VulkanSwapChain::GetAndWaitOnNextImage` (lines 339-362). `acquired` is the image index that
`vkAcquireNextImageKHR` writes into `CurrentImageIndex`. The wait value and the acquire semaphore
are read at `CurrentImageIndex` before the acquire overwrites it. -/
def VulkanSwapChain.GetAndWaitOnNextImage (acquired : Nat) (sc : VulkanSwapChain)
    (pool : CommandPool) : Except Fault (VulkanSwapChain × CommandPool) :=
  if sc.GetNextImage = true then
    match sc.TimelineWaitValues[sc.CurrentImageIndex]?, sc.AcquireSemaphores[sc.CurrentImageIndex]? with
    | some waitValue, some acquireSemaphore => do
      let pool1 ← pool.WaitSemaphore acquireSemaphore
      pure
        ({ sc with
            Waited := sc.Waited ++ [waitValue]
            Acquired := sc.Acquired ++ [(acquireSemaphore, acquired)]
            CurrentImageIndex := acquired
            GetNextImage := false },
          pool1)
    | _, _ => .error .invalidMemoryAccess
  else .ok (sc, pool)

/-- `VulkanSwapChain::GetCurrentTexture` (lines 332-337). -/
def VulkanSwapChain.GetCurrentTexture (acquired : Nat) (sc : VulkanSwapChain) (pool : CommandPool) :
    Except Fault (VulkanSwapChain × CommandPool × TextureHandle) := do
  let (sc1, pool1) ← sc.GetAndWaitOnNextImage acquired pool
  CHECK (sc1.CurrentImageIndex < sc1.NumberOfSwapChainImages) .imageIndexTooBig
  match sc1.Textures[sc1.CurrentImageIndex]? with
  | none => .error .invalidMemoryAccess
  | some t => pure (sc1, pool1, t)

/-! ## Context -/

/-- The closures handed to `Defer`: the destruction of an image view (the only task the modelled
code creates) or any other task, named by a number. -/
inductive PackagedTask where
  | destroyImageView (device imageView : Nat)
  | other (id : Nat)
  deriving DecidableEq, Repr

/-- An entry of `VulkanContext::DeferredTasks`. -/
structure DeferredTask where
  Task : PackagedTask
  Handle : SubmitHandle
  deriving DecidableEq, Repr

/-- The `CommandBuffer` object held in `VulkanContext::CurrentCommandBuffer`: `VkContext` tells
whether the context pointer is set (the value of `operator bool`), `CommandBufferImpl` is the slot
it wraps (`none` for `nullptr`). -/
structure CommandBuffer where
  VkContext : Bool
  CommandBufferImpl : Option Nat
  LastSubmitHandle : SubmitHandle
  deriving DecidableEq, Repr

/-- The default-constructed `CommandBuffer{}`. -/
def CommandBuffer.empty : CommandBuffer :=
  { VkContext := false, CommandBufferImpl := none, LastSubmitHandle := { BufferIndex := 0, ID := 0 } }

/-- The state of a `VulkanContext`. `EOS_DEBUG` is the build flag of the same name,
`TimelineInitialValue` the initial value the timeline semaphore was created with, `Executed`
the deferred tasks that have run and `DestroyedShaderModules` the modules passed to
`vkDestroyShaderModule`, oldest first. -/
structure VulkanContext where
  EOS_DEBUG : Bool
  VulkanDevice : Nat
  SwapChain : Option VulkanSwapChain
  TimelineSemaphore : Nat
  TimelineInitialValue : Nat
  VulkanCommandPool : CommandPool
  TexturePool : VulkanTexturePool
  DeferredTasks : List DeferredTask
  CurrentCommandBuffer : CommandBuffer
  Executed : List PackagedTask
  ShaderModulePool : VulkanShaderModulePool
  DestroyedShaderModules : List Nat
  deriving DecidableEq, Repr

/-- `VulkanContext::HasSwapChain` (lines 1000-1003). -/
def VulkanContext.HasSwapChain (c : VulkanContext) : Bool := c.SwapChain.isSome

/-- The loop of `VulkanContext::ProcessDeferredTasks` (lines 978-985) on the queue `tasks`, with
the tasks run so far in `executed`: returns the queue and the executed tasks at the point where the
loop stops, and the fault if it stops because the `CHECK` inside `IsReady` fails. The fast check
never polls a fence. -/
def VulkanContext.ProcessDeferredTasks.loop (pool : CommandPool) :
    List DeferredTask → List PackagedTask → (List DeferredTask × List PackagedTask) × Option Fault
  | [], executed => (([], executed), none)
  | front :: rest, executed =>
    match pool.IsReady (fun _ => false) front.Handle true with
    | .error e => ((front :: rest, executed), some e)
    | .ok false => ((front :: rest, executed), none)
    | .ok true => VulkanContext.ProcessDeferredTasks.loop pool rest (executed ++ [front.Task])

/-- `VulkanContext::ProcessDeferredTasks` (lines 976-986): the context at the point where the loop
stops and the fault, if any, that stopped it. -/
def VulkanContext.ProcessDeferredTasks (c : VulkanContext) : VulkanContext × Option Fault :=
  let r := VulkanContext.ProcessDeferredTasks.loop c.VulkanCommandPool c.DeferredTasks c.Executed
  ({ c with DeferredTasks := r.1.1, Executed := r.1.2 }, r.2)

/-- `VulkanContext::Defer` (lines 989-997). -/
def VulkanContext.Defer (c : VulkanContext) (task : PackagedTask) (handle : SubmitHandle) :
    VulkanContext :=
  let handle := if handle.Empty then c.VulkanCommandPool.GetNextSubmitHandle else handle
  { c with DeferredTasks := c.DeferredTasks ++ [{ Task := task, Handle := handle }] }

/-- `VulkanContext::AcquireCommandBuffer` (lines 809-814); `polls` as in
`CommandPool.AcquireCommandBuffer`. -/
def VulkanContext.AcquireCommandBuffer (polls : List (Nat → Bool)) (c : VulkanContext) :
    Except Fault VulkanContext := do
  CHECK (c.CurrentCommandBuffer.VkContext = false) .anotherCommandBufferAcquired
  let (pool, slot) ← c.VulkanCommandPool.AcquireCommandBuffer polls
  pure
    { c with
        VulkanCommandPool := pool
        CurrentCommandBuffer :=
          { VkContext := true, CommandBufferImpl := some slot
            LastSubmitHandle := { BufferIndex := 0, ID := 0 } } }

/-- The debug-only block of `VulkanContext::Submit` (lines 821-827): a non-empty present handle
must resolve to a swapchain image. -/
def VulkanContext.Submit.debugCheck (present : TextureHandle) (c : VulkanContext) :
    Except Fault Unit :=
  if c.EOS_DEBUG = true ∧ present.Valid = true then
    match c.TexturePool.Get present with
    | none => .error .invalidMemoryAccess
    | some image => CHECK (image.IsSwapChain = true) .presentNotSwapChain
  else .ok ()

/-- The value of `shouldPresent` in `VulkanContext::Submit` (line 829). -/
def VulkanContext.Submit.shouldPresent (present : TextureHandle) (c : VulkanContext) : Bool :=
  c.HasSwapChain && present.Valid

/-- The block of `VulkanContext::Submit` that programs the timeline signal when presenting
(lines 832-840): the signal value is `CurrentFrame + NumberOfSwapChainImages` as a `uint64_t`; it
is stored at `TimelineWaitValues[CurrentImageIndex]` and handed to `CommandPool::Signal`. -/
def VulkanContext.Submit.signal (present : TextureHandle) (c : VulkanContext) :
    Except Fault (Option VulkanSwapChain × CommandPool) :=
  match VulkanContext.Submit.shouldPresent present c, c.SwapChain with
  | true, some sc => do
    let signalValue := u64 (sc.CurrentFrame + sc.NumberOfSwapChainImages)
    CHECK (sc.CurrentImageIndex < sc.TimelineWaitValues.length) .invalidMemoryAccess
    let pool1 ← c.VulkanCommandPool.Signal c.TimelineSemaphore signalValue
    pure
      (some { sc with
          TimelineWaitValues := sc.TimelineWaitValues.set sc.CurrentImageIndex signalValue },
        pool1)
  | _, sc => .ok (sc, c.VulkanCommandPool)

/-- The block of `VulkanContext::Submit` that presents (lines 844-847):
`SwapChain->Present(VulkanCommandPool->AcquireLastSubmitSemaphore())`. -/
def VulkanContext.Submit.present (shouldPresent : Bool) (swapChain : Option VulkanSwapChain)
    (pool : CommandPool) : Option VulkanSwapChain × CommandPool :=
  match shouldPresent, swapChain with
  | true, some sc => (some (sc.Present pool.AcquireLastSubmitSemaphore.2),
      pool.AcquireLastSubmitSemaphore.1)
  | _, sc => (sc, pool)

/-- `VulkanContext::Submit` (lines 816-857) of the command buffer handed out by
`AcquireCommandBuffer` (the object `CurrentCommandBuffer`), with `present` as present target. -/
def VulkanContext.Submit (present : TextureHandle) (c : VulkanContext) :
    Except Fault (VulkanContext × SubmitHandle) := do
  VulkanContext.Submit.debugCheck present c
  let (swapChain1, pool1) ← VulkanContext.Submit.signal present c
  let slot ←
    (match c.CurrentCommandBuffer.CommandBufferImpl with
      | none => .error .invalidMemoryAccess
      | some slot => .ok slot : Except Fault Nat)
  let (pool2, lastSubmitHandle) ← pool1.Submit slot
  let presented :=
    VulkanContext.Submit.present (VulkanContext.Submit.shouldPresent present c) swapChain1 pool2
  let c1 : VulkanContext :=
    { c with
        SwapChain := presented.1
        VulkanCommandPool := presented.2
        CurrentCommandBuffer := { c.CurrentCommandBuffer with LastSubmitHandle := lastSubmitHandle } }
  match c1.ProcessDeferredTasks with
  | (_, some e) => .error e
  | (c2, none) =>
    let handle := c2.CurrentCommandBuffer.LastSubmitHandle
    pure ({ c2 with CurrentCommandBuffer := CommandBuffer.empty }, handle)

/-- `VulkanContext::GetSwapChainTexture` (lines 859-872); `acquired` as in
`VulkanSwapChain.GetAndWaitOnNextImage`. -/
def VulkanContext.GetSwapChainTexture (acquired : Nat) (c : VulkanContext) :
    Except Fault (VulkanContext × TextureHandle) :=
  match c.SwapChain with
  | none => .error .noSwapChain
  | some sc => do
    let (sc1, pool1, swapChainTexture) ← sc.GetCurrentTexture acquired c.VulkanCommandPool
    CHECK (swapChainTexture.Valid = true) .swapChainTextureInvalid
    match c.TexturePool.Get swapChainTexture with
    | none => .error .invalidMemoryAccess
    | some image =>
      CHECK (image.ImageFormat ≠ 0) .invalidImageFormat
      pure ({ c with SwapChain := some sc1, VulkanCommandPool := pool1 }, swapChainTexture)

/-- The views whose destruction `VulkanContext::Destroy(TextureHandle)` defers, in the order of
lines 908-925: the main view, the storage view if set, every populated framebuffer view. -/
def VulkanContext.Destroy.views (image : VulkanImage) : List Nat :=
  [image.ImageView] ++
  (if image.ImageViewStorage ≠ VK_NULL_HANDLE then [image.ImageViewStorage] else []) ++
  (image.ImageViewForFramebuffer.map fun row => row.filter fun v => v ≠ VK_NULL_HANDLE).flatten

/-- `VulkanContext::Destroy(EOS::TextureHandle)` (lines 899-960). A handle that does not resolve
fails the `CHECK` of line 902. Both branches on `IsOwningImage` release the pool slot; the
deferred destruction of the image itself is commented out in the source. -/
def VulkanContext.Destroy (handle : TextureHandle) (c : VulkanContext) :
    Except Fault VulkanContext :=
  match c.TexturePool.Get handle with
  | none => .error .alreadyDestroyedImage
  | some image =>
    let c1 := (VulkanContext.Destroy.views image).foldl
      (fun c v => c.Defer (.destroyImageView c.VulkanDevice v) { BufferIndex := 0, ID := 0 }) c
    .ok { c1 with TexturePool := c1.TexturePool.Destroy handle }

/-- The call `VulkanCommandPool->Wait(handle)` on the pool of the context; the arguments are those
of `CommandPool.Wait`. -/
def VulkanContext.Wait (fastCheckDefault : Bool) (poll later : Nat → Bool) (handle : SubmitHandle)
    (c : VulkanContext) : Except Fault VulkanContext := do
  let pool ← c.VulkanCommandPool.Wait fastCheckDefault poll later handle
  pure { c with VulkanCommandPool := pool }

/-- The fast readiness test of `ProcessDeferredTasks`: `IsReady(handle, true)` returned `true`. -/
def CommandPool.readyFast (p : CommandPool) (handle : SubmitHandle) : Bool :=
  match p.IsReady (fun _ => false) handle true with
  | .ok true => true
  | _ => false

/-! ## Construction -/

/-- What the build and the driver fix when a context is constructed: the build flag, the constants
`MAX_IMAGES` and `MaxCommandBuffers` (declared in a header outside `src/`), and the handles the
driver returns for the objects created by the constructors. -/
structure ContextCreation where
  EOS_DEBUG : Bool
  device : Nat
  timelineSemaphore : Nat
  swapChainImageCount : Nat
  MAX_IMAGES : Nat
  surfaceFormat : Nat
  swapChainImage : Nat → Nat
  swapChainImageView : Nat → Nat
  acquireSemaphore : Nat → Nat
  MaxCommandBuffers : Nat
  commandBuffer : Nat → Nat
  semaphore : Nat → Nat
  fence : Nat → Nat

/-- The loop of `VulkanSwapChain::VulkanSwapChain` (lines 258-269) for the first `i` images: the
texture pool, the acquire semaphores and the texture handles it has produced. The adopted image
has its main view only. -/
def VulkanSwapChain.create.loop (d : ContextCreation) :
    Nat → VulkanTexturePool × List Nat × List TextureHandle
  | 0 => ({ Objects := [] }, [], [])
  | i + 1 =>
    let r := VulkanSwapChain.create.loop d i
    let created := r.1.Create
      { Image := d.swapChainImage i
        ImageView := d.swapChainImageView i
        ImageViewStorage := VK_NULL_HANDLE
        ImageViewForFramebuffer := []
        ImageFormat := d.surfaceFormat
        IsSwapChain := true
        IsOwningImage := false }
    (created.1, r.2.1 ++ [d.acquireSemaphore i], r.2.2 ++ [created.2])

/-- The part of `VulkanSwapChain::VulkanSwapChain` that sets up the per-image state
(lines 231-269), with the texture pool it fills: the state the constructor leaves when it
returns. The checks under which it returns are those of `VulkanSwapChain.construct`.
Modelled from the spec: the member initialisers are in a header outside `src/`; the frame counter
and the image index start at 0 and the first `GetCurrentTexture` acquires an image. -/
def VulkanSwapChain.create (d : ContextCreation) : VulkanSwapChain × VulkanTexturePool :=
  let numberOfSwapChainImages := min (u32 d.swapChainImageCount) d.MAX_IMAGES
  let r := VulkanSwapChain.create.loop d numberOfSwapChainImages
  ({ NumberOfSwapChainImages := numberOfSwapChainImages
     CurrentImageIndex := 0
     CurrentFrame := 0
     GetNextImage := true
     AcquireSemaphores := r.2.1
     Textures := r.2.2
     TimelineWaitValues := List.replicate numberOfSwapChainImages 0
     Waited := []
     Acquired := []
     Presented := [] },
    r.1)

/-- The constructor `VulkanContext::VulkanContext` (lines 732-773): swapchain, then the timeline
semaphore with initial value `GetNumSwapChainImages() - 1`, then the command pool. -/
def VulkanContext.create (d : ContextCreation) : VulkanContext :=
  let sc := VulkanSwapChain.create d
  { EOS_DEBUG := d.EOS_DEBUG
    VulkanDevice := d.device
    SwapChain := some sc.1
    TimelineSemaphore := d.timelineSemaphore
    TimelineInitialValue := u32 (sc.1.NumberOfSwapChainImages + (2 ^ 32 - 1))
    VulkanCommandPool := CommandPool.create d.MaxCommandBuffers d.commandBuffer d.semaphore d.fence
    TexturePool := sc.2
    DeferredTasks := []
    CurrentCommandBuffer := CommandBuffer.empty
    Executed := []
    ShaderModulePool := { Objects := [] }
    DestroyedShaderModules := [] }

/-! ## Runs -/

/-- The calls a client makes on a context, with what the driver answers during each. -/
inductive Op where
  | acquireCommandBuffer (polls : List (Nat → Bool))
  | submit (present : TextureHandle)
  | getSwapChainTexture (acquired : Nat)
  | defer (task : PackagedTask) (handle : SubmitHandle)
  | destroy (handle : TextureHandle)
  | wait (fastCheckDefault : Bool) (poll later : Nat → Bool) (handle : SubmitHandle)

/-- Whether the call is a `Submit`. -/
def Op.isSubmit : Op → Bool
  | .submit _ => true
  | _ => false

/-- One call on the context. -/
def VulkanContext.step (c : VulkanContext) : Op → Except Fault VulkanContext
  | .acquireCommandBuffer polls => c.AcquireCommandBuffer polls
  | .submit present => (c.Submit present).map fun r => r.1
  | .getSwapChainTexture acquired => (c.GetSwapChainTexture acquired).map fun r => r.1
  | .defer task handle => .ok (c.Defer task handle)
  | .destroy handle => c.Destroy handle
  | .wait fastCheckDefault poll later handle => c.Wait fastCheckDefault poll later handle

/-- A sequence of calls on the context, stopping at the first fault. -/
def VulkanContext.run (c : VulkanContext) : List Op → Except Fault VulkanContext
  | [] => .ok c
  | op :: ops =>
    match c.step op with
    | .error e => .error e
    | .ok c1 => VulkanContext.run c1 ops

/-- The state a sequence of calls ends in, or the starting state when the sequence faults. -/
def VulkanContext.runD (c : VulkanContext) (ops : List Op) : VulkanContext :=
  match c.run ops with
  | .ok c1 => c1
  | .error _ => c

/-- The result of acquire-then-submit use of the pool, or the starting pool and no handle when it
faults. -/
def CommandPool.framesD (p : CommandPool) (polls : List (List (Nat → Bool))) :
    CommandPool × List SubmitHandle :=
  match p.frames polls with
  | .ok r => r
  | .error _ => (p, [])

/-- The bookkeeping that holds between two calls on a context: a slot that is encoding is the one
wrapped by `CurrentCommandBuffer`, an unset `CurrentCommandBuffer` wraps no slot, and no timeline
signal is pending in the pool. -/
def VulkanContext.Inv (c : VulkanContext) : Prop :=
  (∀ i b, c.VulkanCommandPool.Buffers[i]? = some b → b.isEncoding = true →
    c.CurrentCommandBuffer.CommandBufferImpl = some i) ∧
  (c.CurrentCommandBuffer.VkContext = false → c.CurrentCommandBuffer.CommandBufferImpl = none) ∧
  c.VulkanCommandPool.SignalSemaphore.semaphore = VK_NULL_HANDLE

/-- The timeline signal values programmed by the submissions of a queue, oldest first. The signal
list of a submission is the slot's own semaphore followed by the pending timeline signal, if any,
so the value is read from the second entry. -/
def timelineSignals (queue : List SubmitInfo) : List Nat :=
  queue.filterMap fun info => info.signals[1]?.map fun signal => signal.value

/-- The number of presenting submits among the calls made on a context: the `Submit` calls with a
non-empty present target. -/
def Op.presents : List Op → Nat
  | [] => 0
  | .submit present :: ops => (if present.Valid = true then 1 else 0) + Op.presents ops
  | _ :: ops => Op.presents ops

/-- The pacing state of a context with `n` swapchain images after `k` presenting submits: the
bookkeeping `Inv` holds, the timeline semaphore was created with the initial value `n - 1` (as a
`uint32_t`), the frame counter is `k`, `k` presents have been made, and the timeline values
programmed so far are `n`, `n + 1`, ..., `n + k - 1` (as `uint64_t`). -/
def VulkanContext.Paced (n k : Nat) (c : VulkanContext) : Prop :=
  c.Inv ∧ c.TimelineInitialValue = u32 (n + (2 ^ 32 - 1)) ∧
  ∃ sc, c.SwapChain = some sc ∧ sc.NumberOfSwapChainImages = n ∧ sc.CurrentFrame = u64 k ∧
    sc.Presented.length = k ∧
    timelineSignals c.VulkanCommandPool.Queue = (List.range k).map fun j => u64 (j + n)

/-- A concrete construction used to evaluate the model: three swapchain images, two command
buffers, handles numbered from distinct non-null ranges. -/
def exampleCreation : ContextCreation :=
  { EOS_DEBUG := true
    device := 1
    timelineSemaphore := 2
    swapChainImageCount := 3
    MAX_IMAGES := 16
    surfaceFormat := 43
    swapChainImage := fun i => 100 + i
    swapChainImageView := fun i => 200 + i
    acquireSemaphore := fun i => 300 + i
    MaxCommandBuffers := 2
    commandBuffer := fun i => 400 + i
    semaphore := fun i => 500 + i
    fence := fun i => 600 + i }

/-- The command pool constructed with the handles of `exampleCreation` and the given number of
slots. -/
def examplePool (maxCommandBuffers : Nat) : CommandPool :=
  CommandPool.create maxCommandBuffers exampleCreation.commandBuffer exampleCreation.semaphore
    exampleCreation.fence

/-- A texture that is not a swapchain image, with a storage view and one populated framebuffer
view. -/
def exampleTexture : VulkanImage :=
  { Image := 110
    ImageView := 210
    ImageViewStorage := 211
    ImageViewForFramebuffer := [[212, 0], [0, 0]]
    ImageFormat := 37
    IsSwapChain := false
    IsOwningImage := true }

/-- The context constructed from `exampleCreation`, with `exampleTexture` created in its texture
pool (it gets the handle of index 3, generation 1). -/
def exampleContext : VulkanContext :=
  { VulkanContext.create exampleCreation with
      TexturePool := ((VulkanContext.create exampleCreation).TexturePool.Create exampleTexture).1 }

/-- The calls of frame `f` of the pacing scenario with three swapchain images acquired in
round-robin order: acquire a command buffer, get the swapchain texture (the driver hands out image
`f mod 3`), submit with that texture as present target. Every fence polled is reported
signalled. -/
def pacingFrame (f : Nat) : List Op :=
  [.acquireCommandBuffer [fun _ => true],
   .getSwapChainTexture (f % 3),
   .submit { index := f % 3, gen := 1 }]

/-- The calls of the first `n` frames of the pacing scenario. -/
def pacingFrames (n : Nat) : List Op := ((List.range n).map pacingFrame).flatten

/-- The example context after a command buffer has been acquired and the swapchain texture
of image 0 obtained: the state in which the first frame is submitted. -/
def exampleRecording : VulkanContext :=
  (VulkanContext.create exampleCreation).runD [.acquireCommandBuffer [], .getSwapChainTexture 0]

/-- The example context after one frame has been submitted without presenting. -/
def exampleSubmitted : VulkanContext :=
  (VulkanContext.create exampleCreation).runD
    [.acquireCommandBuffer [], .submit { index := 0, gen := 0 }]

/-- The context on which `C3_witness` runs `ProcessDeferredTasks`: one frame submitted (slot 0
pending under the ID 1), then three tasks deferred, on a free slot, on the pending submission and
on a free slot again. -/
def exampleQueueContext : VulkanContext :=
  (VulkanContext.create exampleCreation).runD
    [.acquireCommandBuffer [], .submit { index := 0, gen := 0 },
     .defer (.other 1) { BufferIndex := 1, ID := 7 },
     .defer (.other 2) { BufferIndex := 0, ID := 1 },
     .defer (.other 3) { BufferIndex := 1, ID := 7 }]

/-! ## Creating and destroying a shader module -/

/-- `CommandPool::WaitAll` (lines 475-494). The blocking `vkWaitForFences` on the fences of the
pending slots returns once all of them are signalled, so the `TryResetCommandBuffers` that follows
finds them signalled; `later` gives the status of the other fences. -/
def CommandPool.WaitAll (later : Nat → Bool) (p : CommandPool) : CommandPool :=
  let fences := (p.Buffers.filter fun buffer =>
    buffer.VulkanCommandBuffer ≠ VK_NULL_HANDLE ∧ buffer.isEncoding = false).map fun buffer =>
      buffer.Fence
  if fences.length ≠ 0 then p.TryResetCommandBuffers fun f => f ∈ fences ∨ later f = true
  else p.TryResetCommandBuffers later

/-- The calls a client makes on a command pool, with what the driver answers during each. -/
inductive PoolOp where
  | acquireCommandBuffer (polls : List (Nat → Bool))
  | submit (data : Nat)
  | tryResetCommandBuffers (signalled : Nat → Bool)
  | wait (fastCheckDefault : Bool) (poll later : Nat → Bool) (handle : SubmitHandle)
  | waitAll (later : Nat → Bool)
  | waitSemaphore (semaphore : Nat)
  | signal (semaphore signalValue : Nat)
  | acquireLastSubmitSemaphore

/-- One call on the pool. -/
def CommandPool.call (p : CommandPool) : PoolOp → Except Fault CommandPool
  | .acquireCommandBuffer polls => (p.AcquireCommandBuffer polls).map fun r => r.1
  | .submit data => (p.Submit data).map fun r => r.1
  | .tryResetCommandBuffers signalled => .ok (p.TryResetCommandBuffers signalled)
  | .wait fastCheckDefault poll later handle => p.Wait fastCheckDefault poll later handle
  | .waitAll later => .ok (p.WaitAll later)
  | .waitSemaphore semaphore => p.WaitSemaphore semaphore
  | .signal semaphore signalValue => p.Signal semaphore signalValue
  | .acquireLastSubmitSemaphore => .ok p.AcquireLastSubmitSemaphore.1

/-- A sequence of calls on the pool, stopping at the first fault. -/
def CommandPool.calls (p : CommandPool) : List PoolOp → Except Fault CommandPool
  | [] => .ok p
  | op :: ops =>
    match p.call op with
    | .error e => .error e
    | .ok p1 => CommandPool.calls p1 ops

/-- The state a sequence of calls on the pool ends in, or the starting state when the sequence
faults. -/
def CommandPool.callsD (p : CommandPool) (ops : List PoolOp) : CommandPool :=
  match p.calls ops with
  | .ok p1 => p1
  | .error _ => p

/-- The number of `Submit` calls in a sequence of calls on the pool. -/
def PoolOp.submits : List PoolOp → Nat
  | [] => 0
  | .submit _ :: ops => PoolOp.submits ops + 1
  | _ :: ops => PoolOp.submits ops

/-- What holds of the handles of the slots and of the submission counter between two calls on a
pool: the counter is a non-zero 32-bit value and the slot of index `j` carries the buffer index
`j`. -/
def CommandPool.Stamped (q : CommandPool) : Prop :=
  (0 < q.SubmitCounter ∧ q.SubmitCounter < 2 ^ 32) ∧
  ∀ (j : Nat) (b : CommandBufferData), q.Buffers[j]? = some b → b.Handle.BufferIndex = j

/-- The state of slot `i` once it has been reset after a submission stamped with the counter value
`c0`, when `k` submits have been made since that stamp: the counter has advanced `k` times, and
the slot is either free or stamped with a value the counter took after `c0`. -/
def CommandPool.Recycled (i c0 k : Nat) (q : CommandPool) : Prop :=
  1 ≤ k ∧ q.SubmitCounter = CommandPool.Submit.nextCounter^[k] c0 ∧
  ∃ b, q.Buffers[i]? = some b ∧
    (b.VulkanCommandBuffer = VK_NULL_HANDLE ∨
      ∃ r, 1 ≤ r ∧ r ≤ k ∧ b.Handle.ID = CommandPool.Submit.nextCounter^[r] c0)

/-- What holds of the counter of available command buffers between two calls on a pool: there are
fewer than `2^32` slots, the counter is the number of free slots (active command buffer null), an
encoding slot has an active command buffer, and every slot has an allocated command buffer. -/
def CommandPool.Counted (q : CommandPool) : Prop :=
  q.Buffers.length < 2 ^ 32 ∧
  q.NumberOfAvailableCommandBuffers =
    q.Buffers.countP (fun b => b.VulkanCommandBuffer = VK_NULL_HANDLE) ∧
  ∀ b, b ∈ q.Buffers →
    (b.isEncoding = true → b.VulkanCommandBuffer ≠ VK_NULL_HANDLE) ∧
    b.VulkanCommandBufferAllocated ≠ VK_NULL_HANDLE

/-! ## Construction of the swapchain -/

/-- The two members of `VkSurfaceFormatKHR`. -/
structure VkSurfaceFormatKHR where
  format : Nat
  colorSpace : Nat
  deriving DecidableEq, Repr

/-- Modelled from the spec: `EOS::ColorSpace` is declared in a header outside `src/`; section 6
lists its two values. -/
inductive ColorSpace where
  | SRGB_NonLinear
  | SRGB_Linear
  deriving DecidableEq, Repr

/-- The value of `VK_FORMAT_R8G8B8A8_UNORM` in the Vulkan headers. -/
def VK_FORMAT_R8G8B8A8_UNORM : Nat := 37

/-- The value of `VK_FORMAT_R8G8B8A8_SRGB` in the Vulkan headers. -/
def VK_FORMAT_R8G8B8A8_SRGB : Nat := 43

/-- The value of `VK_COLOR_SPACE_SRGB_NONLINEAR_KHR` in the Vulkan headers. -/
def VK_COLOR_SPACE_SRGB_NONLINEAR_KHR : Nat := 0

/-- The value of `VK_COLOR_SPACE_BT709_LINEAR_EXT` in the Vulkan headers. -/
def VK_COLOR_SPACE_BT709_LINEAR_EXT : Nat := 1000104005

/-- The preferred surface format of `GetSwapChainFormat` (lines 369-375). -/
def VulkanSwapChain.GetSwapChainFormat.preferred (desiredColorSpace : ColorSpace) :
    VkSurfaceFormatKHR :=
  if desiredColorSpace = .SRGB_Linear then
    { format := VK_FORMAT_R8G8B8A8_UNORM, colorSpace := VK_COLOR_SPACE_BT709_LINEAR_EXT }
  else { format := VK_FORMAT_R8G8B8A8_SRGB, colorSpace := VK_COLOR_SPACE_SRGB_NONLINEAR_KHR }

/-- A loop `for (fmt : availableFormats) if (test fmt) return fmt;` of `GetSwapChainFormat`:
the entry it returns, or `none` when it runs to the end. -/
def VulkanSwapChain.GetSwapChainFormat.scan (test : VkSurfaceFormatKHR → Bool) :
    List VkSurfaceFormatKHR → Option VkSurfaceFormatKHR
  | [] => none
  | fmt :: rest =>
    if test fmt = true then some fmt else VulkanSwapChain.GetSwapChainFormat.scan test rest

/-- `VulkanSwapChain::GetSwapChainFormat` (lines 364-391). Reading `availableFormats[0]` of an
empty vector is an access outside the array. -/
def VulkanSwapChain.GetSwapChainFormat (availableFormats : List VkSurfaceFormatKHR)
    (desiredColorSpace : ColorSpace) : Except Fault VkSurfaceFormatKHR :=
  let preferred := VulkanSwapChain.GetSwapChainFormat.preferred desiredColorSpace
  match VulkanSwapChain.GetSwapChainFormat.scan
      (fun fmt => fmt.format = preferred.format ∧ fmt.colorSpace = preferred.colorSpace)
      availableFormats with
  | some fmt => .ok fmt
  | none =>
    match VulkanSwapChain.GetSwapChainFormat.scan (fun fmt => fmt.format = preferred.format)
        availableFormats with
    | some fmt => .ok fmt
    | none =>
      match availableFormats[0]? with
      | some fmt => .ok fmt
      | none => .error .invalidMemoryAccess

/-- The value of `VK_IMAGE_USAGE_TRANSFER_SRC_BIT` in the Vulkan headers. -/
def VK_IMAGE_USAGE_TRANSFER_SRC_BIT : Nat := 0x1

/-- The value of `VK_IMAGE_USAGE_TRANSFER_DST_BIT` in the Vulkan headers. -/
def VK_IMAGE_USAGE_TRANSFER_DST_BIT : Nat := 0x2

/-- The value of `VK_IMAGE_USAGE_STORAGE_BIT` in the Vulkan headers. -/
def VK_IMAGE_USAGE_STORAGE_BIT : Nat := 0x8

/-- The value of `VK_IMAGE_USAGE_COLOR_ATTACHMENT_BIT` in the Vulkan headers. -/
def VK_IMAGE_USAGE_COLOR_ATTACHMENT_BIT : Nat := 0x10

/-- The value of `VK_FORMAT_FEATURE_SAMPLED_IMAGE_BIT` in the Vulkan headers. -/
def VK_FORMAT_FEATURE_SAMPLED_IMAGE_BIT : Nat := 0x1

/-- The value of `VK_FORMAT_FEATURE_STORAGE_IMAGE_BIT` in the Vulkan headers. -/
def VK_FORMAT_FEATURE_STORAGE_IMAGE_BIT : Nat := 0x2

/-- The value of `VK_COMPOSITE_ALPHA_OPAQUE_BIT_KHR` in the Vulkan headers. -/
def VK_COMPOSITE_ALPHA_OPAQUE_BIT_KHR : Nat := 0x1

/-- The value of `VK_COMPOSITE_ALPHA_INHERIT_BIT_KHR` in the Vulkan headers. -/
def VK_COMPOSITE_ALPHA_INHERIT_BIT_KHR : Nat := 0x8

/-- The local `isStorageSupported` of the constructor (line 198):
`(supportedUsageFlags & VK_IMAGE_USAGE_STORAGE_BIT) > 0`. -/
def VulkanSwapChain.isStorageSupported (supportedUsageFlags : Nat) : Bool :=
  decide ((u32 supportedUsageFlags &&& VK_IMAGE_USAGE_STORAGE_BIT) > 0)

/-- The local `isTilingOptimalSupported` of the constructor (line 199):
`(optimalTilingFeatures & VK_IMAGE_USAGE_STORAGE_BIT > 0)`. In C++ `>` binds tighter than `&`, so
the flags are and-ed with the value of the comparison `VK_IMAGE_USAGE_STORAGE_BIT > 0`, which is
1 for `true`, and the result is converted to `bool`. -/
def VulkanSwapChain.isTilingOptimalSupported (optimalTilingFeatures : Nat) : Bool :=
  decide ((u32 optimalTilingFeatures &&& (if VK_IMAGE_USAGE_STORAGE_BIT > 0 then 1 else 0)) ≠ 0)

/-- The image usage flags computed by `VulkanSwapChain::VulkanSwapChain` (lines 196-203). -/
def VulkanSwapChain.usageFlags (supportedUsageFlags optimalTilingFeatures : Nat) : Nat :=
  let usageFlags := VK_IMAGE_USAGE_COLOR_ATTACHMENT_BIT ||| VK_IMAGE_USAGE_TRANSFER_DST_BIT |||
    VK_IMAGE_USAGE_TRANSFER_SRC_BIT
  if (VulkanSwapChain.isStorageSupported supportedUsageFlags &&
      VulkanSwapChain.isTilingOptimalSupported optimalTilingFeatures) = true then
    usageFlags ||| VK_IMAGE_USAGE_STORAGE_BIT
  else usageFlags

/-- What the driver answers while `VulkanSwapChain::VulkanSwapChain` prepares the swapchain: the
members of `VulkanSwapChainSupportDetails` that the constructor reads, whether the queue family
supports presentation, and the `optimalTilingFeatures` of each format. -/
structure SwapChainSupport where
  minImageCount : Nat
  supportedUsageFlags : Nat
  supportedCompositeAlpha : Nat
  formats : List VkSurfaceFormatKHR
  queueFamilySupportsPresentation : Bool
  optimalTilingFeatures : Nat → Nat

/-- The members of `VkSwapchainCreateInfoKHR` that depend on what the surface supports. -/
structure VkSwapchainCreateInfoKHR where
  minImageCount : Nat
  imageFormat : Nat
  imageColorSpace : Nat
  imageUsage : Nat
  compositeAlpha : Nat
  deriving DecidableEq, Repr

/-- The request `createInfo` that `VulkanSwapChain::VulkanSwapChain` hands to
`vkCreateSwapchainKHR` (lines 171-229). -/
def VulkanSwapChain.createInfo (support : SwapChainSupport) (desiredColorSpace : ColorSpace) :
    Except Fault VkSwapchainCreateInfoKHR := do
  let surfaceFormat ← VulkanSwapChain.GetSwapChainFormat support.formats desiredColorSpace
  CHECK (support.queueFamilySupportsPresentation = true) .queueFamilyNoPresentation
  let usageFlags := VulkanSwapChain.usageFlags support.supportedUsageFlags
    (support.optimalTilingFeatures surfaceFormat.format)
  let isCompositeAlphaSupported : Bool :=
    decide ((u32 support.supportedCompositeAlpha &&& VK_COMPOSITE_ALPHA_OPAQUE_BIT_KHR) ≠ 0)
  pure
    { minImageCount := support.minImageCount
      imageFormat := surfaceFormat.format
      imageColorSpace := surfaceFormat.colorSpace
      imageUsage := usageFlags
      compositeAlpha :=
        if isCompositeAlphaSupported = true then VK_COMPOSITE_ALPHA_OPAQUE_BIT_KHR
        else VK_COMPOSITE_ALPHA_INHERIT_BIT_KHR }

/-- The constructor `VulkanSwapChain::VulkanSwapChain` (lines 161-270): the creation request, then
the per-image state of `VulkanSwapChain.create` for the images the driver reports
(`d.swapChainImageCount`), in the chosen surface format. The first `vkGetSwapchainImagesKHR`
(line 232) writes the number of images of the swapchain into `NumberOfSwapChainImages`, line 233
clamps it to `MAX_IMAGES`, and the second call (line 235) is handed an array of that many entries:
the driver answers `VK_SUCCESS` when the array holds all the images and `VK_INCOMPLETE` when the
swapchain has more, which `VK_ASSERT` does not let pass. The checks on the context pointer and the
graphics queue are taken to pass. -/
def VulkanSwapChain.construct (support : SwapChainSupport) (desiredColorSpace : ColorSpace)
    (d : ContextCreation) :
    Except Fault (VkSwapchainCreateInfoKHR × VulkanSwapChain × VulkanTexturePool) := do
  let createInfo ← VulkanSwapChain.createInfo support desiredColorSpace
  let imagesOfSwapChain := u32 d.swapChainImageCount
  let numberOfSwapChainImages := min imagesOfSwapChain d.MAX_IMAGES
  VK_ASSERT (imagesOfSwapChain ≤ numberOfSwapChainImages)
  let r := VulkanSwapChain.create { d with surfaceFormat := createInfo.imageFormat }
  CHECK (r.1.NumberOfSwapChainImages > 0) .noSwapChainImages
  pure (createInfo, r)

/-! ## Construction of the instance -/

/-- The member of `VulkanContext::Configuration` that `CreateVulkanInstance` writes. -/
structure ContextConfiguration where
  enableValidationLayers : Bool
  deriving DecidableEq, Repr

/-- The platform macro the build defines (`EOS_PLATFORM_WINDOWS`, `EOS_PLATFORM_WAYLAND`,
`EOS_PLATFORM_X11`), or none of them. -/
inductive SurfacePlatform where
  | windows
  | wayland
  | x11
  | other
  deriving DecidableEq, Repr

/-- The members of `VkInstanceCreateInfo` and of the `VkValidationFeaturesEXT` chained to it that
`CreateVulkanInstance` computes. -/
structure VkInstanceCreateInfo where
  enabledLayerNames : List String
  enabledExtensionNames : List String
  enabledValidationFeatures : List Nat
  deriving DecidableEq, Repr

/-- The search for the validation layer among the enumerated layers (lines 1023-1031). -/
def VulkanContext.CreateVulkanInstance.foundLayer (validationLayer : String) :
    List String → Bool
  | [] => false
  | layerName :: rest =>
    if layerName = validationLayer then true
    else VulkanContext.CreateVulkanInstance.foundLayer validationLayer rest

/-- The extensions `CreateVulkanInstance` asks for (lines 1048-1063), in the order they are
pushed. -/
def VulkanContext.CreateVulkanInstance.instanceExtensionNames (enableValidationLayers : Bool)
    (platform : SurfacePlatform) : List String :=
  (if enableValidationLayers = true then ["VK_EXT_debug_utils"] else []) ++
  ["VK_KHR_surface"] ++
  (match platform with
   | .windows => ["VK_KHR_win32_surface"]
   | .wayland => ["VK_KHR_wayland_surface"]
   | .x11 => ["VK_KHR_xlib_surface"]
   | .other => [])

/-- The inner loop of lines 1071-1079: whether an enumerated extension has the given name. -/
def VulkanContext.CreateVulkanInstance.foundInstanceExtension (instanceExtensionName : String) :
    List String → Bool
  | [] => false
  | extensionName :: rest =>
    if extensionName = instanceExtensionName then true
    else VulkanContext.CreateVulkanInstance.foundInstanceExtension instanceExtensionName rest

/-- The outer loop of lines 1068-1085: the list `availableInstanceExtensionNames` it builds. -/
def VulkanContext.CreateVulkanInstance.availableInstanceExtensionNames
    (allInstanceExtensions : List String) : List String → List String
  | [] => []
  | instanceExtensionName :: rest =>
    if VulkanContext.CreateVulkanInstance.foundInstanceExtension instanceExtensionName
        allInstanceExtensions = true then
      instanceExtensionName ::
        VulkanContext.CreateVulkanInstance.availableInstanceExtensionNames allInstanceExtensions rest
    else
      VulkanContext.CreateVulkanInstance.availableInstanceExtensionNames allInstanceExtensions rest

/-- `VulkanContext::CreateVulkanInstance` (lines 1005-1151): the configuration it leaves and the
request it hands to `vkCreateInstance`. `validationLayer` is the constant of that name (declared in
a header outside `src/`), `layerProperties` and `allInstanceExtensions` are the names the driver
enumerates. The validation features are numbered as in the Vulkan headers
(`VK_VALIDATION_FEATURE_ENABLE_GPU_ASSISTED_EXT = 0`,
`VK_VALIDATION_FEATURE_ENABLE_GPU_ASSISTED_RESERVE_BINDING_SLOT_EXT = 1`). -/
def VulkanContext.CreateVulkanInstance (validationLayer : String) (platform : SurfacePlatform)
    (layerProperties allInstanceExtensions : List String) (Configuration : ContextConfiguration) :
    ContextConfiguration × VkInstanceCreateInfo :=
  let foundLayer := VulkanContext.CreateVulkanInstance.foundLayer validationLayer layerProperties
  let Configuration1 := { Configuration with enableValidationLayers := foundLayer }
  let validationFeatures := if Configuration1.enableValidationLayers = true then [0, 1] else []
  let instanceExtensionNames := VulkanContext.CreateVulkanInstance.instanceExtensionNames
    Configuration1.enableValidationLayers platform
  let availableInstanceExtensionNames :=
    VulkanContext.CreateVulkanInstance.availableInstanceExtensionNames allInstanceExtensions
      instanceExtensionNames
  (Configuration1,
    { enabledLayerNames := [validationLayer]
      enabledExtensionNames := availableInstanceExtensionNames
      enabledValidationFeatures := validationFeatures })

/-- The name of the Khronos validation layer, used as `validationLayer` when the model is
evaluated. -/
def exampleValidationLayer : String := "VK_LAYER_KHRONOS_validation"

/-- The example pool with two slots after one frame has been acquired and submitted. -/
def exampleSubmittedPool : CommandPool := ((examplePool 2).framesD [[]]).1

/-- Surface formats in which an entry that matches the default preferred format only
(`VK_FORMAT_R8G8B8A8_SRGB` with another colour space) comes before the entry that matches the
preferred pair. -/
def exampleFormats : List VkSurfaceFormatKHR :=
  [{ format := 43, colorSpace := 1000104002 }, { format := 44, colorSpace := 0 },
   { format := 43, colorSpace := 0 }, { format := 37, colorSpace := 0 }]

/-- A surface that asks for at least three images, supports storage usage and opaque composite
alpha, and whose formats all have the sampled-image feature only. -/
def exampleSupport : SwapChainSupport :=
  { minImageCount := 3
    supportedUsageFlags := 0x9f
    supportedCompositeAlpha := 0x1
    formats := exampleFormats
    queueFamilySupportsPresentation := true
    optimalTilingFeatures := fun _ => 0x1 }

/-- The construction `exampleCreation` in a build whose `MAX_IMAGES` is 2, below the three images
the surface asks for and the driver reports. -/
def exampleClampedCreation : ContextCreation := { exampleCreation with MAX_IMAGES := 2 }

/-- Instance extensions enumerated by a driver on an X11 system. -/
def exampleInstanceExtensions : List String :=
  ["VK_KHR_surface", "VK_KHR_xcb_surface", "VK_KHR_xlib_surface", "VK_EXT_debug_utils"]

/-- The example pool with two slots after two frames have been acquired and submitted: both
slots are pending and no command buffer is available. -/
def exampleFullPool : CommandPool := ((examplePool 2).framesD [[], []]).1

/-- The example pool with two slots after its first acquire: slot 0 is being recorded, stamped
with the counter value 1. -/
def recycleAcquired : CommandPool := (examplePool 2).callsD [.acquireCommandBuffer []]

/-- The state in which slot 0 is submitted: a wait semaphore has been registered since the
acquire. -/
def recycleRecorded : CommandPool := recycleAcquired.callsD [.waitSemaphore 300]

/-- The state after the submit of slot 0, which returned the handle (0, 1). -/
def recycleSubmitted : CommandPool := recycleRecorded.callsD [.submit 0]

/-- The calls made after the handle (0, 1) was returned, up to the reset of its slot: slot 1 is
acquired and submitted, then a round of `TryResetCommandBuffers` finds the fence 600 of slot 0
signalled. -/
def recycleCalls : List PoolOp :=
  [.acquireCommandBuffer [], .submit 1, .tryResetCommandBuffers fun f => f == 600]

/-- The state in which slot 0 has been reset. -/
def recycleReset : CommandPool := recycleSubmitted.callsD recycleCalls

/-- The state in which slot 0 has been acquired again: it is stamped with the counter value 3. -/
def recycleReacquired : CommandPool := recycleReset.callsD [.acquireCommandBuffer []]

/-- The swapchain of the freshly constructed example context: three images with the acquire
semaphores 300, 301 and 302, image index 0, the get-next-image flag set. -/
def exampleSwapChain : VulkanSwapChain := (VulkanSwapChain.create exampleCreation).1

/-- Calls on the example pool with two slots that free and reuse slot 0: the calls that lead to
`recycleReacquired`. -/
def countedCalls : List PoolOp :=
  [.acquireCommandBuffer [], .waitSemaphore 300, .submit 0] ++ recycleCalls ++
    [.acquireCommandBuffer []]

/-- Calls on the example context in which a submit without present target comes between two
presenting frames. -/
def mixedFrames : List Op :=
  pacingFrame 0 ++
    [.acquireCommandBuffer [fun _ => true], .submit { index := 0, gen := 0 }] ++ pacingFrame 1

/-- The example context after the calls `mixedFrames`. -/
def exampleMixed : VulkanContext := (VulkanContext.create exampleCreation).runD mixedFrames

/-! ## Lemmas on the command pool -/

theorem CommandPool.Submit_ok {p p2 : CommandPool} {data : Nat} {h : SubmitHandle}
    (hs : p.Submit data = .ok (p2, h)) :
    ∃ d, p.Buffers[data]? = some d ∧ d.isEncoding = true ∧ h = d.Handle ∧
      p2 = { p with
          Queue := p.Queue ++ [{ waits := CommandPool.Submit.waits p
                                 commandBuffer := d.VulkanCommandBuffer
                                 signals := CommandPool.Submit.signals p d
                                 fence := d.Fence }]
          LastSubmitSemaphore := { p.LastSubmitSemaphore with semaphore := d.Semaphore }
          LastSubmitHandle := d.Handle
          WaitOnSemaphore := { p.WaitOnSemaphore with semaphore := VK_NULL_HANDLE }
          SignalSemaphore := { p.SignalSemaphore with semaphore := VK_NULL_HANDLE }
          Buffers := p.Buffers.set data { d with isEncoding := false }
          SubmitCounter := CommandPool.Submit.nextCounter p.SubmitCounter } := by
  unfold CommandPool.Submit at hs
  cases hd : p.Buffers[data]? with
  | none => simp [hd] at hs
  | some d =>
    simp only [hd] at hs
    by_cases he : d.isEncoding = true
    · simp [CHECK, he, bind, Except.bind, pure, Except.pure] at hs
      exact ⟨d, rfl, he, hs.2.symm, hs.1.symm⟩
    · simp [CHECK, he, bind, Except.bind, pure, Except.pure] at hs

theorem CommandPool.Submit_of_encoding {p : CommandPool} {data : Nat} {d : CommandBufferData}
    (hd : p.Buffers[data]? = some d) (he : d.isEncoding = true) :
    ∃ p2, p.Submit data = .ok (p2, d.Handle) := by
  unfold CommandPool.Submit
  simp [hd, CHECK, he, bind, Except.bind, pure, Except.pure]

theorem CommandPool.AcquireCommandBuffer.spin_ok {P : CommandPool → Prop}
    (hP : ∀ s p, P p → P (p.TryResetCommandBuffers s)) {polls : List (Nat → Bool)}
    {p p2 : CommandPool} (hs : CommandPool.AcquireCommandBuffer.spin polls p = .ok p2)
    (hp : P p) : P p2 ∧ p2.NumberOfAvailableCommandBuffers ≠ 0 := by
  induction polls generalizing p with
  | nil =>
    unfold CommandPool.AcquireCommandBuffer.spin at hs
    split at hs
    · simp at hs; subst hs; exact ⟨hp, by assumption⟩
    · simp at hs
  | cons s rest ih =>
    unfold CommandPool.AcquireCommandBuffer.spin at hs
    split at hs
    · simp at hs; subst hs; exact ⟨hp, by assumption⟩
    · exact ih hs (hP _ _ hp)

theorem CommandPool.AcquireCommandBuffer.search_ok {bs : List CommandBufferData} {i : Nat}
    {b : CommandBufferData} (hs : CommandPool.AcquireCommandBuffer.search bs = some (i, b)) :
    bs[i]? = some b ∧ b.VulkanCommandBuffer = VK_NULL_HANDLE ∧
      ∀ j bj, j < i → bs[j]? = some bj → bj.VulkanCommandBuffer ≠ VK_NULL_HANDLE := by
  induction bs generalizing i with
  | nil => simp [CommandPool.AcquireCommandBuffer.search] at hs
  | cons a rest ih =>
    unfold CommandPool.AcquireCommandBuffer.search at hs
    split at hs
    · simp at hs
      obtain ⟨rfl, rfl⟩ := hs
      refine ⟨by simp, by assumption, ?_⟩
      intro j bj hj; omega
    · cases hr : CommandPool.AcquireCommandBuffer.search rest with
      | none => simp [hr] at hs
      | some r =>
        obtain ⟨k, bk⟩ := r
        simp [hr] at hs
        obtain ⟨rfl, rfl⟩ := hs
        obtain ⟨h1, h2, h3⟩ := ih hr
        refine ⟨by simpa using h1, h2, ?_⟩
        intro j bj hj hbj
        cases j with
        | zero => simp at hbj; subst hbj; assumption
        | succ j => exact h3 j bj (by omega) (by simpa using hbj)

theorem CommandPool.AcquireCommandBuffer_ok {P : CommandPool → Prop}
    (hP : ∀ s p, P p → P (p.TryResetCommandBuffers s)) {polls : List (Nat → Bool)}
    {p p3 : CommandPool} {i : Nat} (ha : p.AcquireCommandBuffer polls = .ok (p3, i)) (hp : P p) :
    ∃ p2 b, P p2 ∧ p2.NumberOfAvailableCommandBuffers ≠ 0 ∧
      CommandPool.AcquireCommandBuffer.search p2.Buffers = some (i, b) ∧
      b.VulkanCommandBufferAllocated ≠ VK_NULL_HANDLE ∧
      p3 = { p2 with
          Buffers := p2.Buffers.set i
            { b with
                Handle := { b.Handle with ID := p2.SubmitCounter }
                VulkanCommandBuffer := b.VulkanCommandBufferAllocated
                isEncoding := true }
          NumberOfAvailableCommandBuffers := u32 (p2.NumberOfAvailableCommandBuffers + (2 ^ 32 - 1))
          NextSubmitHandle := { b.Handle with ID := p2.SubmitCounter } } := by
  unfold CommandPool.AcquireCommandBuffer at ha
  simp only [bind, Except.bind] at ha
  split at ha
  · simp at ha
  · rename_i x hx
    obtain ⟨p1, rest⟩ := x
    have hp1 : P p1 := by
      split at hx
      · split at hx
        · simp at hx
        · simp at hx; obtain ⟨rfl, _⟩ := hx; exact hP _ _ hp
      · simp at hx; obtain ⟨rfl, _⟩ := hx; exact hp
    simp only at ha
    split at ha
    · simp at ha
    · rename_i p2 hspin
      obtain ⟨hp2, hn⟩ := CommandPool.AcquireCommandBuffer.spin_ok hP hspin hp1
      cases hsearch : CommandPool.AcquireCommandBuffer.search p2.Buffers with
      | none => simp [CHECK, hn, hsearch] at ha
      | some r =>
        obtain ⟨index, buffer⟩ := r
        by_cases hal : buffer.VulkanCommandBufferAllocated = VK_NULL_HANDLE
        · simp [CHECK, hn, hsearch, hal] at ha
        · simp [CHECK, hn, hsearch, hal, pure, Except.pure] at ha
          obtain ⟨h1, h2⟩ := ha
          subst h2
          exact ⟨p2, buffer, hp2, hn, hsearch, hal, h1.symm⟩

/-! ## Deferred tasks -/

theorem mem_takeWhile_true {α : Type} (f : α → Bool) (l : List α) (x : α)
    (hx : x ∈ l.takeWhile f) : f x = true := by
  induction l with
  | nil => simp at hx
  | cons a l ih =>
    rw [List.takeWhile_cons] at hx
    cases ha : f a with
    | false => simp [ha] at hx
    | true =>
      simp only [ha, if_true, List.mem_cons] at hx
      rcases hx with rfl | hx
      · exact ha
      · exact ih hx

theorem CommandPool.IsReady_fast_irrel (s s2 : Nat → Bool) (p : CommandPool) (h : SubmitHandle) :
    p.IsReady s h true = p.IsReady s2 h true := by
  unfold CommandPool.IsReady
  split
  · rfl
  · split
    · rfl
    · split
      · rfl
      · split
        · rfl
        · simp

theorem CommandPool.readyFast_iff (p : CommandPool) (h : SubmitHandle) :
    p.readyFast h = true ↔
      (h.Empty = true ∨ ∃ b, p.Buffers[h.BufferIndex]? = some b ∧
        (b.VulkanCommandBuffer = VK_NULL_HANDLE ∨ b.Handle.ID ≠ h.ID)) := by
  unfold CommandPool.readyFast CommandPool.IsReady
  by_cases he : h.Empty = true
  · simp [he]
  · simp only [he, Bool.false_eq_true, if_false, false_or]
    cases hb : p.Buffers[h.BufferIndex]? with
    | none => simp
    | some b =>
      by_cases h1 : b.VulkanCommandBuffer = VK_NULL_HANDLE
      · simp [h1]
      · by_cases h2 : b.Handle.ID = h.ID
        · simp [h1, h2]
        · simp [h1, h2]

theorem CommandPool.IsReady_of_readyFast (s : Nat → Bool) (p : CommandPool) (h : SubmitHandle)
    (fastCheck : Bool) (hr : p.readyFast h = true) : p.IsReady s h fastCheck = .ok true := by
  rw [CommandPool.readyFast_iff] at hr
  unfold CommandPool.IsReady
  rcases hr with he | ⟨b, hb, hc⟩
  · simp [he]
  · by_cases he : h.Empty = true
    · simp [he]
    · rcases hc with hc | hc
      · simp [he, hb, hc]
      · by_cases h1 : b.VulkanCommandBuffer = VK_NULL_HANDLE
        · simp [he, hb, h1]
        · simp [he, hb, h1, hc]

theorem VulkanContext.ProcessDeferredTasks.loop_tasks_fst (pool : CommandPool) (q : List DeferredTask)
    (ex : List PackagedTask) :
    (VulkanContext.ProcessDeferredTasks.loop pool q ex).1 =
      (q.dropWhile fun t => pool.readyFast t.Handle,
        ex ++ (q.takeWhile fun t => pool.readyFast t.Handle).map fun t => t.Task) := by
  induction q generalizing ex with
  | nil => simp [VulkanContext.ProcessDeferredTasks.loop]
  | cons t rest ih =>
    unfold VulkanContext.ProcessDeferredTasks.loop
    cases hr : pool.IsReady (fun _ => false) t.Handle true with
    | error e => simp [CommandPool.readyFast, hr, List.dropWhile, List.takeWhile]
    | ok b =>
      cases b with
      | false => simp [CommandPool.readyFast, hr, List.dropWhile, List.takeWhile]
      | true => simp [CommandPool.readyFast, hr, List.dropWhile, List.takeWhile, ih]

theorem VulkanContext.ProcessDeferredTasks.loop_tasks_snd (pool : CommandPool) (q : List DeferredTask)
    (ex : List PackagedTask)
    (hq : ∀ t ∈ q, t.Handle.Empty = true ∨ t.Handle.BufferIndex < pool.MaxCommandBuffers) :
    (VulkanContext.ProcessDeferredTasks.loop pool q ex).2 = none := by
  induction q generalizing ex with
  | nil => simp [VulkanContext.ProcessDeferredTasks.loop]
  | cons t rest ih =>
    unfold VulkanContext.ProcessDeferredTasks.loop
    cases hr : pool.IsReady (fun _ => false) t.Handle true with
    | error e =>
      exfalso
      have ht := hq t (List.mem_cons_self _ _)
      unfold CommandPool.IsReady at hr
      rcases ht with he | hlt
      · simp [he] at hr
      · unfold CommandPool.MaxCommandBuffers at hlt
        have : pool.Buffers[t.Handle.BufferIndex]? = some (pool.Buffers[t.Handle.BufferIndex]) :=
          List.getElem?_eq_getElem hlt
        rw [this] at hr
        simp only at hr
        split at hr <;> try simp at hr
        split at hr <;> try simp at hr
        split at hr <;> simp at hr
    | ok b =>
      cases b with
      | false => rfl
      | true => exact ih _ (fun t ht => hq t (List.mem_cons_of_mem _ ht))

/-! ## The submission counter -/

theorem CommandPool.Submit.nextCounter_eq (c : Nat) :
    CommandPool.Submit.nextCounter c =
      (if (c + 1) % 2 ^ 32 = 0 then 1 else (c + 1) % 2 ^ 32) := by
  unfold CommandPool.Submit.nextCounter u32
  split
  · rename_i h; rw [h]; norm_num
  · rfl

theorem CommandPool.Submit.nextCounter_ne_zero (c : Nat) :
    CommandPool.Submit.nextCounter c ≠ 0 := by
  rw [CommandPool.Submit.nextCounter_eq]
  split
  · decide
  · assumption

theorem CommandPool.Submit.nextCounter_lt (c : Nat) :
    CommandPool.Submit.nextCounter c < 2 ^ 32 := by
  rw [CommandPool.Submit.nextCounter_eq]
  split
  · norm_num
  · exact Nat.mod_lt _ (by norm_num)

/-- One acquire-then-submit cycle: the submit succeeds, returns the ID stamped at the acquire
(the counter before the cycle) and advances the counter. -/
theorem CommandPool.frame_handle {polls : List (Nat → Bool)} {p p1 : CommandPool} {slot : Nat}
    (ha : p.AcquireCommandBuffer polls = .ok (p1, slot)) :
    ∃ p2 h, p1.Submit slot = .ok (p2, h) ∧ h.ID = p.SubmitCounter ∧
      p2.SubmitCounter = CommandPool.Submit.nextCounter p.SubmitCounter := by
  obtain ⟨q, b, hq, -, hsearch, -, rfl⟩ :=
    CommandPool.AcquireCommandBuffer_ok
      (P := fun q => q.SubmitCounter = p.SubmitCounter)
      (fun s q hq => hq) ha rfl
  obtain ⟨hb, -, -⟩ := CommandPool.AcquireCommandBuffer.search_ok hsearch
  have hlt : slot < q.Buffers.length := by
    by_contra hge
    rw [List.getElem?_eq_none (by omega)] at hb
    simp at hb
  obtain ⟨p2, hp2⟩ := @CommandPool.Submit_of_encoding
    { q with
          Buffers := q.Buffers.set slot
            { b with
                Handle := { b.Handle with ID := q.SubmitCounter }
                VulkanCommandBuffer := b.VulkanCommandBufferAllocated
                isEncoding := true }
          NumberOfAvailableCommandBuffers := u32 (q.NumberOfAvailableCommandBuffers + (2 ^ 32 - 1))
          NextSubmitHandle := { b.Handle with ID := q.SubmitCounter } }
    slot
    { b with
                Handle := { b.Handle with ID := q.SubmitCounter }
                VulkanCommandBuffer := b.VulkanCommandBufferAllocated
                isEncoding := true }
    (by simp [List.getElem?_set, hlt]) rfl
  refine ⟨p2, _, hp2, hq, ?_⟩
  obtain ⟨d, -, -, -, rfl⟩ := CommandPool.Submit_ok hp2
  simp [hq]

theorem CommandPool.frames_handles {pollss : List (List (Nat → Bool))} {p p2 : CommandPool}
    {hs : List SubmitHandle} (hf : p.frames pollss = .ok (p2, hs)) :
    hs.length = pollss.length ∧
      ∀ k (hk : k < hs.length), hs[k].ID = CommandPool.Submit.nextCounter^[k] p.SubmitCounter := by
  induction pollss generalizing p p2 hs with
  | nil =>
    simp [CommandPool.frames] at hf
    obtain ⟨-, rfl⟩ := hf
    simp
  | cons polls rest ih =>
    unfold CommandPool.frames at hf
    cases ha : p.AcquireCommandBuffer polls with
    | error e => simp [ha, bind, Except.bind] at hf
    | ok r =>
      obtain ⟨p1, slot⟩ := r
      obtain ⟨q, h, hsub, hid, hc⟩ := CommandPool.frame_handle ha
      cases hr : q.frames rest with
      | error e => simp [ha, hsub, hr, bind, Except.bind] at hf
      | ok r2 =>
        obtain ⟨p3, hs3⟩ := r2
        simp [ha, hsub, hr, bind, Except.bind, pure, Except.pure] at hf
        obtain ⟨rfl, rfl⟩ := hf
        obtain ⟨hl, hk⟩ := ih hr
        refine ⟨by simp [hl], ?_⟩
        intro k hk2
        cases k with
        | zero => simpa using hid
        | succ k =>
          have := hk k (by simpa using hk2)
          simp only [List.getElem_cons_succ, Function.iterate_succ, Function.comp_apply]
          rw [this, hc]

/-! ## Waiting on a submission -/

theorem CommandPool.TryResetCommandBuffers.loop_fst (s : Nat → Bool) (bs : List CommandBufferData)
    (n : Nat) :
    (CommandPool.TryResetCommandBuffers.loop s bs n).1 =
      bs.map (CommandPool.TryResetCommandBuffers.slot s) := by
  induction bs generalizing n with
  | nil => rfl
  | cons b rest ih =>
    rw [CommandPool.TryResetCommandBuffers.loop, List.map_cons]
    by_cases h1 : b.VulkanCommandBuffer = VK_NULL_HANDLE ∨ b.isEncoding = true
    · have hslot : CommandPool.TryResetCommandBuffers.slot s b = b := by
        simp [CommandPool.TryResetCommandBuffers.slot, h1]
      rw [hslot, if_pos h1]
      simp [ih]
    · by_cases h2 : s b.Fence = true
      · have hslot : CommandPool.TryResetCommandBuffers.slot s b =
            { b with VulkanCommandBuffer := VK_NULL_HANDLE } := by
          simp [CommandPool.TryResetCommandBuffers.slot, h1, h2]
        rw [hslot, if_neg h1, if_pos h2]
        simp [ih]
      · have hslot : CommandPool.TryResetCommandBuffers.slot s b = b := by
          simp [CommandPool.TryResetCommandBuffers.slot, h1, h2]
        rw [hslot, if_neg h1, if_neg h2]
        simp [ih]

theorem CommandPool.TryResetCommandBuffers_Buffers (s : Nat → Bool) (p : CommandPool) :
    (p.TryResetCommandBuffers s).Buffers =
      p.Buffers.map (CommandPool.TryResetCommandBuffers.slot s) := by
  simp [CommandPool.TryResetCommandBuffers, CommandPool.TryResetCommandBuffers.loop_fst]

theorem CommandPool.IsReady_ok_false {s : Nat → Bool} {p : CommandPool} {h : SubmitHandle}
    {fast : Bool} (hr : p.IsReady s h fast = .ok false) :
    ∃ b, p.Buffers[h.BufferIndex]? = some b ∧ b.VulkanCommandBuffer ≠ VK_NULL_HANDLE ∧
      b.Handle.ID = h.ID ∧ (fast = true ∨ s b.Fence = false) := by
  unfold CommandPool.IsReady at hr
  split at hr
  · simp at hr
  · cases hb : p.Buffers[h.BufferIndex]? with
    | none => simp [hb] at hr
    | some b =>
      simp only [hb] at hr
      split at hr
      · simp at hr
      · split at hr
        · simp at hr
        · rename_i h1 h2
          refine ⟨b, rfl, h1, by simpa using h2, ?_⟩
          split at hr
          · left; assumption
          · right; simpa using hr

theorem CommandPool.IsReady_ok_true {s : Nat → Bool} {p : CommandPool} {h : SubmitHandle}
    {fast : Bool} (hr : p.IsReady s h fast = .ok true) :
    p.readyFast h = true ∨
      (fast = false ∧ ∃ b, p.Buffers[h.BufferIndex]? = some b ∧ s b.Fence = true) := by
  by_cases hf : p.readyFast h = true
  · left; exact hf
  · right
    rw [CommandPool.readyFast_iff] at hf
    push_neg at hf
    obtain ⟨he, hb⟩ := hf
    unfold CommandPool.IsReady at hr
    simp only [he, Bool.false_eq_true, if_false] at hr
    cases hb2 : p.Buffers[h.BufferIndex]? with
    | none => simp [hb2] at hr
    | some b =>
      obtain ⟨h1, h2⟩ := hb b hb2
      simp only [hb2, h1, h2, if_false, ne_eq, not_true_eq_false] at hr
      cases fast with
      | true => simp at hr
      | false =>
        simp at hr
        exact ⟨rfl, b, rfl, hr⟩

/-- What `Wait` leaves behind when it returns for a non-empty handle. -/
theorem CommandPool.Wait_result (fastCheckDefault : Bool) (poll later : Nat → Bool) (p p2 : CommandPool)
    (h : SubmitHandle) (hne : h.Empty = false)
    (hw : p.Wait fastCheckDefault poll later h = .ok p2) :
    (p.IsReady poll h fastCheckDefault = .ok true → p2 = p) ∧
    (p.readyFast h = true → p2 = p) ∧
    (p.IsReady poll h fastCheckDefault = .ok false →
      (∃ b, p2.Buffers[h.BufferIndex]? = some b ∧ b.VulkanCommandBuffer = VK_NULL_HANDLE) ∧
      ∀ (s : Nat → Bool) (fastCheck : Bool), p2.IsReady s h fastCheck = .ok true) ∧
    (∀ s : Nat → Bool, (∀ f, poll f = true → s f = true) → p2.IsReady s h false = .ok true) := by
  unfold CommandPool.Wait at hw
  simp only [hne, Bool.false_eq_true, if_false, bind, Except.bind] at hw
  cases hr : p.IsReady poll h fastCheckDefault with
  | error e => simp [hr] at hw
  | ok r =>
    cases r with
    | true =>
      simp [hr, pure, Except.pure] at hw
      subst hw
      refine ⟨fun _ => rfl, fun _ => rfl, fun hc => by simp at hc, ?_⟩
      intro s hs
      rcases CommandPool.IsReady_ok_true hr with hf | ⟨-, b, hb, hsig⟩
      · exact CommandPool.IsReady_of_readyFast s _ _ _ hf
      · unfold CommandPool.IsReady
        simp only [hne, Bool.false_eq_true, if_false, hb]
        split
        · rfl
        · split
          · rfl
          · simp [hs _ hsig]
    | false =>
      obtain ⟨b, hb, hact, hid, -⟩ := CommandPool.IsReady_ok_false hr
      simp only [hr, Bool.false_eq_true, if_false, hb] at hw
      by_cases henc : b.isEncoding = false
      · simp [CHECK, henc, pure, Except.pure] at hw
        have hfree : ∃ b2, p2.Buffers[h.BufferIndex]? = some b2 ∧
            b2.VulkanCommandBuffer = VK_NULL_HANDLE := by
          subst hw
          rw [CommandPool.TryResetCommandBuffers_Buffers]
          refine ⟨_, by simp [List.getElem?_map, hb]; rfl, ?_⟩
          unfold CommandPool.TryResetCommandBuffers.slot
          simp [hact, henc]
        have hall : ∀ (s : Nat → Bool) (fastCheck : Bool), p2.IsReady s h fastCheck = .ok true := by
          intro s f
          apply CommandPool.IsReady_of_readyFast
          rw [CommandPool.readyFast_iff]
          right
          obtain ⟨b2, hb2, hn⟩ := hfree
          exact ⟨b2, hb2, Or.inl hn⟩
        refine ⟨fun hc => by simp at hc, ?_, fun _ => ⟨hfree, hall⟩, fun s _ => hall s false⟩
        intro hf
        have := CommandPool.IsReady_of_readyFast poll p h fastCheckDefault hf
        rw [hr] at this
        simp at this
      · simp [CHECK, henc] at hw

/-! ## What a successful call returns -/

theorem VulkanContext.Submit.signal_ok {present : TextureHandle} {c : VulkanContext}
    {sc1 : Option VulkanSwapChain} {pool1 : CommandPool}
    (hs : VulkanContext.Submit.signal present c = .ok (sc1, pool1)) :
    (VulkanContext.Submit.shouldPresent present c = true ∧
      ∃ sc, c.SwapChain = some sc ∧ sc.CurrentImageIndex < sc.TimelineWaitValues.length ∧
        c.TimelineSemaphore ≠ VK_NULL_HANDLE ∧
        sc1 = some { sc with
          TimelineWaitValues := sc.TimelineWaitValues.set sc.CurrentImageIndex
            (u64 (sc.CurrentFrame + sc.NumberOfSwapChainImages)) } ∧
        pool1 = { c.VulkanCommandPool with
          SignalSemaphore :=
            { semaphore := c.TimelineSemaphore
              value := u64 (sc.CurrentFrame + sc.NumberOfSwapChainImages) } }) ∨
    (VulkanContext.Submit.shouldPresent present c = false ∧ sc1 = c.SwapChain ∧
      pool1 = c.VulkanCommandPool) := by
  unfold VulkanContext.Submit.signal at hs
  cases hsp : VulkanContext.Submit.shouldPresent present c with
  | false =>
    right
    simp [hsp] at hs
    exact ⟨rfl, hs.1.symm, hs.2.symm⟩
  | true =>
    left
    refine ⟨rfl, ?_⟩
    cases hsc : c.SwapChain with
    | none =>
      simp [VulkanContext.Submit.shouldPresent, VulkanContext.HasSwapChain, hsc] at hsp
    | some sc =>
      simp only [hsp, hsc] at hs
      by_cases h1 : sc.CurrentImageIndex < sc.TimelineWaitValues.length
      · by_cases h2 : c.TimelineSemaphore = VK_NULL_HANDLE
        · simp [CHECK, h1, h2, CommandPool.Signal, bind, Except.bind] at hs
        · simp [CHECK, h1, h2, CommandPool.Signal, bind, Except.bind, pure, Except.pure] at hs
          exact ⟨sc, rfl, h1, h2, hs.1.symm, hs.2.symm⟩
      · simp [CHECK, h1, bind, Except.bind] at hs

theorem VulkanContext.ProcessDeferredTasks_fst (c : VulkanContext) :
    c.ProcessDeferredTasks.1 =
      { c with
          DeferredTasks := c.DeferredTasks.dropWhile fun t => c.VulkanCommandPool.readyFast t.Handle
          Executed := c.Executed ++
            (c.DeferredTasks.takeWhile fun t => c.VulkanCommandPool.readyFast t.Handle).map
              fun t => t.Task } := by
  simp [VulkanContext.ProcessDeferredTasks, VulkanContext.ProcessDeferredTasks.loop_tasks_fst]

theorem VulkanContext.Submit_ctx_ok {present : TextureHandle} {c c2 : VulkanContext} {h : SubmitHandle}
    (hs : c.Submit present = .ok (c2, h)) :
    ∃ sc1 pool1 slot pool2,
      VulkanContext.Submit.signal present c = .ok (sc1, pool1) ∧
      c.CurrentCommandBuffer.CommandBufferImpl = some slot ∧
      pool1.Submit slot = .ok (pool2, h) ∧
      c2 = { c with
        SwapChain := (VulkanContext.Submit.present
          (VulkanContext.Submit.shouldPresent present c) sc1 pool2).1
        VulkanCommandPool := (VulkanContext.Submit.present
          (VulkanContext.Submit.shouldPresent present c) sc1 pool2).2
        DeferredTasks := c.DeferredTasks.dropWhile fun t =>
          (VulkanContext.Submit.present
            (VulkanContext.Submit.shouldPresent present c) sc1 pool2).2.readyFast t.Handle
        Executed := c.Executed ++
          (c.DeferredTasks.takeWhile fun t =>
            (VulkanContext.Submit.present
              (VulkanContext.Submit.shouldPresent present c) sc1 pool2).2.readyFast t.Handle).map
            fun t => t.Task
        CurrentCommandBuffer := CommandBuffer.empty } := by
  unfold VulkanContext.Submit at hs
  simp only [bind, Except.bind] at hs
  split at hs
  · simp at hs
  · split at hs
    · simp at hs
    · rename_i r hsig
      obtain ⟨sc1, pool1⟩ := r
      simp only at hs
      cases hslot : c.CurrentCommandBuffer.CommandBufferImpl with
      | none => simp [hslot] at hs
      | some slot =>
        simp only [hslot] at hs
        cases hsub : pool1.Submit slot with
        | error e => simp [hsub] at hs
        | ok r2 =>
          obtain ⟨pool2, h2⟩ := r2
          simp only [hsub] at hs
          split at hs
          · simp at hs
          · rename_i c3 hpdt
            have h3 := congrArg Prod.fst hpdt
            simp only [VulkanContext.ProcessDeferredTasks_fst] at h3
            simp only [pure, Except.pure, Except.ok.injEq, Prod.mk.injEq] at hs
            obtain ⟨hc2, hh⟩ := hs
            subst h3
            simp only at hh hc2
            subst hh
            exact ⟨sc1, pool1, slot, pool2, hsig, rfl, hsub, hc2.symm⟩

theorem VulkanContext.AcquireCommandBuffer_ctx_ok {polls : List (Nat → Bool)} {c c1 : VulkanContext}
    (ha : c.AcquireCommandBuffer polls = .ok c1) :
    c.CurrentCommandBuffer.VkContext = false ∧
    ∃ pool slot, c.VulkanCommandPool.AcquireCommandBuffer polls = .ok (pool, slot) ∧
      c1 = { c with
        VulkanCommandPool := pool
        CurrentCommandBuffer :=
          { VkContext := true, CommandBufferImpl := some slot
            LastSubmitHandle := { BufferIndex := 0, ID := 0 } } } := by
  unfold VulkanContext.AcquireCommandBuffer at ha
  by_cases hv : c.CurrentCommandBuffer.VkContext = false
  · refine ⟨hv, ?_⟩
    cases hp : c.VulkanCommandPool.AcquireCommandBuffer polls with
    | error e => simp [CHECK, hv, hp, bind, Except.bind] at ha
    | ok r =>
      obtain ⟨pool, slot⟩ := r
      simp [CHECK, hv, hp, bind, Except.bind, pure, Except.pure] at ha
      exact ⟨pool, slot, rfl, ha.symm⟩
  · simp [CHECK, hv, bind, Except.bind] at ha

theorem VulkanSwapChain.GetAndWaitOnNextImage_ok {acquired : Nat} {sc sc1 : VulkanSwapChain}
    {pool pool1 : CommandPool} (hg : sc.GetAndWaitOnNextImage acquired pool = .ok (sc1, pool1)) :
    (sc.GetNextImage = false ∧ sc1 = sc ∧ pool1 = pool) ∨
    (sc.GetNextImage = true ∧ pool.WaitOnSemaphore.semaphore = VK_NULL_HANDLE ∧
      ∃ waitValue acquireSemaphore,
        sc.TimelineWaitValues[sc.CurrentImageIndex]? = some waitValue ∧
        sc.AcquireSemaphores[sc.CurrentImageIndex]? = some acquireSemaphore ∧
        sc1 = { sc with
            Waited := sc.Waited ++ [waitValue]
            Acquired := sc.Acquired ++ [(acquireSemaphore, acquired)]
            CurrentImageIndex := acquired
            GetNextImage := false } ∧
        pool1 = { pool with
            WaitOnSemaphore := { pool.WaitOnSemaphore with semaphore := acquireSemaphore } }) := by
  unfold VulkanSwapChain.GetAndWaitOnNextImage at hg
  by_cases hn : sc.GetNextImage = true
  · right
    simp only [hn, if_true] at hg
    cases hw : sc.TimelineWaitValues[sc.CurrentImageIndex]? with
    | none => simp [hw] at hg
    | some waitValue =>
      cases hq : sc.AcquireSemaphores[sc.CurrentImageIndex]? with
      | none => simp [hw, hq] at hg
      | some acquireSemaphore =>
        by_cases hws : pool.WaitOnSemaphore.semaphore = VK_NULL_HANDLE
        · simp [hw, hq, CommandPool.WaitSemaphore, CHECK, hws, bind, Except.bind, pure,
            Except.pure] at hg
          exact ⟨hn, hws, waitValue, acquireSemaphore, rfl, rfl, hg.1.symm, hg.2.symm⟩
        · simp [hw, hq, CommandPool.WaitSemaphore, CHECK, hws, bind, Except.bind] at hg
  · left
    simp [hn] at hg
    exact ⟨by simpa using hn, hg.1.symm, hg.2.symm⟩

theorem VulkanContext.GetSwapChainTexture_ok {acquired : Nat} {c c1 : VulkanContext}
    {t : TextureHandle} (hg : c.GetSwapChainTexture acquired = .ok (c1, t)) :
    ∃ sc sc1 pool1, c.SwapChain = some sc ∧
      sc.GetAndWaitOnNextImage acquired c.VulkanCommandPool = .ok (sc1, pool1) ∧
      sc1.CurrentImageIndex < sc1.NumberOfSwapChainImages ∧
      sc1.Textures[sc1.CurrentImageIndex]? = some t ∧
      c1 = { c with SwapChain := some sc1, VulkanCommandPool := pool1 } := by
  unfold VulkanContext.GetSwapChainTexture at hg
  cases hsc : c.SwapChain with
  | none => simp [hsc] at hg
  | some sc =>
    simp only [hsc, VulkanSwapChain.GetCurrentTexture, bind, Except.bind] at hg
    cases hgw : sc.GetAndWaitOnNextImage acquired c.VulkanCommandPool with
    | error e => simp [hgw] at hg
    | ok r =>
      obtain ⟨sc1, pool1⟩ := r
      simp only [hgw] at hg
      by_cases hlt : sc1.CurrentImageIndex < sc1.NumberOfSwapChainImages
      · cases ht : sc1.Textures[sc1.CurrentImageIndex]? with
        | none => simp [CHECK, hlt, ht] at hg
        | some t2 =>
          simp only [CHECK, hlt, if_true, ht, pure, Except.pure] at hg
          split at hg
          · simp at hg
          · cases hget : c.TexturePool.Get t2 with
            | none => simp [hget] at hg
            | some image =>
              simp only [hget] at hg
              split at hg
              · simp at hg
              · simp only [Except.ok.injEq, Prod.mk.injEq] at hg
                obtain ⟨h1, h2⟩ := hg
                subst h2
                exact ⟨sc, sc1, pool1, rfl, hgw, hlt, ht, h1.symm⟩
      · simp [CHECK, hlt] at hg

theorem VulkanContext.Destroy.foldl_Defer (views : List Nat) (c : VulkanContext) :
    views.foldl
        (fun c v => c.Defer (.destroyImageView c.VulkanDevice v) { BufferIndex := 0, ID := 0 }) c =
      { c with
          DeferredTasks := c.DeferredTasks ++ views.map fun v =>
            { Task := .destroyImageView c.VulkanDevice v
              Handle := c.VulkanCommandPool.NextSubmitHandle } } := by
  induction views generalizing c with
  | nil => simp
  | cons v rest ih =>
    rw [List.foldl_cons, ih]
    simp [VulkanContext.Defer, SubmitHandle.Empty, CommandPool.GetNextSubmitHandle]

theorem VulkanContext.Destroy_ok {handle : TextureHandle} {c c1 : VulkanContext}
    (hd : c.Destroy handle = .ok c1) :
    ∃ image, c.TexturePool.Get handle = some image ∧
      c1 = { c with
          DeferredTasks := c.DeferredTasks ++ (VulkanContext.Destroy.views image).map fun v =>
            { Task := .destroyImageView c.VulkanDevice v
              Handle := c.VulkanCommandPool.NextSubmitHandle }
          TexturePool := c.TexturePool.Destroy handle } := by
  unfold VulkanContext.Destroy at hd
  cases hget : c.TexturePool.Get handle with
  | none => simp [hget] at hd
  | some image =>
    simp only [hget, VulkanContext.Destroy.foldl_Defer, Except.ok.injEq] at hd
    exact ⟨image, rfl, hd.symm⟩

theorem VulkanContext.Wait_ctx_ok {dflt : Bool} {poll later : Nat → Bool} {handle : SubmitHandle}
    {c c1 : VulkanContext} (hw : c.Wait dflt poll later handle = .ok c1) :
    ∃ pool, c.VulkanCommandPool.Wait dflt poll later handle = .ok pool ∧
      c1 = { c with VulkanCommandPool := pool } := by
  unfold VulkanContext.Wait at hw
  cases hp : c.VulkanCommandPool.Wait dflt poll later handle with
  | error e => simp [hp, bind, Except.bind] at hw
  | ok pool =>
    simp [hp, bind, Except.bind, pure, Except.pure] at hw
    exact ⟨pool, rfl, hw.symm⟩

theorem CommandPool.Wait_ok {dflt : Bool} {poll later : Nat → Bool} {handle : SubmitHandle}
    {p p1 : CommandPool} (hw : p.Wait dflt poll later handle = .ok p1) :
    p1 = p ∨ ∃ s, p1 = p.TryResetCommandBuffers s := by
  unfold CommandPool.Wait at hw
  split at hw
  · left; simp at hw; exact hw.symm
  · simp only [bind, Except.bind] at hw
    split at hw
    · simp at hw
    · split at hw
      · left; simp [pure, Except.pure] at hw; exact hw.symm
      · split at hw
        · simp at hw
        · split at hw
          · simp at hw
          · right
            simp [pure, Except.pure] at hw
            exact ⟨_, hw.symm⟩

/-! ## The invariant of a context -/

theorem CommandPool.TryResetCommandBuffers.slot_isEncoding (s : Nat → Bool)
    (b : CommandBufferData) : (CommandPool.TryResetCommandBuffers.slot s b).isEncoding = b.isEncoding := by
  unfold CommandPool.TryResetCommandBuffers.slot
  split
  · rfl
  · split <;> rfl

theorem CommandPool.TryResetCommandBuffers_encoding {s : Nat → Bool} {p : CommandPool} {i : Nat}
    {b : CommandBufferData} (hb : (p.TryResetCommandBuffers s).Buffers[i]? = some b)
    (he : b.isEncoding = true) : ∃ b0, p.Buffers[i]? = some b0 ∧ b0.isEncoding = true := by
  rw [CommandPool.TryResetCommandBuffers_Buffers, List.getElem?_map] at hb
  cases h0 : p.Buffers[i]? with
  | none => simp [h0] at hb
  | some b0 =>
    simp [h0] at hb
    subst hb
    exact ⟨b0, rfl, by rw [← CommandPool.TryResetCommandBuffers.slot_isEncoding s b0]; exact he⟩

theorem CommandPool.create.slots_isEncoding (cmd sem fence : Nat → Nat) (n : Nat) :
    ∀ b ∈ CommandPool.create.slots cmd sem fence n, b.isEncoding = false := by
  induction n with
  | zero => simp [CommandPool.create.slots]
  | succ n ih =>
    intro b hb
    simp only [CommandPool.create.slots, List.mem_append, List.mem_singleton] at hb
    rcases hb with hb | rfl
    · exact ih b hb
    · rfl

theorem VulkanContext.create_Inv (d : ContextCreation) : (VulkanContext.create d).Inv := by
  refine ⟨?_, fun _ => rfl, rfl⟩
  intro i b hb he
  have := CommandPool.create.slots_isEncoding d.commandBuffer d.semaphore d.fence
    d.MaxCommandBuffers b (List.getElem?_mem hb)
  rw [this] at he
  simp at he

theorem CommandPool.Submit_fields {p p2 : CommandPool} {data : Nat} {h : SubmitHandle}
    (hs : p.Submit data = .ok (p2, h)) :
    ∃ d, p.Buffers[data]? = some d ∧ d.isEncoding = true ∧ h = d.Handle ∧
      p2.Buffers = p.Buffers.set data { d with isEncoding := false } ∧
      p2.Queue = p.Queue ++ [{ waits := CommandPool.Submit.waits p
                               commandBuffer := d.VulkanCommandBuffer
                               signals := CommandPool.Submit.signals p d
                               fence := d.Fence }] ∧
      p2.LastSubmitSemaphore.semaphore = d.Semaphore ∧
      p2.LastSubmitHandle = d.Handle ∧
      p2.WaitOnSemaphore.semaphore = VK_NULL_HANDLE ∧
      p2.SignalSemaphore.semaphore = VK_NULL_HANDLE ∧
      p2.SubmitCounter = CommandPool.Submit.nextCounter p.SubmitCounter ∧
      p2.NumberOfAvailableCommandBuffers = p.NumberOfAvailableCommandBuffers ∧
      p2.NextSubmitHandle = p.NextSubmitHandle := by
  obtain ⟨d, hd, hde, hh, rfl⟩ := CommandPool.Submit_ok hs
  exact ⟨d, hd, hde, hh, rfl, rfl, rfl, rfl, rfl, rfl, rfl, rfl, rfl⟩

theorem VulkanContext.Submit.present_snd_fields (sp : Bool) (sc : Option VulkanSwapChain)
    (pool : CommandPool) :
    (VulkanContext.Submit.present sp sc pool).2.Buffers = pool.Buffers ∧
    (VulkanContext.Submit.present sp sc pool).2.Queue = pool.Queue ∧
    (VulkanContext.Submit.present sp sc pool).2.SignalSemaphore = pool.SignalSemaphore ∧
    (VulkanContext.Submit.present sp sc pool).2.WaitOnSemaphore = pool.WaitOnSemaphore ∧
    (VulkanContext.Submit.present sp sc pool).2.SubmitCounter = pool.SubmitCounter ∧
    (VulkanContext.Submit.present sp sc pool).2.NextSubmitHandle = pool.NextSubmitHandle ∧
    (VulkanContext.Submit.present sp sc pool).2.LastSubmitHandle = pool.LastSubmitHandle ∧
    (VulkanContext.Submit.present sp sc pool).2.NumberOfAvailableCommandBuffers =
      pool.NumberOfAvailableCommandBuffers := by
  unfold VulkanContext.Submit.present
  split <;> exact ⟨rfl, rfl, rfl, rfl, rfl, rfl, rfl, rfl⟩

theorem VulkanContext.step_Inv {c c1 : VulkanContext} {op : Op} (hi : c.Inv)
    (hs : c.step op = .ok c1) : c1.Inv := by
  obtain ⟨h1, h2, h3⟩ := hi
  cases op with
  | acquireCommandBuffer polls =>
    obtain ⟨hv, pool, slot, hp, rfl⟩ := VulkanContext.AcquireCommandBuffer_ctx_ok hs
    have hnone := h2 hv
    obtain ⟨q, b, ⟨hq1, hq2⟩, -, hsearch, -, rfl⟩ :=
      CommandPool.AcquireCommandBuffer_ok
        (P := fun q => (∀ i (b : CommandBufferData), q.Buffers[i]? = some b → b.isEncoding = true → False) ∧
          q.SignalSemaphore.semaphore = VK_NULL_HANDLE)
        (fun s q hq => ⟨fun i b hb he => by
          obtain ⟨b0, hb0, he0⟩ := CommandPool.TryResetCommandBuffers_encoding hb he
          exact hq.1 i b0 hb0 he0, hq.2⟩) hp
        ⟨fun i b hb he => by have := h1 i b hb he; rw [hnone] at this; simp at this, h3⟩
    refine ⟨?_, by simp, hq2⟩
    intro i b2 hb2 he2
    simp only at hb2 ⊢
    by_cases hi : slot = i
    · rw [hi]
    · rw [List.getElem?_set_ne hi] at hb2
      exact (hq1 i b2 hb2 he2).elim
  | submit present =>
    simp only [VulkanContext.step] at hs
    cases hsub : c.Submit present with
    | error e => simp [hsub, Except.map] at hs
    | ok r =>
      obtain ⟨c2, h⟩ := r
      simp [hsub, Except.map] at hs
      subst hs
      obtain ⟨sc1, pool1, slot, pool2, hsig, hslot, hps, rfl⟩ := VulkanContext.Submit_ctx_ok hsub
      obtain ⟨d, hd, hde, -, hB, -, -, -, -, hS, -⟩ := CommandPool.Submit_fields hps
      obtain ⟨hpB, -, hpS, -⟩ := VulkanContext.Submit.present_snd_fields
        (VulkanContext.Submit.shouldPresent present c) sc1 pool2
      have hbuf : pool1.Buffers = c.VulkanCommandPool.Buffers := by
        rcases VulkanContext.Submit.signal_ok hsig with ⟨-, sc, -, -, -, -, rfl⟩ | ⟨-, -, rfl⟩ <;> rfl
      refine ⟨?_, fun _ => rfl, ?_⟩
      · intro i b hb he
        exfalso
        simp only [hpB, hB] at hb
        by_cases hi : slot = i
        · subst hi
          rw [List.getElem?_set] at hb
          split at hb
          · split at hb
            · simp at hb; subst hb; simp at he
            · simp at hb
          · contradiction
        · rw [List.getElem?_set_ne hi, hbuf] at hb
          have := h1 i b hb he
          rw [hslot] at this
          simp at this
          exact hi this
      · simp only [hpS, hS]
  | getSwapChainTexture acquired =>
    simp only [VulkanContext.step] at hs
    cases hg : c.GetSwapChainTexture acquired with
    | error e => simp [hg, Except.map] at hs
    | ok r =>
      obtain ⟨c2, t⟩ := r
      simp [hg, Except.map] at hs
      subst hs
      obtain ⟨sc, sc1, pool1, -, hgw, -, -, rfl⟩ := VulkanContext.GetSwapChainTexture_ok hg
      rcases VulkanSwapChain.GetAndWaitOnNextImage_ok hgw with ⟨-, -, rfl⟩ |
        ⟨-, -, w, a, -, -, -, rfl⟩
      · exact ⟨h1, h2, h3⟩
      · exact ⟨h1, h2, h3⟩
  | defer task handle =>
    simp only [VulkanContext.step, Except.ok.injEq] at hs
    subst hs
    exact ⟨h1, h2, h3⟩
  | destroy handle =>
    obtain ⟨image, -, rfl⟩ := VulkanContext.Destroy_ok hs
    exact ⟨h1, h2, h3⟩
  | wait dflt poll later handle =>
    obtain ⟨pool, hp, rfl⟩ := VulkanContext.Wait_ctx_ok hs
    rcases CommandPool.Wait_ok hp with rfl | ⟨s, rfl⟩
    · exact ⟨h1, h2, h3⟩
    · refine ⟨?_, h2, h3⟩
      intro i b hb he
      obtain ⟨b0, hb0, he0⟩ := CommandPool.TryResetCommandBuffers_encoding hb he
      exact h1 i b0 hb0 he0

theorem VulkanContext.run_Inv {ops : List Op} {c c1 : VulkanContext} (hi : c.Inv)
    (hr : c.run ops = .ok c1) : c1.Inv := by
  induction ops generalizing c with
  | nil => simp [VulkanContext.run] at hr; subst hr; exact hi
  | cons op rest ih =>
    unfold VulkanContext.run at hr
    cases hs : c.step op with
    | error e => simp [hs] at hr
    | ok c2 =>
      simp only [hs] at hr
      exact ih (VulkanContext.step_Inv hi hs) hr

/-! ## At most one command buffer is being recorded -/

theorem VulkanContext.step_not_submit {c c1 : VulkanContext} {op : Op} (hop : op.isSubmit = false)
    (hs : c.step op = .ok c1) :
    c1.VulkanCommandPool.LastSubmitSemaphore = c.VulkanCommandPool.LastSubmitSemaphore ∧
    c1.VulkanCommandPool.Queue = c.VulkanCommandPool.Queue ∧
    (c.CurrentCommandBuffer.VkContext = true →
      c1.CurrentCommandBuffer = c.CurrentCommandBuffer) := by
  cases op with
  | acquireCommandBuffer polls =>
    obtain ⟨hv, pool, slot, hp, rfl⟩ := VulkanContext.AcquireCommandBuffer_ctx_ok hs
    obtain ⟨q, b, ⟨hq1, hq2⟩, -, -, -, rfl⟩ :=
      CommandPool.AcquireCommandBuffer_ok
        (P := fun q => q.LastSubmitSemaphore = c.VulkanCommandPool.LastSubmitSemaphore ∧
          q.Queue = c.VulkanCommandPool.Queue)
        (fun s q hq => hq) hp ⟨rfl, rfl⟩
    refine ⟨hq1, hq2, ?_⟩
    intro h; rw [hv] at h; simp at h
  | submit present => simp [Op.isSubmit] at hop
  | getSwapChainTexture acquired =>
    simp only [VulkanContext.step] at hs
    cases hg : c.GetSwapChainTexture acquired with
    | error e => simp [hg, Except.map] at hs
    | ok r =>
      obtain ⟨c2, t⟩ := r
      simp [hg, Except.map] at hs
      subst hs
      obtain ⟨sc, sc1, pool1, -, hgw, -, -, rfl⟩ := VulkanContext.GetSwapChainTexture_ok hg
      rcases VulkanSwapChain.GetAndWaitOnNextImage_ok hgw with ⟨-, -, rfl⟩ |
        ⟨-, -, w, a, -, -, -, rfl⟩
      · exact ⟨rfl, rfl, fun _ => rfl⟩
      · exact ⟨rfl, rfl, fun _ => rfl⟩
  | defer task handle =>
    simp only [VulkanContext.step, Except.ok.injEq] at hs
    subst hs
    exact ⟨rfl, rfl, fun _ => rfl⟩
  | destroy handle =>
    obtain ⟨image, -, rfl⟩ := VulkanContext.Destroy_ok hs
    exact ⟨rfl, rfl, fun _ => rfl⟩
  | wait dflt poll later handle =>
    obtain ⟨pool, hp, rfl⟩ := VulkanContext.Wait_ctx_ok hs
    rcases CommandPool.Wait_ok hp with rfl | ⟨s, rfl⟩
    · exact ⟨rfl, rfl, fun _ => rfl⟩
    · exact ⟨rfl, rfl, fun _ => rfl⟩

theorem VulkanContext.run_not_submit {ops : List Op} {c c1 : VulkanContext}
    (hops : ∀ op ∈ ops, op.isSubmit = false) (hr : c.run ops = .ok c1) :
    c1.VulkanCommandPool.LastSubmitSemaphore = c.VulkanCommandPool.LastSubmitSemaphore ∧
    c1.VulkanCommandPool.Queue = c.VulkanCommandPool.Queue ∧
    (c.CurrentCommandBuffer.VkContext = true → c1.CurrentCommandBuffer = c.CurrentCommandBuffer) := by
  induction ops generalizing c with
  | nil => simp [VulkanContext.run] at hr; subst hr; exact ⟨rfl, rfl, fun _ => rfl⟩
  | cons op rest ih =>
    unfold VulkanContext.run at hr
    cases hs : c.step op with
    | error e => simp [hs] at hr
    | ok c2 =>
      simp only [hs] at hr
      obtain ⟨h1, h2, h3⟩ := VulkanContext.step_not_submit (hops op (List.mem_cons_self _ _)) hs
      obtain ⟨k1, k2, k3⟩ := ih (fun o ho => hops o (List.mem_cons_of_mem _ ho)) hr
      refine ⟨k1.trans h1, k2.trans h2, ?_⟩
      intro hv
      have := h3 hv
      rw [k3 (by rw [this]; exact hv), this]

/-! ## The timeline signal of a presenting submit -/

theorem VulkanContext.Submit.present_fst_isSome (sp : Bool) (sc : Option VulkanSwapChain)
    (pool : CommandPool) :
    (VulkanContext.Submit.present sp sc pool).1.isSome = sc.isSome := by
  unfold VulkanContext.Submit.present
  split <;> simp

theorem VulkanContext.step_HasSwapChain {c c1 : VulkanContext} {op : Op}
    (hs : c.step op = .ok c1) : c1.HasSwapChain = c.HasSwapChain := by
  cases op with
  | acquireCommandBuffer polls =>
    obtain ⟨-, pool, slot, -, rfl⟩ := VulkanContext.AcquireCommandBuffer_ctx_ok hs
    rfl
  | submit present =>
    simp only [VulkanContext.step] at hs
    cases hsub : c.Submit present with
    | error e => simp [hsub, Except.map] at hs
    | ok r =>
      obtain ⟨c2, h⟩ := r
      simp [hsub, Except.map] at hs
      subst hs
      obtain ⟨sc1, pool1, slot, pool2, hsig, -, -, rfl⟩ := VulkanContext.Submit_ctx_ok hsub
      simp only [VulkanContext.HasSwapChain, VulkanContext.Submit.present_fst_isSome]
      rcases VulkanContext.Submit.signal_ok hsig with ⟨-, sc, hsc, -, -, rfl, -⟩ | ⟨-, rfl, -⟩
      · simp [hsc]
      · rfl
  | getSwapChainTexture acquired =>
    simp only [VulkanContext.step] at hs
    cases hg : c.GetSwapChainTexture acquired with
    | error e => simp [hg, Except.map] at hs
    | ok r =>
      obtain ⟨c2, t⟩ := r
      simp [hg, Except.map] at hs
      subst hs
      obtain ⟨sc, sc1, pool1, hsc, -, -, -, rfl⟩ := VulkanContext.GetSwapChainTexture_ok hg
      simp [VulkanContext.HasSwapChain, hsc]
  | defer task handle =>
    simp only [VulkanContext.step, Except.ok.injEq] at hs
    subst hs
    rfl
  | destroy handle =>
    obtain ⟨image, -, rfl⟩ := VulkanContext.Destroy_ok hs
    rfl
  | wait dflt poll later handle =>
    obtain ⟨pool, -, rfl⟩ := VulkanContext.Wait_ctx_ok hs
    rfl

theorem VulkanContext.run_HasSwapChain {ops : List Op} {c c1 : VulkanContext}
    (hr : c.run ops = .ok c1) : c1.HasSwapChain = c.HasSwapChain := by
  induction ops generalizing c with
  | nil => simp [VulkanContext.run] at hr; subst hr; rfl
  | cons op rest ih =>
    unfold VulkanContext.run at hr
    cases hs : c.step op with
    | error e => simp [hs] at hr
    | ok c2 =>
      simp only [hs] at hr
      rw [ih hr, VulkanContext.step_HasSwapChain hs]

/-! ## The chain of binary semaphores -/

theorem VulkanContext.Submit_pool {present : TextureHandle} {c c2 : VulkanContext}
    {h : SubmitHandle} (hs : c.Submit present = .ok (c2, h)) :
    ∃ (slot : Nat) (b : CommandBufferData) (info : SubmitInfo),
      c.CurrentCommandBuffer.CommandBufferImpl = some slot ∧
      c.VulkanCommandPool.Buffers[slot]? = some b ∧ b.isEncoding = true ∧ h = b.Handle ∧
      c2.VulkanCommandPool.Buffers =
        c.VulkanCommandPool.Buffers.set slot { b with isEncoding := false } ∧
      c2.VulkanCommandPool.Queue = c.VulkanCommandPool.Queue ++ [info] ∧
      info.waits.map (fun w => w.semaphore) =
        (if c.VulkanCommandPool.WaitOnSemaphore.semaphore ≠ VK_NULL_HANDLE then
          [c.VulkanCommandPool.WaitOnSemaphore.semaphore] else []) ++
        (if c.VulkanCommandPool.LastSubmitSemaphore.semaphore ≠ VK_NULL_HANDLE then
          [c.VulkanCommandPool.LastSubmitSemaphore.semaphore] else []) ∧
      info.signals.head? = some { semaphore := b.Semaphore, value := 0 } ∧
      info.commandBuffer = b.VulkanCommandBuffer ∧ info.fence = b.Fence ∧
      c2.VulkanCommandPool.LastSubmitSemaphore.semaphore =
        (if VulkanContext.Submit.shouldPresent present c = true then VK_NULL_HANDLE
          else b.Semaphore) ∧
      c2.VulkanCommandPool.SubmitCounter =
        CommandPool.Submit.nextCounter c.VulkanCommandPool.SubmitCounter ∧
      c2.VulkanCommandPool.NumberOfAvailableCommandBuffers =
        c.VulkanCommandPool.NumberOfAvailableCommandBuffers ∧
      c2.VulkanCommandPool.NextSubmitHandle = c.VulkanCommandPool.NextSubmitHandle ∧
      c2.DeferredTasks = c.DeferredTasks.dropWhile
        (fun t => c2.VulkanCommandPool.readyFast t.Handle) ∧
      c2.Executed = c.Executed ++ (c.DeferredTasks.takeWhile
        (fun t => c2.VulkanCommandPool.readyFast t.Handle)).map (fun t => t.Task) ∧
      c2.TexturePool = c.TexturePool ∧ c2.VulkanDevice = c.VulkanDevice ∧
      c2.CurrentCommandBuffer = CommandBuffer.empty := by
  obtain ⟨sc1, pool1, slot, pool2, hsig, hslot, hps, rfl⟩ := VulkanContext.Submit_ctx_ok hs
  obtain ⟨b, hb, hbe, hh, hB, hQ, hL, -, -, -, hC, hN, hX⟩ := CommandPool.Submit_fields hps
  obtain ⟨hpB, hpQ, -, -, hpC, hpX, -, hpN⟩ := VulkanContext.Submit.present_snd_fields
    (VulkanContext.Submit.shouldPresent present c) sc1 pool2
  have h1 : pool1.Buffers = c.VulkanCommandPool.Buffers ∧
      pool1.Queue = c.VulkanCommandPool.Queue ∧
      pool1.WaitOnSemaphore = c.VulkanCommandPool.WaitOnSemaphore ∧
      pool1.LastSubmitSemaphore = c.VulkanCommandPool.LastSubmitSemaphore ∧
      pool1.SubmitCounter = c.VulkanCommandPool.SubmitCounter ∧
      pool1.NumberOfAvailableCommandBuffers =
        c.VulkanCommandPool.NumberOfAvailableCommandBuffers ∧
      pool1.NextSubmitHandle = c.VulkanCommandPool.NextSubmitHandle ∧
      (VulkanContext.Submit.shouldPresent present c = true → sc1.isSome = true) := by
    rcases VulkanContext.Submit.signal_ok hsig with ⟨-, sc, -, -, -, rfl, rfl⟩ | ⟨hp, -, rfl⟩
    · exact ⟨rfl, rfl, rfl, rfl, rfl, rfl, rfl, fun _ => rfl⟩
    · exact ⟨rfl, rfl, rfl, rfl, rfl, rfl, rfl, fun h => by rw [hp] at h; simp at h⟩
  obtain ⟨k1, k2, k3, k4, k5, k6, k7, k8⟩ := h1
  refine ⟨slot, b, _, hslot, by rw [← k1]; exact hb, hbe, hh, by rw [hpB, hB, k1],
    by rw [hpQ, hQ, k2], ?_, ?_, rfl, rfl, ?_, by rw [hpC, hC, k5], by rw [hpN, hN, k6],
    by rw [hpX, hX, k7], rfl, rfl, rfl, rfl, rfl⟩
  · simp only [CommandPool.Submit.waits, k3, k4]
    split <;> split <;> simp
  · simp [CommandPool.Submit.signals]
  · cases hsp : VulkanContext.Submit.shouldPresent present c with
    | false => simp [VulkanContext.Submit.present, hL]
    | true =>
      have := k8 hsp
      cases sc1 with
      | none => simp at this
      | some sc => simp [VulkanContext.Submit.present, CommandPool.AcquireLastSubmitSemaphore]

/-! ## Deferring, waiting, processing -/

theorem VulkanContext.ProcessDeferredTasks.loop_all_ready (pool : CommandPool)
    (q : List DeferredTask) (ex : List PackagedTask)
    (hq : ∀ t ∈ q, pool.readyFast t.Handle = true) :
    VulkanContext.ProcessDeferredTasks.loop pool q ex =
      (([], ex ++ q.map fun t => t.Task), none) := by
  induction q generalizing ex with
  | nil => simp [VulkanContext.ProcessDeferredTasks.loop]
  | cons t rest ih =>
    have ht := CommandPool.IsReady_of_readyFast (fun _ => false) pool t.Handle true
      (hq t (List.mem_cons_self _ _))
    unfold VulkanContext.ProcessDeferredTasks.loop
    rw [ht]
    simp only
    rw [ih _ (fun t ht => hq t (List.mem_cons_of_mem _ ht))]
    simp

theorem CommandPool.readyFast_of_IsReady {s : Nat → Bool} {p : CommandPool} {h : SubmitHandle}
    (hr : p.IsReady s h true = .ok true) : p.readyFast h = true := by
  unfold CommandPool.readyFast
  rw [CommandPool.IsReady_fast_irrel (fun _ => false) s, hr]

/-! ## Deferred destruction across two frames -/

theorem CommandPool.AcquireCommandBuffer_available {polls : List (Nat → Bool)}
    {p p3 : CommandPool} {i : Nat} (hn : p.NumberOfAvailableCommandBuffers ≠ 0)
    (ha : p.AcquireCommandBuffer polls = .ok (p3, i)) :
    ∃ b, CommandPool.AcquireCommandBuffer.search p.Buffers = some (i, b) ∧
      b.VulkanCommandBufferAllocated ≠ VK_NULL_HANDLE ∧
      p3.Buffers = p.Buffers.set i
        { b with
            Handle := { b.Handle with ID := p.SubmitCounter }
            VulkanCommandBuffer := b.VulkanCommandBufferAllocated
            isEncoding := true } ∧
      p3.NumberOfAvailableCommandBuffers = u32 (p.NumberOfAvailableCommandBuffers + (2 ^ 32 - 1)) ∧
      p3.NextSubmitHandle = { b.Handle with ID := p.SubmitCounter } ∧
      p3.SubmitCounter = p.SubmitCounter := by
  unfold CommandPool.AcquireCommandBuffer at ha
  simp only [hn, if_false, bind, Except.bind] at ha
  unfold CommandPool.AcquireCommandBuffer.spin at ha
  simp only [hn, ne_eq, not_false_eq_true, if_true, CHECK] at ha
  cases hsearch : CommandPool.AcquireCommandBuffer.search p.Buffers with
  | none => simp [hsearch] at ha
  | some r =>
    obtain ⟨index, buffer⟩ := r
    by_cases hal : buffer.VulkanCommandBufferAllocated = VK_NULL_HANDLE
    · simp [hsearch, hal] at ha
    · simp [hsearch, hal, pure, Except.pure] at ha
      obtain ⟨h1, h2⟩ := ha
      subst h2 h1
      exact ⟨buffer, rfl, hal, rfl, rfl, rfl, rfl⟩

theorem CommandPool.create.slots_two (cmd sem fence : Nat → Nat) (k : Nat) :
    ∃ rest, CommandPool.create.slots cmd sem fence (k + 2) =
      { VulkanCommandBuffer := VK_NULL_HANDLE
        VulkanCommandBufferAllocated := cmd 0
        Handle := { BufferIndex := 0, ID := 0 }
        Semaphore := sem 0
        Fence := fence 0
        isEncoding := false } ::
      { VulkanCommandBuffer := VK_NULL_HANDLE
        VulkanCommandBufferAllocated := cmd 1
        Handle := { BufferIndex := 1, ID := 0 }
        Semaphore := sem 1
        Fence := fence 1
        isEncoding := false } :: rest := by
  induction k with
  | zero => exact ⟨[], rfl⟩
  | succ k ih =>
    obtain ⟨rest, hr⟩ := ih
    exact ⟨_, by rw [CommandPool.create.slots, hr]; rfl⟩

theorem VulkanContext.run_cons_ok {c c2 : VulkanContext} {op : Op} {ops : List Op}
    (hr : c.run (op :: ops) = .ok c2) : ∃ c1, c.step op = .ok c1 ∧ c1.run ops = .ok c2 := by
  unfold VulkanContext.run at hr
  cases hs : c.step op with
  | error e => simp [hs] at hr
  | ok c1 => exact ⟨c1, rfl, by simpa [hs] using hr⟩

theorem VulkanContext.step_submit_ok {c c1 : VulkanContext} {present : TextureHandle}
    (hs : c.step (.submit present) = .ok c1) : ∃ h, c.Submit present = .ok (c1, h) := by
  simp only [VulkanContext.step] at hs
  cases hsub : c.Submit present with
  | error e => simp [hsub, Except.map] at hs
  | ok r =>
    obtain ⟨c2, h⟩ := r
    simp [hsub, Except.map] at hs
    subst hs
    exact ⟨h, rfl⟩

theorem VulkanContext.AcquireCommandBuffer_fields {polls : List (Nat → Bool)}
    {c c1 : VulkanContext} (hn : c.VulkanCommandPool.NumberOfAvailableCommandBuffers ≠ 0)
    (ha : c.AcquireCommandBuffer polls = .ok c1) :
    ∃ i b, CommandPool.AcquireCommandBuffer.search c.VulkanCommandPool.Buffers = some (i, b) ∧
      b.VulkanCommandBufferAllocated ≠ VK_NULL_HANDLE ∧
      c1.VulkanCommandPool.Buffers = c.VulkanCommandPool.Buffers.set i
        { b with
            Handle := { b.Handle with ID := c.VulkanCommandPool.SubmitCounter }
            VulkanCommandBuffer := b.VulkanCommandBufferAllocated
            isEncoding := true } ∧
      c1.VulkanCommandPool.NumberOfAvailableCommandBuffers =
        u32 (c.VulkanCommandPool.NumberOfAvailableCommandBuffers + (2 ^ 32 - 1)) ∧
      c1.VulkanCommandPool.NextSubmitHandle =
        { b.Handle with ID := c.VulkanCommandPool.SubmitCounter } ∧
      c1.VulkanCommandPool.SubmitCounter = c.VulkanCommandPool.SubmitCounter ∧
      c1.CurrentCommandBuffer.CommandBufferImpl = some i ∧
      c1.DeferredTasks = c.DeferredTasks ∧ c1.Executed = c.Executed ∧
      c1.TexturePool = c.TexturePool ∧ c1.VulkanDevice = c.VulkanDevice := by
  obtain ⟨-, pool, slot, hp, rfl⟩ := VulkanContext.AcquireCommandBuffer_ctx_ok ha
  obtain ⟨b, h1, h2, h3, h4, h5, h6⟩ := CommandPool.AcquireCommandBuffer_available hn hp
  exact ⟨slot, b, h1, h2, h3, h4, h5, h6, rfl, rfl, rfl, rfl, rfl⟩

theorem VulkanTexturePool.Get_Destroy {pool : VulkanTexturePool} {h : TextureHandle}
    {image : VulkanImage} (hg : pool.Get h = some image) : (pool.Destroy h).Get h = none := by
  unfold VulkanTexturePool.Get at hg
  cases he : pool.Objects[h.index]? with
  | none => simp [he] at hg
  | some e =>
    simp only [he] at hg
    split at hg
    · rename_i hgen
      have hlt : h.index < pool.Objects.length := by
        by_contra hge
        rw [List.getElem?_eq_none (by omega)] at he
        simp at he
      unfold VulkanTexturePool.Destroy
      simp only [he, hgen, hg, Option.isSome_some, and_self, if_true]
      unfold VulkanTexturePool.Get
      simp only [List.getElem?_set_self hlt]
      simp
    · simp at hg

/-! ## The first frame on a fresh pool -/

theorem CommandPool.AcquireCommandBuffer_of_available (polls : List (Nat → Bool))
    {p : CommandPool} {i : Nat} {b : CommandBufferData}
    (hn : p.NumberOfAvailableCommandBuffers ≠ 0)
    (hsearch : CommandPool.AcquireCommandBuffer.search p.Buffers = some (i, b))
    (hal : b.VulkanCommandBufferAllocated ≠ VK_NULL_HANDLE) :
    ∃ p3, p.AcquireCommandBuffer polls = .ok (p3, i) := by
  unfold CommandPool.AcquireCommandBuffer
  simp only [hn, if_false, bind, Except.bind]
  unfold CommandPool.AcquireCommandBuffer.spin
  simp [hn, CHECK, hsearch, hal, pure, Except.pure]

theorem CommandPool.create.slots_one (cmd sem fence : Nat → Nat) (k : Nat) :
    ∃ rest, CommandPool.create.slots cmd sem fence (k + 1) =
      { VulkanCommandBuffer := VK_NULL_HANDLE
        VulkanCommandBufferAllocated := cmd 0
        Handle := { BufferIndex := 0, ID := 0 }
        Semaphore := sem 0
        Fence := fence 0
        isEncoding := false } :: rest := by
  induction k with
  | zero => exact ⟨[], rfl⟩
  | succ k ih =>
    obtain ⟨rest, hr⟩ := ih
    exact ⟨_, by rw [CommandPool.create.slots, hr]; rfl⟩

/-- On a fresh pool with at least one slot the first acquire-then-submit cycle returns, and the
handle it returns is (0, 1). -/
theorem CommandPool.create_first_frame (maxCommandBuffers : Nat) (cmd sem fence : Nat → Nat)
    (polls : List (Nat → Bool)) (hmin : 0 < maxCommandBuffers) (hmax : maxCommandBuffers < 2 ^ 32)
    (hcmd : cmd 0 ≠ VK_NULL_HANDLE) :
    ∃ p1 p2, (CommandPool.create maxCommandBuffers cmd sem fence).AcquireCommandBuffer polls =
        .ok (p1, 0) ∧
      p1.Submit 0 = .ok (p2, { BufferIndex := 0, ID := 1 }) := by
  obtain ⟨k, rfl⟩ : ∃ k, maxCommandBuffers = k + 1 := ⟨maxCommandBuffers - 1, by omega⟩
  obtain ⟨rest, hslots⟩ := CommandPool.create.slots_one cmd sem fence k
  have hB : (CommandPool.create (k + 1) cmd sem fence).Buffers = _ := hslots
  have hN : (CommandPool.create (k + 1) cmd sem fence).NumberOfAvailableCommandBuffers ≠ 0 := by
    show u32 (k + 1) ≠ 0
    unfold u32
    rw [Nat.mod_eq_of_lt hmax]
    omega
  have hsearch : CommandPool.AcquireCommandBuffer.search
      (CommandPool.create (k + 1) cmd sem fence).Buffers =
      some (0, { VulkanCommandBuffer := VK_NULL_HANDLE
                 VulkanCommandBufferAllocated := cmd 0
                 Handle := { BufferIndex := 0, ID := 0 }
                 Semaphore := sem 0
                 Fence := fence 0
                 isEncoding := false }) := by
    rw [hB]
    simp [CommandPool.AcquireCommandBuffer.search]
  obtain ⟨p1, hp1⟩ := CommandPool.AcquireCommandBuffer_of_available polls hN hsearch hcmd
  obtain ⟨p2, h, hsub, hid, -⟩ := CommandPool.frame_handle hp1
  refine ⟨p1, p2, hp1, ?_⟩
  obtain ⟨b, hs2, -, hB1, -⟩ := CommandPool.AcquireCommandBuffer_available hN hp1
  rw [hsearch] at hs2
  simp only [Option.some.injEq, Prod.mk.injEq, true_and] at hs2
  subst hs2
  obtain ⟨d, hd, -, hh, -⟩ := CommandPool.Submit_fields hsub
  rw [hB1, hB] at hd
  simp only [List.set_cons_zero, List.getElem?_cons_zero, Option.some.injEq] at hd
  subst hd
  rw [hsub, hh]
  rfl

/-! ## Destroying textures and shader modules -/

theorem VulkanContext.Destroy_of_Get {handle : TextureHandle} {c : VulkanContext}
    {image : VulkanImage} (hget : c.TexturePool.Get handle = some image) :
    c.Destroy handle = .ok
      { c with
          DeferredTasks := c.DeferredTasks ++ (VulkanContext.Destroy.views image).map fun v =>
            { Task := .destroyImageView c.VulkanDevice v
              Handle := c.VulkanCommandPool.NextSubmitHandle }
          TexturePool := c.TexturePool.Destroy handle } := by
  unfold VulkanContext.Destroy
  simp only [hget, VulkanContext.Destroy.foldl_Defer]

theorem VulkanContext.Destroy.populated_length (rows : List (List Nat)) :
    ((rows.map fun row => row.filter fun v => v ≠ VK_NULL_HANDLE).flatten).length =
      rows.flatten.countP fun v => v ≠ VK_NULL_HANDLE := by
  induction rows with
  | nil => simp
  | cons row rest ih =>
    simp only [List.map_cons, List.flatten_cons, List.length_append, ih, List.countP_append,
      List.countP_eq_length_filter, List.filter_append]

theorem VulkanContext.Destroy.views_length (image : VulkanImage) :
    (VulkanContext.Destroy.views image).length =
      1 + (if image.ImageViewStorage ≠ VK_NULL_HANDLE then 1 else 0) +
        image.ImageViewForFramebuffer.flatten.countP fun v => v ≠ VK_NULL_HANDLE := by
  unfold VulkanContext.Destroy.views
  rw [List.length_append, List.length_append, VulkanContext.Destroy.populated_length]
  split <;> simp

theorem VulkanSwapChain.GetSwapChainFormat.scan_some {test : VkSurfaceFormatKHR → Bool}
    {l : List VkSurfaceFormatKHR} {fmt : VkSurfaceFormatKHR}
    (h : VulkanSwapChain.GetSwapChainFormat.scan test l = some fmt) :
    ∃ i, l[i]? = some fmt ∧ test fmt = true ∧
      ∀ j : Nat, j < i → ∀ g : VkSurfaceFormatKHR, l[j]? = some g → test g = false := by
  induction l with
  | nil => simp [VulkanSwapChain.GetSwapChainFormat.scan] at h
  | cons a rest ih =>
    unfold VulkanSwapChain.GetSwapChainFormat.scan at h
    by_cases ha : test a = true
    · rw [if_pos ha] at h
      obtain rfl : a = fmt := by simpa using h
      exact ⟨0, by simp, ha, fun j hj => absurd hj (Nat.not_lt_zero j)⟩
    · rw [if_neg ha] at h
      obtain ⟨i, hi, ht, hbefore⟩ := ih h
      refine ⟨i + 1, by simpa using hi, ht, ?_⟩
      intro j hj g hg
      cases j with
      | zero =>
        obtain rfl : a = g := by simpa using hg
        simpa using ha
      | succ j => exact hbefore j (by omega) g (by simpa using hg)

theorem VulkanSwapChain.GetSwapChainFormat.scan_none {test : VkSurfaceFormatKHR → Bool}
    {l : List VkSurfaceFormatKHR}
    (h : VulkanSwapChain.GetSwapChainFormat.scan test l = none) :
    ∀ g, g ∈ l → test g = false := by
  induction l with
  | nil => simp
  | cons a rest ih =>
    unfold VulkanSwapChain.GetSwapChainFormat.scan at h
    by_cases ha : test a = true
    · rw [if_pos ha] at h
      simp at h
    · rw [if_neg ha] at h
      intro g hg
      rcases List.mem_cons.mp hg with rfl | hg
      · simpa using ha
      · exact ih h g hg

theorem VulkanSwapChain.GetSwapChainFormat_spec (availableFormats : List VkSurfaceFormatKHR)
    (desiredColorSpace : ColorSpace) (hne : availableFormats ≠ []) :
    ∃ fmt i, VulkanSwapChain.GetSwapChainFormat availableFormats desiredColorSpace = .ok fmt ∧
      availableFormats[i]? = some fmt ∧
      ((fmt = VulkanSwapChain.GetSwapChainFormat.preferred desiredColorSpace ∧
          ∀ j : Nat, j < i → ∀ g : VkSurfaceFormatKHR, availableFormats[j]? = some g →
            g ≠ VulkanSwapChain.GetSwapChainFormat.preferred desiredColorSpace) ∨
        ((∀ g : VkSurfaceFormatKHR, g ∈ availableFormats →
            g ≠ VulkanSwapChain.GetSwapChainFormat.preferred desiredColorSpace) ∧
          fmt.format = (VulkanSwapChain.GetSwapChainFormat.preferred desiredColorSpace).format ∧
          ∀ j : Nat, j < i → ∀ g : VkSurfaceFormatKHR, availableFormats[j]? = some g →
            g.format ≠ (VulkanSwapChain.GetSwapChainFormat.preferred desiredColorSpace).format) ∨
        ((∀ g : VkSurfaceFormatKHR, g ∈ availableFormats →
            g.format ≠ (VulkanSwapChain.GetSwapChainFormat.preferred desiredColorSpace).format) ∧
          i = 0)) := by
  have hpair : ∀ g : VkSurfaceFormatKHR,
      decide (g.format = (VulkanSwapChain.GetSwapChainFormat.preferred desiredColorSpace).format ∧
        g.colorSpace =
          (VulkanSwapChain.GetSwapChainFormat.preferred desiredColorSpace).colorSpace) = true ↔
      g = VulkanSwapChain.GetSwapChainFormat.preferred desiredColorSpace := by
    intro g
    cases g
    cases hp : VulkanSwapChain.GetSwapChainFormat.preferred desiredColorSpace
    simp
  unfold VulkanSwapChain.GetSwapChainFormat
  simp only []
  cases h1 : VulkanSwapChain.GetSwapChainFormat.scan
      (fun fmt => decide (fmt.format =
          (VulkanSwapChain.GetSwapChainFormat.preferred desiredColorSpace).format ∧
        fmt.colorSpace = (VulkanSwapChain.GetSwapChainFormat.preferred desiredColorSpace).colorSpace))
      availableFormats with
  | some fmt =>
    obtain ⟨i, hi, ht, hbefore⟩ := VulkanSwapChain.GetSwapChainFormat.scan_some h1
    refine ⟨fmt, i, rfl, hi, Or.inl ⟨(hpair fmt).mp ht, ?_⟩⟩
    intro j hj g hg hgp
    have := hbefore j hj g hg
    rw [(hpair g).mpr hgp] at this
    exact Bool.noConfusion this
  | none =>
    have hnopair : ∀ g, g ∈ availableFormats →
        g ≠ VulkanSwapChain.GetSwapChainFormat.preferred desiredColorSpace := by
      intro g hg hgp
      have := VulkanSwapChain.GetSwapChainFormat.scan_none h1 g hg
      rw [(hpair g).mpr hgp] at this
      exact Bool.noConfusion this
    cases h2 : VulkanSwapChain.GetSwapChainFormat.scan
        (fun fmt => decide (fmt.format =
          (VulkanSwapChain.GetSwapChainFormat.preferred desiredColorSpace).format))
        availableFormats with
    | some fmt =>
      obtain ⟨i, hi, ht, hbefore⟩ := VulkanSwapChain.GetSwapChainFormat.scan_some h2
      refine ⟨fmt, i, rfl, hi, Or.inr (Or.inl ⟨hnopair, by simpa using ht, ?_⟩)⟩
      intro j hj g hg
      simpa using hbefore j hj g hg
    | none =>
      cases availableFormats with
      | nil => exact absurd rfl hne
      | cons a rest =>
        refine ⟨a, 0, by simp, by simp, Or.inr (Or.inr ⟨?_, rfl⟩)⟩
        intro g hg
        simpa using VulkanSwapChain.GetSwapChainFormat.scan_none h2 g hg

/-! ## The image usage flags of the swapchain -/

theorem VulkanSwapChain.usageFlags_eq (supportedUsageFlags optimalTilingFeatures : Nat) :
    VulkanSwapChain.usageFlags supportedUsageFlags optimalTilingFeatures =
      if (u32 supportedUsageFlags &&& VK_IMAGE_USAGE_STORAGE_BIT) ≠ 0 ∧
          u32 optimalTilingFeatures % 2 = 1 then
        VK_IMAGE_USAGE_COLOR_ATTACHMENT_BIT ||| VK_IMAGE_USAGE_TRANSFER_DST_BIT |||
          VK_IMAGE_USAGE_TRANSFER_SRC_BIT ||| VK_IMAGE_USAGE_STORAGE_BIT
      else
        VK_IMAGE_USAGE_COLOR_ATTACHMENT_BIT ||| VK_IMAGE_USAGE_TRANSFER_DST_BIT |||
          VK_IMAGE_USAGE_TRANSFER_SRC_BIT := by
  have hbit : (u32 optimalTilingFeatures &&& (if VK_IMAGE_USAGE_STORAGE_BIT > 0 then 1 else 0)) =
      u32 optimalTilingFeatures % 2 := by
    rw [if_pos (by decide)]
    exact Nat.and_one_is_mod _
  unfold VulkanSwapChain.usageFlags VulkanSwapChain.isStorageSupported
    VulkanSwapChain.isTilingOptimalSupported
  rw [hbit]
  have hmod : u32 optimalTilingFeatures % 2 = 0 ∨ u32 optimalTilingFeatures % 2 = 1 := by omega
  by_cases hs : (u32 supportedUsageFlags &&& VK_IMAGE_USAGE_STORAGE_BIT) = 0
  · simp [hs]
  · rcases hmod with hm | hm
    · simp [hm]
    · simp [hm, hs, Nat.pos_of_ne_zero hs]

/-! ## The images of the swapchain -/

theorem VulkanSwapChain.create.loop_length (d : ContextCreation) (n : Nat) :
    (VulkanSwapChain.create.loop d n).2.1.length = n ∧
    (VulkanSwapChain.create.loop d n).2.2.length = n := by
  induction n with
  | zero => exact ⟨rfl, rfl⟩
  | succ n ih =>
    unfold VulkanSwapChain.create.loop
    simp only [List.length_append, List.length_singleton, ih.1, ih.2, and_self]

theorem VulkanSwapChain.create_lengths (d : ContextCreation) :
    (VulkanSwapChain.create d).1.NumberOfSwapChainImages =
        min (u32 d.swapChainImageCount) d.MAX_IMAGES ∧
    (VulkanSwapChain.create d).1.AcquireSemaphores.length =
        (VulkanSwapChain.create d).1.NumberOfSwapChainImages ∧
    (VulkanSwapChain.create d).1.Textures.length =
        (VulkanSwapChain.create d).1.NumberOfSwapChainImages ∧
    (VulkanSwapChain.create d).1.TimelineWaitValues.length =
        (VulkanSwapChain.create d).1.NumberOfSwapChainImages := by
  unfold VulkanSwapChain.create
  simp only [List.length_replicate, VulkanSwapChain.create.loop_length, and_self]

theorem VulkanSwapChain.construct_ok {support : SwapChainSupport} {desiredColorSpace : ColorSpace}
    {d : ContextCreation} {createInfo : VkSwapchainCreateInfoKHR} {sc : VulkanSwapChain}
    {pool : VulkanTexturePool}
    (h : VulkanSwapChain.construct support desiredColorSpace d = .ok (createInfo, sc, pool)) :
    VulkanSwapChain.createInfo support desiredColorSpace = .ok createInfo ∧
    u32 d.swapChainImageCount ≤ d.MAX_IMAGES ∧
    (sc, pool) = VulkanSwapChain.create { d with surfaceFormat := createInfo.imageFormat } ∧
    0 < sc.NumberOfSwapChainImages := by
  unfold VulkanSwapChain.construct at h
  cases hci : VulkanSwapChain.createInfo support desiredColorSpace with
  | error e => simp [hci, bind, Except.bind] at h
  | ok ci =>
    by_cases hall : u32 d.swapChainImageCount ≤ min (u32 d.swapChainImageCount) d.MAX_IMAGES
    · by_cases hpos : (VulkanSwapChain.create
          { d with surfaceFormat := ci.imageFormat }).1.NumberOfSwapChainImages > 0
      · simp only [hci, bind, Except.bind, VK_ASSERT, if_pos hall, CHECK, if_pos hpos, pure,
          Except.pure, Except.ok.injEq, Prod.mk.injEq] at h
        obtain ⟨rfl, hr⟩ := h
        refine ⟨rfl, Nat.le_trans hall (Nat.min_le_right _ _), hr.symm, ?_⟩
        rw [hr] at hpos
        exact hpos
      · simp only [hci, bind, Except.bind, VK_ASSERT, if_pos hall, CHECK, if_neg hpos] at h
        cases h
    · simp only [hci, bind, Except.bind, VK_ASSERT, if_neg hall] at h
      cases h

theorem VulkanSwapChain.construct_incomplete {support : SwapChainSupport}
    {desiredColorSpace : ColorSpace} {d : ContextCreation}
    (hmore : d.MAX_IMAGES < u32 d.swapChainImageCount) (r : VkSwapchainCreateInfoKHR ×
      VulkanSwapChain × VulkanTexturePool) :
    VulkanSwapChain.construct support desiredColorSpace d ≠ .ok r := by
  intro h
  obtain ⟨ci, sc, pool⟩ := r
  have hle := (VulkanSwapChain.construct_ok h).2.1
  omega

theorem VulkanSwapChain.createInfo_minImageCount {support : SwapChainSupport}
    {desiredColorSpace : ColorSpace} {createInfo : VkSwapchainCreateInfoKHR}
    (h : VulkanSwapChain.createInfo support desiredColorSpace = .ok createInfo) :
    createInfo.minImageCount = support.minImageCount := by
  unfold VulkanSwapChain.createInfo at h
  cases hf : VulkanSwapChain.GetSwapChainFormat support.formats desiredColorSpace with
  | error e => simp [hf, bind, Except.bind] at h
  | ok fmt =>
    by_cases hq : support.queueFamilySupportsPresentation = true
    · simp only [hf, bind, Except.bind, CHECK, if_pos hq, pure, Except.pure, Except.ok.injEq] at h
      rw [← h]
    · simp [hf, bind, Except.bind, CHECK, if_neg hq] at h

/-- When the constructor of the swapchain returns: the count it keeps is the number of images of
the swapchain, between 1 and `MAX_IMAGES`, the three per-image vectors have that many entries, and
the request carried the surface's `minImageCount`. -/
theorem VulkanSwapChain.construct_counts {support : SwapChainSupport}
    {desiredColorSpace : ColorSpace} {d : ContextCreation} {createInfo : VkSwapchainCreateInfoKHR}
    {sc : VulkanSwapChain} {pool : VulkanTexturePool}
    (h : VulkanSwapChain.construct support desiredColorSpace d = .ok (createInfo, sc, pool)) :
    sc.NumberOfSwapChainImages = u32 d.swapChainImageCount ∧
    sc.NumberOfSwapChainImages ≤ d.MAX_IMAGES ∧
    0 < sc.NumberOfSwapChainImages ∧
    sc.AcquireSemaphores.length = sc.NumberOfSwapChainImages ∧
    sc.Textures.length = sc.NumberOfSwapChainImages ∧
    sc.TimelineWaitValues.length = sc.NumberOfSwapChainImages ∧
    createInfo.minImageCount = support.minImageCount := by
  obtain ⟨hci, hle, hr, hpos⟩ := VulkanSwapChain.construct_ok h
  have hl := VulkanSwapChain.create_lengths { d with surfaceFormat := createInfo.imageFormat }
  rw [← hr] at hl
  obtain ⟨hn, h1, h2, h3⟩ := hl
  simp only at hn
  rw [Nat.min_eq_left hle] at hn
  exact ⟨hn, by rw [hn]; exact hle, hpos, h1, h2, h3,
    VulkanSwapChain.createInfo_minImageCount hci⟩

/-! ## The instance-creation request -/

theorem VulkanContext.CreateVulkanInstance.foundLayer_iff (validationLayer : String)
    (layerProperties : List String) :
    VulkanContext.CreateVulkanInstance.foundLayer validationLayer layerProperties = true ↔
      validationLayer ∈ layerProperties := by
  induction layerProperties with
  | nil => simp [VulkanContext.CreateVulkanInstance.foundLayer]
  | cons a rest ih =>
    unfold VulkanContext.CreateVulkanInstance.foundLayer
    by_cases ha : a = validationLayer
    · simp [ha]
    · rw [if_neg ha, ih]
      simp [Ne.symm ha]

theorem VulkanContext.CreateVulkanInstance.foundInstanceExtension_iff (name : String)
    (allInstanceExtensions : List String) :
    VulkanContext.CreateVulkanInstance.foundInstanceExtension name allInstanceExtensions = true ↔
      name ∈ allInstanceExtensions := by
  induction allInstanceExtensions with
  | nil => simp [VulkanContext.CreateVulkanInstance.foundInstanceExtension]
  | cons a rest ih =>
    unfold VulkanContext.CreateVulkanInstance.foundInstanceExtension
    by_cases ha : a = name
    · simp [ha]
    · rw [if_neg ha, ih]
      simp [Ne.symm ha]

theorem VulkanContext.CreateVulkanInstance.availableInstanceExtensionNames_eq
    (allInstanceExtensions requested : List String) :
    VulkanContext.CreateVulkanInstance.availableInstanceExtensionNames allInstanceExtensions
        requested =
      requested.filter fun name => name ∈ allInstanceExtensions := by
  induction requested with
  | nil => rfl
  | cons a rest ih =>
    unfold VulkanContext.CreateVulkanInstance.availableInstanceExtensionNames
    by_cases ha : a ∈ allInstanceExtensions
    · rw [if_pos ((VulkanContext.CreateVulkanInstance.foundInstanceExtension_iff a _).mpr ha), ih]
      simp [ha]
    · rw [if_neg (fun h =>
        ha ((VulkanContext.CreateVulkanInstance.foundInstanceExtension_iff a _).mp h)), ih]
      simp [ha]

/-! ## Acquiring from a pool with no free slot -/

theorem CommandPool.TryResetCommandBuffers.loop_quiet (s : Nat → Bool)
    (bs : List CommandBufferData) (n : Nat)
    (hq : ∀ b, b ∈ bs → CommandPool.TryResetCommandBuffers.resets s b = false) :
    CommandPool.TryResetCommandBuffers.loop s bs n = (bs, n) := by
  induction bs generalizing n with
  | nil => rfl
  | cons b rest ih =>
    have hb := hq b (List.mem_cons_self _ _)
    have hrest := ih n (fun b1 hb1 => hq b1 (List.mem_cons_of_mem _ hb1))
    unfold CommandPool.TryResetCommandBuffers.resets at hb
    unfold CommandPool.TryResetCommandBuffers.loop
    by_cases h1 : b.VulkanCommandBuffer = VK_NULL_HANDLE ∨ b.isEncoding = true
    · rw [if_pos h1]
      simp only [hrest]
    · rw [if_neg h1]
      have h2 : ¬ (s b.Fence = true) := by simpa [h1] using hb
      rw [if_neg h2]
      simp only [hrest]

theorem CommandPool.TryResetCommandBuffers_quiet (s : Nat → Bool) (p : CommandPool)
    (hq : ∀ b, b ∈ p.Buffers → CommandPool.TryResetCommandBuffers.resets s b = false) :
    p.TryResetCommandBuffers s = p := by
  unfold CommandPool.TryResetCommandBuffers
  simp only [CommandPool.TryResetCommandBuffers.loop_quiet s p.Buffers _ hq]

theorem CommandPool.TryResetCommandBuffers.loop_snd (s : Nat → Bool)
    (bs : List CommandBufferData) (n : Nat) (hn : n < 2 ^ 32) :
    (CommandPool.TryResetCommandBuffers.loop s bs n).2 =
      u32 (n + bs.countP (CommandPool.TryResetCommandBuffers.resets s)) := by
  induction bs generalizing n with
  | nil =>
    unfold CommandPool.TryResetCommandBuffers.loop u32
    simp only [List.countP_nil, Nat.add_zero]
    exact (Nat.mod_eq_of_lt hn).symm
  | cons b rest ih =>
    unfold CommandPool.TryResetCommandBuffers.loop
    by_cases h1 : b.VulkanCommandBuffer = VK_NULL_HANDLE ∨ b.isEncoding = true
    · rw [if_pos h1]
      have hb : CommandPool.TryResetCommandBuffers.resets s b = false := by
        simp [CommandPool.TryResetCommandBuffers.resets, h1]
      simp only [ih n hn, List.countP_cons, hb, Bool.false_eq_true, if_false, Nat.add_zero]
    · rw [if_neg h1]
      by_cases h2 : s b.Fence = true
      · rw [if_pos h2]
        have hb : CommandPool.TryResetCommandBuffers.resets s b = true := by
          simp [CommandPool.TryResetCommandBuffers.resets, h1, h2]
        have hlt : u32 (n + 1) < 2 ^ 32 := Nat.mod_lt _ (by norm_num)
        simp only [ih (u32 (n + 1)) hlt, List.countP_cons, hb, if_true]
        unfold u32
        omega
      · rw [if_neg h2]
        have hb : CommandPool.TryResetCommandBuffers.resets s b = false := by
          simp [CommandPool.TryResetCommandBuffers.resets, h2]
        simp only [ih n hn, List.countP_cons, hb, Bool.false_eq_true, if_false, Nat.add_zero]

theorem CommandPool.TryResetCommandBuffers.slot_reset {s : Nat → Bool} {b : CommandBufferData}
    (h : (CommandPool.TryResetCommandBuffers.slot s b).VulkanCommandBuffer = VK_NULL_HANDLE) :
    b.VulkanCommandBuffer = VK_NULL_HANDLE ∨
      CommandPool.TryResetCommandBuffers.resets s b = true := by
  unfold CommandPool.TryResetCommandBuffers.slot at h
  by_cases h1 : b.VulkanCommandBuffer = VK_NULL_HANDLE ∨ b.isEncoding = true
  · rw [if_pos h1] at h
    exact Or.inl h
  · rw [if_neg h1] at h
    by_cases h2 : s b.Fence = true
    · right
      simp [CommandPool.TryResetCommandBuffers.resets, h1, h2]
    · rw [if_neg h2] at h
      exact Or.inl h

theorem CommandPool.TryResetCommandBuffers.slot_of_resets {s : Nat → Bool}
    {b : CommandBufferData} (h : CommandPool.TryResetCommandBuffers.resets s b = true) :
    CommandPool.TryResetCommandBuffers.slot s b = { b with VulkanCommandBuffer := VK_NULL_HANDLE } := by
  unfold CommandPool.TryResetCommandBuffers.resets at h
  simp only [Bool.and_eq_true, decide_eq_true_eq] at h
  unfold CommandPool.TryResetCommandBuffers.slot
  rw [if_neg h.1, if_pos h.2]

theorem CommandPool.TryResetCommandBuffers.slot_allocated (s : Nat → Bool)
    (b : CommandBufferData) :
    (CommandPool.TryResetCommandBuffers.slot s b).VulkanCommandBufferAllocated =
      b.VulkanCommandBufferAllocated := by
  unfold CommandPool.TryResetCommandBuffers.slot
  split
  · rfl
  · split <;> rfl

theorem CommandPool.AcquireCommandBuffer.search_of_mem {bs : List CommandBufferData}
    (h : ∃ b, b ∈ bs ∧ b.VulkanCommandBuffer = VK_NULL_HANDLE) :
    ∃ i b, CommandPool.AcquireCommandBuffer.search bs = some (i, b) := by
  induction bs with
  | nil =>
    obtain ⟨b, hb, _⟩ := h
    exact absurd hb (List.not_mem_nil b)
  | cons a rest ih =>
    unfold CommandPool.AcquireCommandBuffer.search
    by_cases ha : a.VulkanCommandBuffer = VK_NULL_HANDLE
    · exact ⟨0, a, by rw [if_pos ha]⟩
    · rw [if_neg ha]
      obtain ⟨b, hb, hnull⟩ := h
      rcases List.mem_cons.mp hb with rfl | hb
      · exact absurd hnull ha
      · obtain ⟨i, b1, hs⟩ := ih ⟨b, hb, hnull⟩
        exact ⟨i + 1, b1, by rw [hs]; rfl⟩

theorem CommandPool.AcquireCommandBuffer.spin_quiet {polls : List (Nat → Bool)}
    {p : CommandPool} (hN : p.NumberOfAvailableCommandBuffers = 0)
    (hq : ∀ s, s ∈ polls → ∀ b, b ∈ p.Buffers →
      CommandPool.TryResetCommandBuffers.resets s b = false) :
    CommandPool.AcquireCommandBuffer.spin polls p = .error .spinning := by
  induction polls with
  | nil =>
    unfold CommandPool.AcquireCommandBuffer.spin
    simp [hN]
  | cons s rest ih =>
    unfold CommandPool.AcquireCommandBuffer.spin
    simp only [hN, ne_eq, not_true_eq_false, if_false]
    rw [CommandPool.TryResetCommandBuffers_quiet s p (hq s (List.mem_cons_self _ _))]
    exact ih (fun t ht => hq t (List.mem_cons_of_mem _ ht))

theorem CommandPool.TryResetCommandBuffers_available {s : Nat → Bool} {p : CommandPool}
    (hN : p.NumberOfAvailableCommandBuffers = 0) (hlen : p.Buffers.length < 2 ^ 32)
    (hs : ∃ b, b ∈ p.Buffers ∧ CommandPool.TryResetCommandBuffers.resets s b = true) :
    (p.TryResetCommandBuffers s).NumberOfAvailableCommandBuffers ≠ 0 := by
  have hcount : 0 < p.Buffers.countP (CommandPool.TryResetCommandBuffers.resets s) := by
    obtain ⟨b, hb, hr⟩ := hs
    exact List.countP_pos_iff.mpr ⟨b, hb, hr⟩
  have hle : p.Buffers.countP (CommandPool.TryResetCommandBuffers.resets s) ≤ p.Buffers.length :=
    List.countP_le_length _
  unfold CommandPool.TryResetCommandBuffers
  simp only [hN]
  rw [CommandPool.TryResetCommandBuffers.loop_snd s p.Buffers 0 (by norm_num)]
  unfold u32
  rw [Nat.zero_add, Nat.mod_eq_of_lt (by omega)]
  omega

theorem CommandPool.AcquireCommandBuffer.spin_first (post : List (Nat → Bool))
    {pre : List (Nat → Bool)} {s : Nat → Bool} {p : CommandPool} (hN : p.NumberOfAvailableCommandBuffers = 0)
    (hlen : p.Buffers.length < 2 ^ 32)
    (hq : ∀ t, t ∈ pre → ∀ b, b ∈ p.Buffers →
      CommandPool.TryResetCommandBuffers.resets t b = false)
    (hs : ∃ b, b ∈ p.Buffers ∧ CommandPool.TryResetCommandBuffers.resets s b = true) :
    CommandPool.AcquireCommandBuffer.spin (pre ++ s :: post) p =
      .ok (p.TryResetCommandBuffers s) := by
  induction pre with
  | nil =>
    rw [List.nil_append]
    unfold CommandPool.AcquireCommandBuffer.spin
    simp only [hN, ne_eq, not_true_eq_false, if_false]
    unfold CommandPool.AcquireCommandBuffer.spin
    rw [if_pos (CommandPool.TryResetCommandBuffers_available hN hlen hs)]
  | cons t rest ih =>
    rw [List.cons_append]
    unfold CommandPool.AcquireCommandBuffer.spin
    simp only [hN, ne_eq, not_true_eq_false, if_false]
    rw [CommandPool.TryResetCommandBuffers_quiet t p (hq t (List.mem_cons_self _ _))]
    exact ih (fun u hu => hq u (List.mem_cons_of_mem _ hu))

theorem CommandPool.AcquireCommandBuffer_of_spin {polls : List (Nat → Bool)}
    {p p2 : CommandPool} (hs : CommandPool.AcquireCommandBuffer.spin polls p = .ok p2) :
    p.AcquireCommandBuffer polls = p2.AcquireCommandBuffer [] := by
  have hn2 : p2.NumberOfAvailableCommandBuffers ≠ 0 :=
    (CommandPool.AcquireCommandBuffer.spin_ok (P := fun _ => True)
      (fun _ _ _ => trivial) hs trivial).2
  have hspin2 : CommandPool.AcquireCommandBuffer.spin [] p2 = .ok p2 := by
    unfold CommandPool.AcquireCommandBuffer.spin
    rw [if_pos hn2]
  by_cases hN : p.NumberOfAvailableCommandBuffers = 0
  · cases polls with
    | nil =>
      unfold CommandPool.AcquireCommandBuffer.spin at hs
      simp [hN] at hs
    | cons s rest =>
      unfold CommandPool.AcquireCommandBuffer.spin at hs
      simp only [hN, ne_eq, not_true_eq_false, if_false] at hs
      unfold CommandPool.AcquireCommandBuffer
      simp only [hN, if_true, hn2, if_false, bind, Except.bind, hs, hspin2]
  · have hp : p2 = p := by
      unfold CommandPool.AcquireCommandBuffer.spin at hs
      rw [if_pos hN] at hs
      exact (Except.ok.inj hs).symm
    subst hp
    unfold CommandPool.AcquireCommandBuffer
    simp only [hN, if_false, bind, Except.bind, hs, hspin2]

theorem CommandPool.AcquireCommandBuffer_of_spin_error {polls : List (Nat → Bool)}
    {p : CommandPool} {e : Fault}
    (hs : CommandPool.AcquireCommandBuffer.spin polls p = .error e) :
    p.AcquireCommandBuffer polls = .error e := by
  by_cases hN : p.NumberOfAvailableCommandBuffers = 0
  · cases polls with
    | nil =>
      unfold CommandPool.AcquireCommandBuffer.spin at hs
      simp only [hN, ne_eq, not_true_eq_false, if_false] at hs
      unfold CommandPool.AcquireCommandBuffer
      simp only [hN, if_true, bind, Except.bind]
      rw [← Except.error.inj hs]
    | cons s rest =>
      unfold CommandPool.AcquireCommandBuffer.spin at hs
      simp only [hN, ne_eq, not_true_eq_false, if_false] at hs
      unfold CommandPool.AcquireCommandBuffer
      simp only [hN, if_true, bind, Except.bind, hs]
  · unfold CommandPool.AcquireCommandBuffer.spin at hs
    rw [if_pos hN] at hs
    exact Except.noConfusion hs

theorem exists_first_of_exists {α : Type} (Q : α → Prop) (l : List α)
    (h : ∃ x, x ∈ l ∧ Q x) :
    ∃ pre x post, l = pre ++ x :: post ∧ Q x ∧ ∀ y, y ∈ pre → ¬ Q y := by
  induction l with
  | nil =>
    obtain ⟨x, hx, _⟩ := h
    exact absurd hx (List.not_mem_nil x)
  | cons a rest ih =>
    by_cases ha : Q a
    · exact ⟨[], a, rest, rfl, ha, fun y hy => absurd hy (List.not_mem_nil y)⟩
    · obtain ⟨x, hx, hqx⟩ := h
      rcases List.mem_cons.mp hx with rfl | hx
      · exact absurd hqx ha
      · obtain ⟨pre, y, post, hl, hy, hpre⟩ := ih ⟨x, hx, hqx⟩
        refine ⟨a :: pre, y, post, by rw [hl]; rfl, hy, ?_⟩
        intro z hz
        rcases List.mem_cons.mp hz with rfl | hz
        · exact ha
        · exact hpre z hz

/-- On a pool with no free slot, whose slots are all pending, an acquire whose first round that
sees a signalled fence is `s` returns, and hands out the first slot whose fence `s` reports
signalled. -/
theorem CommandPool.AcquireCommandBuffer_first_signalled (post : List (Nat → Bool))
    {pre : List (Nat → Bool)} {s : Nat → Bool} {p : CommandPool} (hN : p.NumberOfAvailableCommandBuffers = 0)
    (hlen : p.Buffers.length < 2 ^ 32)
    (hfull : ∀ b, b ∈ p.Buffers → b.VulkanCommandBuffer ≠ VK_NULL_HANDLE ∧
      b.isEncoding = false ∧ b.VulkanCommandBufferAllocated ≠ VK_NULL_HANDLE)
    (hq : ∀ t, t ∈ pre → ∀ b, b ∈ p.Buffers → t b.Fence = false)
    (hs : ∃ b, b ∈ p.Buffers ∧ s b.Fence = true) :
    ∃ p3 i b, p.AcquireCommandBuffer (pre ++ s :: post) = .ok (p3, i) ∧
      p.Buffers[i]? = some b ∧ s b.Fence = true ∧
      (∀ j bj, j < i → p.Buffers[j]? = some bj → s bj.Fence = false) := by
  have hres : ∀ (t : Nat → Bool) b, b ∈ p.Buffers →
      CommandPool.TryResetCommandBuffers.resets t b = t b.Fence := by
    intro t b hb
    obtain ⟨h1, h2, _⟩ := hfull b hb
    simp [CommandPool.TryResetCommandBuffers.resets, h1, h2]
  have hq1 : ∀ t, t ∈ pre → ∀ b, b ∈ p.Buffers →
      CommandPool.TryResetCommandBuffers.resets t b = false := by
    intro t ht b hb
    rw [hres t b hb]
    exact hq t ht b hb
  have hs1 : ∃ b, b ∈ p.Buffers ∧ CommandPool.TryResetCommandBuffers.resets s b = true := by
    obtain ⟨b, hb, hsb⟩ := hs
    exact ⟨b, hb, by rw [hres s b hb]; exact hsb⟩
  have hspin := CommandPool.AcquireCommandBuffer.spin_first post hN hlen hq1 hs1
  have hbufs : (p.TryResetCommandBuffers s).Buffers =
      p.Buffers.map (CommandPool.TryResetCommandBuffers.slot s) := by
    unfold CommandPool.TryResetCommandBuffers
    exact CommandPool.TryResetCommandBuffers.loop_fst s p.Buffers _
  have hfree : ∃ b, b ∈ (p.TryResetCommandBuffers s).Buffers ∧
      b.VulkanCommandBuffer = VK_NULL_HANDLE := by
    obtain ⟨b, hb, hr⟩ := hs1
    refine ⟨CommandPool.TryResetCommandBuffers.slot s b, ?_, ?_⟩
    · rw [hbufs]
      exact List.mem_map_of_mem _ hb
    · rw [CommandPool.TryResetCommandBuffers.slot_of_resets hr]
  obtain ⟨i, b2, hsearch⟩ := CommandPool.AcquireCommandBuffer.search_of_mem hfree
  obtain ⟨hi, hnull, hbefore⟩ := CommandPool.AcquireCommandBuffer.search_ok hsearch
  rw [hbufs, List.getElem?_map] at hi
  cases hb0 : p.Buffers[i]? with
  | none => simp [hb0] at hi
  | some b0 =>
    simp only [hb0, Option.map_some', Option.some.injEq] at hi
    have hmem : b0 ∈ p.Buffers := List.getElem?_mem hb0
    have hsig : s b0.Fence = true := by
      rw [← hi] at hnull
      rcases CommandPool.TryResetCommandBuffers.slot_reset hnull with h0 | h0
      · exact absurd h0 (hfull b0 hmem).1
      · rw [hres s b0 hmem] at h0
        exact h0
    have hal : b2.VulkanCommandBufferAllocated ≠ VK_NULL_HANDLE := by
      rw [← hi, CommandPool.TryResetCommandBuffers.slot_allocated]
      exact (hfull b0 hmem).2.2
    obtain ⟨p3, hacq⟩ := CommandPool.AcquireCommandBuffer_of_available []
      (CommandPool.TryResetCommandBuffers_available hN hlen hs1) hsearch hal
    refine ⟨p3, i, b0, ?_, hb0, hsig, ?_⟩
    · rw [CommandPool.AcquireCommandBuffer_of_spin hspin]
      exact hacq
    · intro j bj hj hbj
      have hmj : bj ∈ p.Buffers := List.getElem?_mem hbj
      have hj2 : (p.TryResetCommandBuffers s).Buffers[j]? =
          some (CommandPool.TryResetCommandBuffers.slot s bj) := by
        rw [hbufs, List.getElem?_map, hbj]
        rfl
      have hne := hbefore j _ hj hj2
      cases hsj : s bj.Fence with
      | false => rfl
      | true =>
        have hr : CommandPool.TryResetCommandBuffers.resets s bj = true := by
          rw [hres s bj hmj]; exact hsj
        rw [CommandPool.TryResetCommandBuffers.slot_of_resets hr] at hne
        exact absurd rfl hne

/-! ## Sequences of calls on a command pool -/

theorem CommandPool.Submit.nextCounter_iterate (c n : Nat) (h0 : 0 < c) (hc : c < 2 ^ 32) :
    CommandPool.Submit.nextCounter^[n] c = (c - 1 + n) % (2 ^ 32 - 1) + 1 := by
  induction n with
  | zero =>
    simp only [Function.iterate_zero, id_eq, Nat.add_zero]
    omega
  | succ n ih =>
    rw [Function.iterate_succ_apply', ih, CommandPool.Submit.nextCounter_eq]
    split <;> omega

theorem CommandPool.Submit.nextCounter_iterate_ne (c r : Nat) (h0 : 0 < c) (hc : c < 2 ^ 32)
    (h1 : 1 ≤ r) (hr : r < 2 ^ 32 - 1) : CommandPool.Submit.nextCounter^[r] c ≠ c := by
  rw [CommandPool.Submit.nextCounter_iterate c r h0 hc]
  omega

theorem PoolOp.submits_cons (op : PoolOp) (ops : List PoolOp) :
    PoolOp.submits (op :: ops) = PoolOp.submits [op] + PoolOp.submits ops := by
  cases op <;> simp [PoolOp.submits]
  omega

theorem PoolOp.submits_append (ops1 ops2 : List PoolOp) :
    PoolOp.submits (ops1 ++ ops2) = PoolOp.submits ops1 + PoolOp.submits ops2 := by
  induction ops1 with
  | nil => simp [PoolOp.submits]
  | cons op rest ih =>
    rw [List.cons_append, PoolOp.submits_cons, ih, PoolOp.submits_cons op rest]
    omega

/-- A property of the pool, indexed by the number of `Submit` calls made so far, that depends on
the slots, the submission counter and the counter of available command buffers only and is kept by
one round of `TryResetCommandBuffers`, by an acquire from a pool with an available command buffer
and by `Submit`, is kept by every call on the pool. -/
theorem CommandPool.call_invariant {P : Nat → CommandPool → Prop}
    (hext : ∀ k (q q1 : CommandPool), q1.Buffers = q.Buffers →
      q1.SubmitCounter = q.SubmitCounter →
      q1.NumberOfAvailableCommandBuffers = q.NumberOfAvailableCommandBuffers → P k q → P k q1)
    (hreset : ∀ k s q, P k q → P k (q.TryResetCommandBuffers s))
    (hacq : ∀ k (q q3 : CommandPool) i, P k q → q.NumberOfAvailableCommandBuffers ≠ 0 →
      q.AcquireCommandBuffer [] = .ok (q3, i) → P k q3)
    (hsub : ∀ k (q q2 : CommandPool) i h, P k q → q.Submit i = .ok (q2, h) → P (k + 1) q2)
    {k : Nat} {q q1 : CommandPool} {op : PoolOp} (hp : P k q) (hc : q.call op = .ok q1) :
    P (k + PoolOp.submits [op]) q1 := by
  cases op with
  | acquireCommandBuffer polls =>
    simp only [PoolOp.submits, Nat.add_zero]
    unfold CommandPool.call at hc
    cases hacq1 : q.AcquireCommandBuffer polls with
    | error e => simp [hacq1, Except.map] at hc
    | ok r =>
      obtain ⟨q3, i⟩ := r
      simp only [hacq1, Except.map, Except.ok.injEq] at hc
      subst hc
      cases hspin : CommandPool.AcquireCommandBuffer.spin polls q with
      | error e =>
        rw [CommandPool.AcquireCommandBuffer_of_spin_error hspin] at hacq1
        exact Except.noConfusion hacq1
      | ok p2 =>
        obtain ⟨hp2, hn2⟩ := CommandPool.AcquireCommandBuffer.spin_ok (P := P k)
          (fun s p hP => hreset k s p hP) hspin hp
        rw [CommandPool.AcquireCommandBuffer_of_spin hspin] at hacq1
        exact hacq k p2 q3 i hp2 hn2 hacq1
  | submit data =>
    simp only [PoolOp.submits, Nat.zero_add]
    unfold CommandPool.call at hc
    cases hs : q.Submit data with
    | error e => simp [hs, Except.map] at hc
    | ok r =>
      obtain ⟨q2, h⟩ := r
      simp only [hs, Except.map, Except.ok.injEq] at hc
      subst hc
      exact hsub k q q2 data h hp hs
  | tryResetCommandBuffers signalled =>
    simp only [PoolOp.submits, Nat.add_zero]
    unfold CommandPool.call at hc
    rw [← Except.ok.inj hc]
    exact hreset k signalled q hp
  | wait fastCheckDefault poll later handle =>
    simp only [PoolOp.submits, Nat.add_zero]
    unfold CommandPool.call at hc
    rcases CommandPool.Wait_ok hc with rfl | ⟨s, rfl⟩
    · exact hp
    · exact hreset k s q hp
  | waitAll later =>
    simp only [PoolOp.submits, Nat.add_zero]
    unfold CommandPool.call at hc
    rw [← Except.ok.inj hc]
    unfold CommandPool.WaitAll
    simp only []
    split
    · exact hreset k _ q hp
    · exact hreset k _ q hp
  | waitSemaphore semaphore =>
    simp only [PoolOp.submits, Nat.add_zero]
    unfold CommandPool.call CommandPool.WaitSemaphore at hc
    by_cases hw : q.WaitOnSemaphore.semaphore = VK_NULL_HANDLE
    · simp only [CHECK, if_pos hw, bind, Except.bind, pure, Except.pure, Except.ok.injEq] at hc
      rw [← hc]
      exact hext k q _ rfl rfl rfl hp
    · simp [CHECK, if_neg hw, bind, Except.bind] at hc
  | signal semaphore signalValue =>
    simp only [PoolOp.submits, Nat.add_zero]
    unfold CommandPool.call CommandPool.Signal at hc
    by_cases hw : semaphore ≠ VK_NULL_HANDLE
    · simp only [CHECK, if_pos hw, bind, Except.bind, pure, Except.pure, Except.ok.injEq] at hc
      rw [← hc]
      exact hext k q _ rfl rfl rfl hp
    · simp [CHECK, if_neg hw, bind, Except.bind] at hc
  | acquireLastSubmitSemaphore =>
    simp only [PoolOp.submits, Nat.add_zero]
    unfold CommandPool.call at hc
    rw [← Except.ok.inj hc]
    exact hext k q _ rfl rfl rfl hp

theorem CommandPool.calls_invariant {P : Nat → CommandPool → Prop}
    (hext : ∀ k (q q1 : CommandPool), q1.Buffers = q.Buffers →
      q1.SubmitCounter = q.SubmitCounter →
      q1.NumberOfAvailableCommandBuffers = q.NumberOfAvailableCommandBuffers → P k q → P k q1)
    (hreset : ∀ k s q, P k q → P k (q.TryResetCommandBuffers s))
    (hacq : ∀ k (q q3 : CommandPool) i, P k q → q.NumberOfAvailableCommandBuffers ≠ 0 →
      q.AcquireCommandBuffer [] = .ok (q3, i) → P k q3)
    (hsub : ∀ k (q q2 : CommandPool) i h, P k q → q.Submit i = .ok (q2, h) → P (k + 1) q2)
    {ops : List PoolOp} {k : Nat} {q q1 : CommandPool} (hp : P k q)
    (hc : q.calls ops = .ok q1) : P (k + PoolOp.submits ops) q1 := by
  induction ops generalizing k q with
  | nil =>
    unfold CommandPool.calls at hc
    rw [← Except.ok.inj hc]
    exact hp
  | cons op rest ih =>
    unfold CommandPool.calls at hc
    cases hstep : q.call op with
    | error e => simp [hstep] at hc
    | ok q2 =>
      simp only [hstep] at hc
      have h2 := CommandPool.call_invariant hext hreset hacq hsub hp hstep
      have h3 := ih h2 hc
      rw [PoolOp.submits_cons, ← Nat.add_assoc]
      exact h3

/-! ## A slot that has been recycled -/

theorem lt_length_of_getElem? {α : Type} {l : List α} {i : Nat} {a : α}
    (h : l[i]? = some a) : i < l.length := by
  by_contra hge
  rw [List.getElem?_eq_none (by omega)] at h
  exact Option.noConfusion h

theorem CommandPool.TryResetCommandBuffers.slot_Handle (s : Nat → Bool)
    (b : CommandBufferData) :
    (CommandPool.TryResetCommandBuffers.slot s b).Handle = b.Handle := by
  unfold CommandPool.TryResetCommandBuffers.slot
  split
  · rfl
  · split <;> rfl

theorem CommandPool.TryResetCommandBuffers.slot_active (s : Nat → Bool)
    (b : CommandBufferData) :
    (CommandPool.TryResetCommandBuffers.slot s b).VulkanCommandBuffer = VK_NULL_HANDLE ∨
      CommandPool.TryResetCommandBuffers.slot s b = b := by
  unfold CommandPool.TryResetCommandBuffers.slot
  split
  · exact Or.inr rfl
  · split
    · exact Or.inl rfl
    · exact Or.inr rfl

theorem CommandPool.TryResetCommandBuffers_getElem? {s : Nat → Bool} {p : CommandPool}
    {j : Nat} {b : CommandBufferData} (h : (p.TryResetCommandBuffers s).Buffers[j]? = some b) :
    ∃ b0, p.Buffers[j]? = some b0 ∧ b = CommandPool.TryResetCommandBuffers.slot s b0 := by
  rw [CommandPool.TryResetCommandBuffers_Buffers, List.getElem?_map] at h
  cases h0 : p.Buffers[j]? with
  | none => simp [h0] at h
  | some b0 =>
    simp only [h0, Option.map_some', Option.some.injEq] at h
    exact ⟨b0, rfl, h.symm⟩

theorem CommandPool.TryResetCommandBuffers_SubmitCounter (s : Nat → Bool) (p : CommandPool) :
    (p.TryResetCommandBuffers s).SubmitCounter = p.SubmitCounter := rfl

theorem CommandPool.create.slots_length (cmd sem fence : Nat → Nat) (n : Nat) :
    (CommandPool.create.slots cmd sem fence n).length = n := by
  induction n with
  | zero => rfl
  | succ n ih =>
    unfold CommandPool.create.slots
    rw [List.length_append, ih]
    rfl

theorem CommandPool.create.slots_BufferIndex (cmd sem fence : Nat → Nat) (n j : Nat)
    (b : CommandBufferData) (h : (CommandPool.create.slots cmd sem fence n)[j]? = some b) :
    b.Handle.BufferIndex = j := by
  induction n with
  | zero => simp [CommandPool.create.slots] at h
  | succ n ih =>
    unfold CommandPool.create.slots at h
    by_cases hj : j < n
    · rw [List.getElem?_append_left (by rw [CommandPool.create.slots_length]; exact hj)] at h
      exact ih h
    · have hlt := lt_length_of_getElem? h
      rw [List.length_append, CommandPool.create.slots_length] at hlt
      simp only [List.length_singleton] at hlt
      have hjn : j = n := by omega
      subst hjn
      rw [List.getElem?_append_right (by rw [CommandPool.create.slots_length]),
        CommandPool.create.slots_length] at h
      simp only [Nat.sub_self, List.getElem?_cons_zero, Option.some.injEq] at h
      rw [← h]

theorem CommandPool.create_Stamped (maxCommandBuffers : Nat) (cmd sem fence : Nat → Nat) :
    (CommandPool.create maxCommandBuffers cmd sem fence).Stamped := by
  refine ⟨⟨by simp [CommandPool.create], by simp [CommandPool.create]⟩, ?_⟩
  intro j b h
  exact CommandPool.create.slots_BufferIndex cmd sem fence maxCommandBuffers j b h

theorem CommandPool.calls_Stamped {ops : List PoolOp} {q q1 : CommandPool} (hq : q.Stamped)
    (hc : q.calls ops = .ok q1) : q1.Stamped := by
  refine CommandPool.calls_invariant (P := fun _ q => q.Stamped) (k := 0) ?_ ?_ ?_ ?_ hq hc
  · intro k q q1 hb hcnt _ hP
    unfold CommandPool.Stamped at hP ⊢
    rw [hb, hcnt]
    exact hP
  · intro k s q hP
    refine ⟨hP.1, ?_⟩
    intro j b hb
    obtain ⟨b0, hb0, rfl⟩ := CommandPool.TryResetCommandBuffers_getElem? hb
    rw [CommandPool.TryResetCommandBuffers.slot_Handle]
    exact hP.2 j b0 hb0
  · intro k q q3 i hP hn ha
    obtain ⟨b, hsearch, _, hbufs, _, _, hcnt⟩ := CommandPool.AcquireCommandBuffer_available hn ha
    obtain ⟨hi, _, _⟩ := CommandPool.AcquireCommandBuffer.search_ok hsearch
    refine ⟨by rw [hcnt]; exact hP.1, ?_⟩
    intro j bj hbj
    rw [hbufs] at hbj
    by_cases hij : i = j
    · subst hij
      rw [List.getElem?_set_self (lt_length_of_getElem? hi)] at hbj
      rw [← Option.some.inj hbj]
      exact hP.2 i b hi
    · rw [List.getElem?_set_ne hij] at hbj
      exact hP.2 j bj hbj
  · intro k q q2 i h hP hs
    obtain ⟨d, hd, _, _, hbufs, _, _, _, _, _, hcnt, _, _⟩ := CommandPool.Submit_fields hs
    refine ⟨by
      rw [hcnt]
      exact ⟨Nat.pos_of_ne_zero (CommandPool.Submit.nextCounter_ne_zero _),
        CommandPool.Submit.nextCounter_lt _⟩, ?_⟩
    intro j bj hbj
    rw [hbufs] at hbj
    by_cases hij : i = j
    · subst hij
      rw [List.getElem?_set_self (lt_length_of_getElem? hd)] at hbj
      rw [← Option.some.inj hbj]
      exact hP.2 i d hd
    · rw [List.getElem?_set_ne hij] at hbj
      exact hP.2 j bj hbj

theorem CommandPool.calls_SubmitCounter {ops : List PoolOp} {q q1 : CommandPool}
    (hc : q.calls ops = .ok q1) :
    q1.SubmitCounter = CommandPool.Submit.nextCounter^[PoolOp.submits ops] q.SubmitCounter := by
  have h := CommandPool.calls_invariant
    (P := fun k q0 => q0.SubmitCounter = CommandPool.Submit.nextCounter^[k] q.SubmitCounter)
    (k := 0) ?_ ?_ ?_ ?_ rfl hc
  · rw [Nat.zero_add] at h
    exact h
  · intro k q0 q1 _ hcnt _ hP
    rw [hcnt]
    exact hP
  · intro k s q0 hP
    exact hP
  · intro k q0 q3 i hP hn ha
    obtain ⟨b, _, _, _, _, _, hcnt⟩ := CommandPool.AcquireCommandBuffer_available hn ha
    rw [hcnt]
    exact hP
  · intro k q0 q2 i h hP hs
    obtain ⟨d, _, _, _, _, _, _, _, _, _, hcnt, _, _⟩ := CommandPool.Submit_fields hs
    rw [hcnt, hP, Function.iterate_succ_apply']

theorem CommandPool.calls_Recycled {i c0 : Nat} {ops : List PoolOp} {k : Nat}
    {q q1 : CommandPool} (hq : q.Recycled i c0 k) (hc : q.calls ops = .ok q1) :
    q1.Recycled i c0 (k + PoolOp.submits ops) := by
  refine CommandPool.calls_invariant (P := fun k q => q.Recycled i c0 k) ?_ ?_ ?_ ?_ hq hc
  · intro k q q1 hb hcnt _ hP
    unfold CommandPool.Recycled at hP ⊢
    rw [hb, hcnt]
    exact hP
  · intro k s q hP
    obtain ⟨hk, hcnt, b, hb, hstate⟩ := hP
    refine ⟨hk, hcnt, CommandPool.TryResetCommandBuffers.slot s b, ?_, ?_⟩
    · rw [CommandPool.TryResetCommandBuffers_Buffers, List.getElem?_map, hb]
      rfl
    · rcases CommandPool.TryResetCommandBuffers.slot_active s b with h0 | h0
      · exact Or.inl h0
      · rw [h0]
        exact hstate
  · intro k q q3 j hP hn ha
    obtain ⟨hk, hcnt, b, hb, hstate⟩ := hP
    obtain ⟨bj, hsearch, _, hbufs, _, _, hcnt3⟩ :=
      CommandPool.AcquireCommandBuffer_available hn ha
    refine ⟨hk, by rw [hcnt3]; exact hcnt, ?_⟩
    by_cases hji : j = i
    · subst hji
      refine ⟨_, by rw [hbufs]; exact List.getElem?_set_self (lt_length_of_getElem? hb), ?_⟩
      exact Or.inr ⟨k, hk, Nat.le_refl k, hcnt⟩
    · exact ⟨b, by rw [hbufs, List.getElem?_set_ne hji]; exact hb, hstate⟩
  · intro k q q2 j h hP hs
    obtain ⟨hk, hcnt, b, hb, hstate⟩ := hP
    obtain ⟨d, hd, _, _, hbufs, _, _, _, _, _, hcnt2, _, _⟩ := CommandPool.Submit_fields hs
    refine ⟨by omega, by rw [hcnt2, hcnt, Function.iterate_succ_apply'], ?_⟩
    have hstate2 : b.VulkanCommandBuffer = VK_NULL_HANDLE ∨
        ∃ r, 1 ≤ r ∧ r ≤ k + 1 ∧ b.Handle.ID = CommandPool.Submit.nextCounter^[r] c0 := by
      rcases hstate with h0 | ⟨r, hr1, hrk, hid⟩
      · exact Or.inl h0
      · exact Or.inr ⟨r, hr1, by omega, hid⟩
    by_cases hji : j = i
    · subst hji
      rw [hb] at hd
      obtain rfl := Option.some.inj hd
      exact ⟨{ b with isEncoding := false },
        by rw [hbufs]; exact List.getElem?_set_self (lt_length_of_getElem? hb), hstate2⟩
    · exact ⟨b, by rw [hbufs, List.getElem?_set_ne hji]; exact hb, hstate2⟩

theorem CommandPool.Wait_of_readyFast (fastCheckDefault : Bool) (poll later : Nat → Bool)
    (p : CommandPool) (h : SubmitHandle) (hr : p.readyFast h = true) :
    p.Wait fastCheckDefault poll later h = .ok p := by
  unfold CommandPool.Wait
  by_cases he : h.Empty = true
  · rw [if_pos he]
  · rw [if_neg he]
    simp only [bind, Except.bind, CommandPool.IsReady_of_readyFast poll p h fastCheckDefault hr,
      if_true, pure, Except.pure]

/-- The stamp of an acquire: the handle that the first `Submit` of the acquired slot returns
carries the slot's index and the counter value at the acquire. -/
theorem CommandPool.AcquireCommandBuffer_stamp {polls : List (Nat → Bool)}
    {p p1 : CommandPool} {i : Nat} (hp : p.Stamped)
    (ha : p.AcquireCommandBuffer polls = .ok (p1, i)) :
    p1.SubmitCounter = p.SubmitCounter ∧
    ∃ b, p1.Buffers[i]? = some b ∧ b.Handle = { BufferIndex := i, ID := p.SubmitCounter } := by
  obtain ⟨p2, b, ⟨hcnt, hidx⟩, _, hsearch, _, rfl⟩ := CommandPool.AcquireCommandBuffer_ok
    (P := fun q => q.SubmitCounter = p.SubmitCounter ∧
      ∀ (j : Nat) (b : CommandBufferData), q.Buffers[j]? = some b → b.Handle.BufferIndex = j)
    (by
      intro s q hq
      refine ⟨hq.1, ?_⟩
      intro j b hb
      obtain ⟨b0, hb0, rfl⟩ := CommandPool.TryResetCommandBuffers_getElem? hb
      rw [CommandPool.TryResetCommandBuffers.slot_Handle]
      exact hq.2 j b0 hb0) ha ⟨rfl, hp.2⟩
  obtain ⟨hi, _, _⟩ := CommandPool.AcquireCommandBuffer.search_ok hsearch
  refine ⟨hcnt, _, List.getElem?_set_self (lt_length_of_getElem? hi), ?_⟩
  simp only [hcnt, hidx i b hi]

/-! ## What a round of resets does -/

theorem CommandPool.TryResetCommandBuffers.slot_of_not_resets {s : Nat → Bool}
    {b : CommandBufferData} (h : CommandPool.TryResetCommandBuffers.resets s b = false) :
    CommandPool.TryResetCommandBuffers.slot s b = b := by
  unfold CommandPool.TryResetCommandBuffers.resets at h
  unfold CommandPool.TryResetCommandBuffers.slot
  by_cases h1 : b.VulkanCommandBuffer = VK_NULL_HANDLE ∨ b.isEncoding = true
  · rw [if_pos h1]
  · rw [if_neg h1]
    have h2 : ¬ (s b.Fence = true) := by simpa [h1] using h
    rw [if_neg h2]

theorem CommandPool.TryResetCommandBuffers.resets_iff (s : Nat → Bool) (b : CommandBufferData) :
    CommandPool.TryResetCommandBuffers.resets s b = true ↔
      b.isEncoding = false ∧ b.VulkanCommandBuffer ≠ VK_NULL_HANDLE ∧ s b.Fence = true := by
  unfold CommandPool.TryResetCommandBuffers.resets
  cases he : b.isEncoding <;> simp [he]

theorem CommandPool.TryResetCommandBuffers.resets_slot (s s2 : Nat → Bool)
    (b : CommandBufferData) (hs : s2 b.Fence = true → s b.Fence = true) :
    CommandPool.TryResetCommandBuffers.resets s2 (CommandPool.TryResetCommandBuffers.slot s b) =
      false := by
  cases hr : CommandPool.TryResetCommandBuffers.resets s b with
  | true =>
    rw [CommandPool.TryResetCommandBuffers.slot_of_resets hr]
    simp [CommandPool.TryResetCommandBuffers.resets]
  | false =>
    rw [CommandPool.TryResetCommandBuffers.slot_of_not_resets hr]
    cases hr2 : CommandPool.TryResetCommandBuffers.resets s2 b with
    | false => rfl
    | true =>
      rw [CommandPool.TryResetCommandBuffers.resets_iff] at hr2
      have : CommandPool.TryResetCommandBuffers.resets s b = true :=
        (CommandPool.TryResetCommandBuffers.resets_iff s b).mpr ⟨hr2.1, hr2.2.1, hs hr2.2.2⟩
      rw [hr] at this
      exact Bool.noConfusion this

theorem CommandPool.TryResetCommandBuffers_twice (s s2 : Nat → Bool) (p : CommandPool)
    (hs : ∀ b, b ∈ p.Buffers → s2 b.Fence = true → s b.Fence = true) :
    (p.TryResetCommandBuffers s).TryResetCommandBuffers s2 = p.TryResetCommandBuffers s := by
  apply CommandPool.TryResetCommandBuffers_quiet
  intro b hb
  rw [CommandPool.TryResetCommandBuffers_Buffers, List.mem_map] at hb
  obtain ⟨b0, hb0, rfl⟩ := hb
  exact CommandPool.TryResetCommandBuffers.resets_slot s s2 b0 (hs b0 hb0)

theorem CommandPool.TryResetCommandBuffers.loop_congr (s s2 : Nat → Bool)
    (bs : List CommandBufferData) (n : Nat) (h : ∀ b, b ∈ bs → s2 b.Fence = s b.Fence) :
    CommandPool.TryResetCommandBuffers.loop s2 bs n =
      CommandPool.TryResetCommandBuffers.loop s bs n := by
  induction bs generalizing n with
  | nil => rfl
  | cons b rest ih =>
    have hb := h b (List.mem_cons_self _ _)
    have hrest : ∀ m, CommandPool.TryResetCommandBuffers.loop s2 rest m =
        CommandPool.TryResetCommandBuffers.loop s rest m :=
      fun m => ih m (fun b1 hb1 => h b1 (List.mem_cons_of_mem _ hb1))
    unfold CommandPool.TryResetCommandBuffers.loop
    simp only [hb, hrest]

theorem CommandPool.TryResetCommandBuffers_counter (s : Nat → Bool) (p : CommandPool)
    (hn : p.NumberOfAvailableCommandBuffers +
      p.Buffers.countP (CommandPool.TryResetCommandBuffers.resets s) < 2 ^ 32) :
    (p.TryResetCommandBuffers s).NumberOfAvailableCommandBuffers =
      p.NumberOfAvailableCommandBuffers +
        p.Buffers.countP (CommandPool.TryResetCommandBuffers.resets s) := by
  unfold CommandPool.TryResetCommandBuffers
  simp only []
  rw [CommandPool.TryResetCommandBuffers.loop_snd s p.Buffers _ (by omega)]
  exact Nat.mod_eq_of_lt hn

/-! ## The counter of available command buffers -/

theorem CommandPool.create.slots_free (cmd sem fence : Nat → Nat) (n : Nat) :
    ∀ b, b ∈ CommandPool.create.slots cmd sem fence n →
      b.VulkanCommandBuffer = VK_NULL_HANDLE ∧
      ∃ i, i < n ∧ b.VulkanCommandBufferAllocated = cmd i := by
  induction n with
  | zero => simp [CommandPool.create.slots]
  | succ n ih =>
    intro b hb
    simp only [CommandPool.create.slots, List.mem_append, List.mem_singleton] at hb
    rcases hb with hb | rfl
    · obtain ⟨h0, i, hi, hc⟩ := ih b hb
      exact ⟨h0, i, by omega, hc⟩
    · exact ⟨rfl, n, by omega, rfl⟩

theorem CommandPool.create_Counted (maxCommandBuffers : Nat) (cmd sem fence : Nat → Nat)
    (hmax : maxCommandBuffers < 2 ^ 32)
    (hcmd : ∀ i, i < maxCommandBuffers → cmd i ≠ VK_NULL_HANDLE) :
    (CommandPool.create maxCommandBuffers cmd sem fence).Counted := by
  have hfree := CommandPool.create.slots_free cmd sem fence maxCommandBuffers
  have hlen := CommandPool.create.slots_length cmd sem fence maxCommandBuffers
  refine ⟨by simp only [CommandPool.create, hlen]; exact hmax, ?_, ?_⟩
  · simp only [CommandPool.create]
    rw [List.countP_eq_length.mpr (fun b hb => by simpa using (hfree b hb).1), hlen]
    exact Nat.mod_eq_of_lt hmax
  · intro b hb
    simp only [CommandPool.create] at hb
    obtain ⟨_, i, hi, hc⟩ := hfree b hb
    refine ⟨?_, by rw [hc]; exact hcmd i hi⟩
    intro he
    rw [CommandPool.create.slots_isEncoding cmd sem fence maxCommandBuffers b hb] at he
    exact Bool.noConfusion he

theorem CommandPool.TryResetCommandBuffers.countP_free (s : Nat → Bool)
    (bs : List CommandBufferData) :
    (bs.map (CommandPool.TryResetCommandBuffers.slot s)).countP
        (fun b => b.VulkanCommandBuffer = VK_NULL_HANDLE) =
      bs.countP (fun b => b.VulkanCommandBuffer = VK_NULL_HANDLE) +
        bs.countP (CommandPool.TryResetCommandBuffers.resets s) := by
  induction bs with
  | nil => rfl
  | cons b rest ih =>
    rw [List.map_cons, List.countP_cons, List.countP_cons, List.countP_cons, ih]
    cases hr : CommandPool.TryResetCommandBuffers.resets s b with
    | true =>
      have hne := ((CommandPool.TryResetCommandBuffers.resets_iff s b).mp hr).2.1
      rw [CommandPool.TryResetCommandBuffers.slot_of_resets hr]
      simp only [decide_True, if_true, hne, decide_False, Bool.false_eq_true, if_false]
      omega
    | false =>
      rw [CommandPool.TryResetCommandBuffers.slot_of_not_resets hr]
      simp only [Bool.false_eq_true, if_false]
      omega

theorem CommandPool.TryResetCommandBuffers_Counted (s : Nat → Bool) {q : CommandPool}
    (hq : q.Counted) : (q.TryResetCommandBuffers s).Counted := by
  obtain ⟨hlen, hn, hslots⟩ := hq
  have hb := CommandPool.TryResetCommandBuffers_Buffers s q
  have hfree := CommandPool.TryResetCommandBuffers.countP_free s q.Buffers
  have hle : (q.Buffers.map (CommandPool.TryResetCommandBuffers.slot s)).countP
      (fun b => b.VulkanCommandBuffer = VK_NULL_HANDLE) ≤ q.Buffers.length := by
    have := List.countP_le_length (fun b : CommandBufferData =>
      decide (b.VulkanCommandBuffer = VK_NULL_HANDLE))
      (l := q.Buffers.map (CommandPool.TryResetCommandBuffers.slot s))
    rw [List.length_map] at this
    exact this
  refine ⟨by rw [hb, List.length_map]; exact hlen, ?_, ?_⟩
  · rw [hb, hfree, CommandPool.TryResetCommandBuffers_counter s q (by rw [hn]; omega), hn]
  · intro b hmem
    rw [hb, List.mem_map] at hmem
    obtain ⟨b0, hb0, rfl⟩ := hmem
    obtain ⟨h1, h2⟩ := hslots b0 hb0
    refine ⟨?_, by rw [CommandPool.TryResetCommandBuffers.slot_allocated]; exact h2⟩
    intro he
    rw [CommandPool.TryResetCommandBuffers.slot_isEncoding] at he
    have hr : CommandPool.TryResetCommandBuffers.resets s b0 = false := by
      simp [CommandPool.TryResetCommandBuffers.resets, he]
    rw [CommandPool.TryResetCommandBuffers.slot_of_not_resets hr]
    exact h1 he

theorem CommandPool.AcquireCommandBuffer_Counted {q q3 : CommandPool} {i : Nat}
    (hq : q.Counted) (hn : q.NumberOfAvailableCommandBuffers ≠ 0)
    (ha : q.AcquireCommandBuffer [] = .ok (q3, i)) :
    q3.Counted ∧ q3.NumberOfAvailableCommandBuffers + 1 = q.NumberOfAvailableCommandBuffers := by
  obtain ⟨hlen, hcnt, hslots⟩ := hq
  obtain ⟨b, hsearch, hal, hbufs, hn3, _, _⟩ := CommandPool.AcquireCommandBuffer_available hn ha
  obtain ⟨hi, hnull, _⟩ := CommandPool.AcquireCommandBuffer.search_ok hsearch
  have hlt := lt_length_of_getElem? hi
  have hget : q.Buffers[i] = b := by
    have := List.getElem?_eq_getElem hlt
    rw [hi] at this
    exact (Option.some.inj this).symm
  have hle : q.Buffers.countP (fun b => b.VulkanCommandBuffer = VK_NULL_HANDLE) ≤
      q.Buffers.length := List.countP_le_length _
  have hN3 : q3.NumberOfAvailableCommandBuffers + 1 = q.NumberOfAvailableCommandBuffers := by
    rw [hn3]
    unfold u32
    omega
  refine ⟨⟨by rw [hbufs, List.length_set]; exact hlen, ?_, ?_⟩, hN3⟩
  · rw [hbufs, List.countP_set _ _ _ _ hlt, hget]
    simp only [hnull, decide_True, if_true, hal, decide_False, Bool.false_eq_true, if_false,
      Nat.add_zero]
    omega
  · intro b1 hmem
    rw [hbufs] at hmem
    rcases List.mem_or_eq_of_mem_set hmem with hmem | rfl
    · exact hslots b1 hmem
    · exact ⟨fun _ => hal, (hslots b (List.getElem?_mem hi)).2⟩

theorem CommandPool.Submit_Counted {q q2 : CommandPool} {i : Nat} {h : SubmitHandle}
    (hq : q.Counted) (hs : q.Submit i = .ok (q2, h)) : q2.Counted := by
  obtain ⟨hlen, hcnt, hslots⟩ := hq
  obtain ⟨d, hd, _, _, hbufs, _, _, _, _, _, _, hn2, _⟩ := CommandPool.Submit_fields hs
  have hlt := lt_length_of_getElem? hd
  have hget : q.Buffers[i] = d := by
    have := List.getElem?_eq_getElem hlt
    rw [hd] at this
    exact (Option.some.inj this).symm
  refine ⟨by rw [hbufs, List.length_set]; exact hlen, ?_, ?_⟩
  · rw [hn2, hcnt, hbufs, List.countP_set _ _ _ _ hlt, hget]
    by_cases h0 : d.VulkanCommandBuffer = VK_NULL_HANDLE
    · have hpos : 0 < q.Buffers.countP (fun b => b.VulkanCommandBuffer = VK_NULL_HANDLE) :=
        List.countP_pos_iff.mpr ⟨d, List.getElem?_mem hd, by simpa using h0⟩
      simp only [h0, decide_True, if_true]
      omega
    · simp only [h0, decide_False, Bool.false_eq_true, if_false, Nat.add_zero, Nat.sub_zero]
  · intro b1 hmem
    rw [hbufs] at hmem
    rcases List.mem_or_eq_of_mem_set hmem with hmem | rfl
    · exact hslots b1 hmem
    · exact ⟨fun he => Bool.noConfusion he, (hslots d (List.getElem?_mem hd)).2⟩

theorem CommandPool.calls_Counted {ops : List PoolOp} {q q1 : CommandPool} (hq : q.Counted)
    (hc : q.calls ops = .ok q1) : q1.Counted := by
  refine CommandPool.calls_invariant (P := fun _ q => q.Counted) (k := 0) ?_ ?_ ?_ ?_ hq hc
  · intro k q q1 hb _ hn hP
    unfold CommandPool.Counted at hP ⊢
    rw [hb, hn]
    exact hP
  · intro k s q hP
    exact CommandPool.TryResetCommandBuffers_Counted s hP
  · intro k q q3 i hP hn ha
    exact (CommandPool.AcquireCommandBuffer_Counted hP hn ha).1
  · intro k q q2 i h hP hs
    exact CommandPool.Submit_Counted hP hs

theorem CommandPool.AcquireCommandBuffer.spin_error {polls : List (Nat → Bool)}
    {p : CommandPool} {e : Fault}
    (hs : CommandPool.AcquireCommandBuffer.spin polls p = .error e) : e = .spinning := by
  induction polls generalizing p with
  | nil =>
    unfold CommandPool.AcquireCommandBuffer.spin at hs
    split at hs
    · exact Except.noConfusion hs
    · exact (Except.error.inj hs).symm
  | cons s rest ih =>
    unfold CommandPool.AcquireCommandBuffer.spin at hs
    split at hs
    · exact Except.noConfusion hs
    · exact ih hs

/-- In a counted pool with an available command buffer the search of `AcquireCommandBuffer` finds
a free slot and the acquire returns it. -/
theorem CommandPool.Counted.acquire {q : CommandPool} (hq : q.Counted)
    (hn : q.NumberOfAvailableCommandBuffers ≠ 0) (polls : List (Nat → Bool)) :
    ∃ q3 i b, CommandPool.AcquireCommandBuffer.search q.Buffers = some (i, b) ∧
      q.AcquireCommandBuffer polls = .ok (q3, i) ∧
      q.Buffers[i]? = some b ∧ b.VulkanCommandBuffer = VK_NULL_HANDLE := by
  have hpos : 0 < q.Buffers.countP (fun b => b.VulkanCommandBuffer = VK_NULL_HANDLE) := by
    rw [← hq.2.1]
    exact Nat.pos_of_ne_zero hn
  obtain ⟨b0, hb0, hnull0⟩ := List.countP_pos_iff.mp hpos
  obtain ⟨i, b, hsearch⟩ := CommandPool.AcquireCommandBuffer.search_of_mem
    ⟨b0, hb0, by simpa using hnull0⟩
  obtain ⟨hi, hnull, _⟩ := CommandPool.AcquireCommandBuffer.search_ok hsearch
  obtain ⟨q3, ha⟩ := CommandPool.AcquireCommandBuffer_of_available polls hn hsearch
    (hq.2.2 b (List.getElem?_mem hi)).2
  exact ⟨q3, i, b, hsearch, ha, hi, hnull⟩

/-- In a counted pool `AcquireCommandBuffer` returns or is still spinning: none of its checks
fails. -/
theorem CommandPool.Counted.acquire_result {q : CommandPool} (hq : q.Counted)
    (polls : List (Nat → Bool)) :
    (∃ q3 i, q.AcquireCommandBuffer polls = .ok (q3, i)) ∨
      q.AcquireCommandBuffer polls = .error .spinning := by
  cases hspin : CommandPool.AcquireCommandBuffer.spin polls q with
  | error e =>
    right
    rw [CommandPool.AcquireCommandBuffer_of_spin_error hspin,
      CommandPool.AcquireCommandBuffer.spin_error hspin]
  | ok p2 =>
    left
    obtain ⟨hp2, hn2⟩ := CommandPool.AcquireCommandBuffer.spin_ok (P := fun q => q.Counted)
      (fun s p hP => CommandPool.TryResetCommandBuffers_Counted s hP) hspin hq
    obtain ⟨q3, i, _, _, ha, _, _⟩ := CommandPool.Counted.acquire hp2 hn2 []
    exact ⟨q3, i, by rw [CommandPool.AcquireCommandBuffer_of_spin hspin]; exact ha⟩

/-- An acquire on a counted pool leaves a counted pool in which the slot handed out is not
counted as available: the decrement of the counter did not wrap. -/
theorem CommandPool.Counted.acquire_counter {q q3 : CommandPool} {i : Nat}
    {polls : List (Nat → Bool)} (hq : q.Counted)
    (ha : q.AcquireCommandBuffer polls = .ok (q3, i)) :
    q3.Counted ∧ q3.NumberOfAvailableCommandBuffers + 1 ≤ q3.Buffers.length := by
  cases hspin : CommandPool.AcquireCommandBuffer.spin polls q with
  | error e =>
    rw [CommandPool.AcquireCommandBuffer_of_spin_error hspin] at ha
    exact Except.noConfusion ha
  | ok p2 =>
    obtain ⟨hp2, hn2⟩ := CommandPool.AcquireCommandBuffer.spin_ok (P := fun q => q.Counted)
      (fun s p hP => CommandPool.TryResetCommandBuffers_Counted s hP) hspin hq
    rw [CommandPool.AcquireCommandBuffer_of_spin hspin] at ha
    obtain ⟨h3, hdec⟩ := CommandPool.AcquireCommandBuffer_Counted hp2 hn2 ha
    obtain ⟨b, _, _, hbufs, _, _, _⟩ := CommandPool.AcquireCommandBuffer_available hn2 ha
    refine ⟨h3, ?_⟩
    have hle : p2.Buffers.countP (fun b => b.VulkanCommandBuffer = VK_NULL_HANDLE) ≤
        p2.Buffers.length := List.countP_le_length _
    rw [hdec, hbufs, List.length_set, hp2.2.1]
    exact hle

/-! ## The timeline values of the presenting submits -/

theorem Op.presents_cons (op : Op) (ops : List Op) :
    Op.presents (op :: ops) = Op.presents [op] + Op.presents ops := by
  cases op <;> simp [Op.presents]

theorem timelineSignals_append_one (queue : List SubmitInfo) (info : SubmitInfo) :
    timelineSignals (queue ++ [info]) =
      timelineSignals queue ++ (match info.signals[1]? with
        | some signal => [signal.value]
        | none => []) := by
  unfold timelineSignals
  rw [List.filterMap_append]
  cases h : info.signals[1]? <;> simp [List.filterMap, h]

theorem CommandPool.AcquireCommandBuffer_Queue {polls : List (Nat → Bool)}
    {p p3 : CommandPool} {i : Nat} (ha : p.AcquireCommandBuffer polls = .ok (p3, i)) :
    p3.Queue = p.Queue := by
  obtain ⟨p2, b, hq, _, _, _, rfl⟩ := CommandPool.AcquireCommandBuffer_ok
    (P := fun q => q.Queue = p.Queue) (fun _ _ hq => hq) ha rfl
  exact hq

theorem CommandPool.Wait_Queue {dflt : Bool} {poll later : Nat → Bool} {handle : SubmitHandle}
    {p p1 : CommandPool} (hw : p.Wait dflt poll later handle = .ok p1) : p1.Queue = p.Queue := by
  rcases CommandPool.Wait_ok hw with rfl | ⟨s, rfl⟩ <;> rfl

theorem VulkanContext.create_Paced (d : ContextCreation) :
    (VulkanContext.create d).Paced (min (u32 d.swapChainImageCount) d.MAX_IMAGES) 0 :=
  ⟨VulkanContext.create_Inv d, rfl, (VulkanSwapChain.create d).1, rfl, rfl, rfl, rfl, rfl⟩

theorem VulkanContext.step_Paced {n k : Nat} {c c1 : VulkanContext} {op : Op}
    (hp : c.Paced n k) (hs : c.step op = .ok c1) : c1.Paced n (k + Op.presents [op]) := by
  have hinv1 := VulkanContext.step_Inv hp.1 hs
  obtain ⟨hinv, hinit, sc, hsc, hn, hframe, hpres, hsig⟩ := hp
  refine ⟨hinv1, ?_⟩
  cases op with
  | acquireCommandBuffer polls =>
    obtain ⟨-, pool, slot, hpool, rfl⟩ := VulkanContext.AcquireCommandBuffer_ctx_ok hs
    simp only [Op.presents, Nat.add_zero]
    exact ⟨hinit, sc, hsc, hn, hframe, hpres,
      by rw [CommandPool.AcquireCommandBuffer_Queue hpool]; exact hsig⟩
  | submit present =>
    simp only [VulkanContext.step] at hs
    cases hsub : c.Submit present with
    | error e => simp [hsub, Except.map] at hs
    | ok r =>
      obtain ⟨c2, h⟩ := r
      simp [hsub, Except.map] at hs
      subst hs
      obtain ⟨sc1, pool1, slot, pool2, hsignal, -, hpsub, rfl⟩ :=
        VulkanContext.Submit_ctx_ok hsub
      obtain ⟨d, -, -, -, -, hq, -⟩ := CommandPool.Submit_fields hpsub
      have hhas : c.HasSwapChain = true := by simp [VulkanContext.HasSwapChain, hsc]
      rcases VulkanContext.Submit.signal_ok hsignal with
        ⟨hsp, sc0, hsc0, -, htl, rfl, rfl⟩ | ⟨hsp, rfl, rfl⟩
      · rw [hsc] at hsc0
        obtain rfl := Option.some.inj hsc0
        have hvalid : present.Valid = true := by
          simpa [VulkanContext.Submit.shouldPresent, hhas] using hsp
        simp only [Op.presents, hvalid, if_true, Nat.add_zero]
        refine ⟨hinit,
          VulkanSwapChain.Present
            { sc with
              TimelineWaitValues := sc.TimelineWaitValues.set sc.CurrentImageIndex
                (u64 (sc.CurrentFrame + sc.NumberOfSwapChainImages)) }
            pool2.AcquireLastSubmitSemaphore.2,
          by rw [hsp]; rfl, hn, ?_, ?_, ?_⟩
        · simp only [VulkanSwapChain.Present, hframe]
          unfold u64
          omega
        · simp only [VulkanSwapChain.Present, List.length_append, List.length_singleton, hpres]
        · rw [(VulkanContext.Submit.present_snd_fields _ _ _).2.1, hq,
            timelineSignals_append_one, hsig]
          simp only [CommandPool.Submit.signals, ne_eq, htl, not_false_eq_true, if_true,
            List.getElem?_cons_succ, List.getElem?_cons_zero]
          rw [List.range_succ, List.map_append, List.map_singleton, hframe, hn]
          congr 2
          unfold u64
          omega
      · have hvalid : present.Valid = false := by
          simpa [VulkanContext.Submit.shouldPresent, hhas] using hsp
        simp only [Op.presents, hvalid, Bool.false_eq_true, if_false, Nat.add_zero]
        refine ⟨hinit, sc, by rw [hsp, ← hsc]; rfl, hn, hframe, hpres, ?_⟩
        rw [(VulkanContext.Submit.present_snd_fields _ _ _).2.1, hq,
          timelineSignals_append_one, hsig]
        simp [CommandPool.Submit.signals, hinv.2.2]
  | getSwapChainTexture acquired =>
    simp only [VulkanContext.step] at hs
    cases hg : c.GetSwapChainTexture acquired with
    | error e => simp [hg, Except.map] at hs
    | ok r =>
      obtain ⟨c2, t⟩ := r
      simp [hg, Except.map] at hs
      subst hs
      obtain ⟨sc0, sc1, pool1, hsc0, hgw, -, -, rfl⟩ := VulkanContext.GetSwapChainTexture_ok hg
      rw [hsc] at hsc0
      obtain rfl := Option.some.inj hsc0
      simp only [Op.presents, Nat.add_zero]
      rcases VulkanSwapChain.GetAndWaitOnNextImage_ok hgw with
        ⟨-, rfl, rfl⟩ | ⟨-, -, waitValue, acquireSemaphore, -, -, rfl, rfl⟩
      · exact ⟨hinit, _, rfl, hn, hframe, hpres, hsig⟩
      · exact ⟨hinit, _, rfl, hn, hframe, hpres, hsig⟩
  | defer task handle =>
    simp only [VulkanContext.step, Except.ok.injEq] at hs
    subst hs
    simp only [Op.presents, Nat.add_zero]
    exact ⟨hinit, sc, hsc, hn, hframe, hpres, hsig⟩
  | destroy handle =>
    obtain ⟨image, -, rfl⟩ := VulkanContext.Destroy_ok hs
    simp only [Op.presents, Nat.add_zero]
    exact ⟨hinit, sc, hsc, hn, hframe, hpres, hsig⟩
  | wait dflt poll later handle =>
    obtain ⟨pool, hw, rfl⟩ := VulkanContext.Wait_ctx_ok hs
    simp only [Op.presents, Nat.add_zero]
    exact ⟨hinit, sc, hsc, hn, hframe, hpres, by rw [CommandPool.Wait_Queue hw]; exact hsig⟩

theorem VulkanContext.run_Paced {n : Nat} {ops : List Op} {k : Nat} {c c1 : VulkanContext}
    (hp : c.Paced n k) (hr : c.run ops = .ok c1) : c1.Paced n (k + Op.presents ops) := by
  induction ops generalizing k c with
  | nil =>
    simp only [VulkanContext.run, Except.ok.injEq] at hr
    subst hr
    exact hp
  | cons op rest ih =>
    unfold VulkanContext.run at hr
    cases hs : c.step op with
    | error e => simp [hs] at hr
    | ok c2 =>
      simp only [hs] at hr
      have h3 := ih (VulkanContext.step_Paced hp hs) hr
      rw [Op.presents_cons, ← Nat.add_assoc]
      exact h3

/-! ## The claims -/

/-- C1: in every state reached from a freshly constructed context by calls of its operations
(`AcquireCommandBuffer` and `Submit` among them), two slots that are both encoding are the same
slot; and once `AcquireCommandBuffer` has returned, any later `AcquireCommandBuffer` with no
`Submit` in between fails the check "Another CommandBuffer has been acquired this frame" and
produces no state. -/
theorem C1_at_most_one_encoding_slot (d : ContextCreation) (ops : List Op) (c : VulkanContext)
    (hrun : (VulkanContext.create d).run ops = .ok c) :
    (∀ (i j : Nat) (bi bj : CommandBufferData), c.VulkanCommandPool.Buffers[i]? = some bi →
      c.VulkanCommandPool.Buffers[j]? = some bj →
      bi.isEncoding = true → bj.isEncoding = true → i = j) ∧
    (∀ polls c1, c.AcquireCommandBuffer polls = .ok c1 →
      (∃ (i : Nat) (b : CommandBufferData),
        c1.VulkanCommandPool.Buffers[i]? = some b ∧ b.isEncoding = true) ∧
      ∀ ops2 c2, (∀ op ∈ ops2, op.isSubmit = false) → c1.run ops2 = .ok c2 →
        ∀ polls2, c2.AcquireCommandBuffer polls2 = .error .anotherCommandBufferAcquired) := by
  have hinv := VulkanContext.run_Inv (VulkanContext.create_Inv d) hrun
  refine ⟨?_, ?_⟩
  · intro i j bi bj hi hj hei hej
    have h1 := hinv.1 i bi hi hei
    have h2 := hinv.1 j bj hj hej
    rw [h1] at h2
    simpa using h2
  · intro polls c1 ha
    obtain ⟨hv, pool, slot, hp, rfl⟩ := VulkanContext.AcquireCommandBuffer_ctx_ok ha
    refine ⟨?_, ?_⟩
    · obtain ⟨q, b, -, -, hsearch, -, rfl⟩ :=
        CommandPool.AcquireCommandBuffer_ok (P := fun _ => True) (fun _ _ _ => trivial) hp trivial
      obtain ⟨hb, -, -⟩ := CommandPool.AcquireCommandBuffer.search_ok hsearch
      have hlt : slot < q.Buffers.length := by
        by_contra hge
        rw [List.getElem?_eq_none (by omega)] at hb
        simp at hb
      exact ⟨slot, _, List.getElem?_set_self hlt, rfl⟩
    · intro ops2 c2 hops hr polls2
      obtain ⟨-, -, h3⟩ := VulkanContext.run_not_submit hops hr
      have := h3 rfl
      unfold VulkanContext.AcquireCommandBuffer
      simp [CHECK, this, bind, Except.bind]

/-- C1 at a concrete run: after one submitted frame on the example context, one
`AcquireCommandBuffer` returns and a second one fails its check. -/
theorem C1_witness :
    (VulkanContext.create exampleCreation).run
        [.acquireCommandBuffer [], .submit { index := 0, gen := 0 }] = .ok exampleSubmitted ∧
    exampleSubmitted.AcquireCommandBuffer [] =
      .ok (exampleSubmitted.runD [.acquireCommandBuffer []]) ∧
    (∀ polls2 : List (Nat → Bool),
      (exampleSubmitted.runD [.acquireCommandBuffer []]).AcquireCommandBuffer polls2 =
        .error .anotherCommandBufferAcquired) :=
  ⟨by decide!, by decide!, fun polls2 =>
    ((C1_at_most_one_encoding_slot exampleCreation
      [.acquireCommandBuffer [], .submit { index := 0, gen := 0 }] exampleSubmitted
      (by decide!)).2 [] (exampleSubmitted.runD [.acquireCommandBuffer []]) (by decide!)).2 []
        (exampleSubmitted.runD [.acquireCommandBuffer []]) (by simp) (by decide!) polls2⟩

/-- C2: every `CommandPool::Submit` that returns sets `SubmitCounter` to `(old + 1) mod 2^32`, or
to 1 when that is 0, so the counter is non-zero (and below `2^32`) afterwards; in an
acquire-then-submit cycle the `Submit` returns, its handle carries the counter value of before the
cycle and the counter advances by that step; hence under acquire-then-submit use from a pool with a
non-zero counter every returned handle is non-empty, the first has the ID of the starting counter
(1 on a fresh pool) and each later ID is the successor, skipping 0 on wrap, of the one returned
before it. On a fresh pool with at least one slot the first cycle does return, with the handle
(0, 1). -/
theorem C2_submit_counter_skips_zero :
    (∀ (p p2 : CommandPool) (data : Nat) (h : SubmitHandle), p.Submit data = .ok (p2, h) →
      p2.SubmitCounter =
          (if (p.SubmitCounter + 1) % 2 ^ 32 = 0 then 1 else (p.SubmitCounter + 1) % 2 ^ 32) ∧
        p2.SubmitCounter ≠ 0 ∧ p2.SubmitCounter < 2 ^ 32) ∧
    (∀ (polls : List (Nat → Bool)) (p p1 : CommandPool) (slot : Nat),
      p.AcquireCommandBuffer polls = .ok (p1, slot) →
      ∃ p2 h, p1.Submit slot = .ok (p2, h) ∧ h.ID = p.SubmitCounter ∧
        p2.SubmitCounter = CommandPool.Submit.nextCounter p.SubmitCounter) ∧
    (∀ (pollss : List (List (Nat → Bool))) (p p2 : CommandPool) (hs : List SubmitHandle),
      p.frames pollss = .ok (p2, hs) → p.SubmitCounter ≠ 0 →
      hs.length = pollss.length ∧
        (∀ h ∈ hs, h.Empty = false) ∧
        (∀ h ∈ hs.head?, h.ID = p.SubmitCounter) ∧
        (∀ k (hk : k + 1 < hs.length),
          hs[k + 1].ID =
            (if (hs[k].ID + 1) % 2 ^ 32 = 0 then 1 else (hs[k].ID + 1) % 2 ^ 32))) ∧
    (∀ (maxCommandBuffers : Nat) (cmd sem fence : Nat → Nat),
      (CommandPool.create maxCommandBuffers cmd sem fence).SubmitCounter = 1) ∧
    (∀ (maxCommandBuffers : Nat) (cmd sem fence : Nat → Nat) (polls : List (Nat → Bool)),
      0 < maxCommandBuffers → maxCommandBuffers < 2 ^ 32 → cmd 0 ≠ VK_NULL_HANDLE →
      ∃ p1 p2,
        (CommandPool.create maxCommandBuffers cmd sem fence).AcquireCommandBuffer polls =
          .ok (p1, 0) ∧
        p1.Submit 0 = .ok (p2, { BufferIndex := 0, ID := 1 })) := by
  refine ⟨?_, ?_, ?_, ?_, ?_⟩
  · intro p p2 data h hs
    obtain ⟨d, -, -, -, rfl⟩ := CommandPool.Submit_ok hs
    exact ⟨CommandPool.Submit.nextCounter_eq _, CommandPool.Submit.nextCounter_ne_zero _,
      CommandPool.Submit.nextCounter_lt _⟩
  · intro polls p p1 slot ha
    exact CommandPool.frame_handle ha
  · intro pollss p p2 hs hf hc
    obtain ⟨hl, hk⟩ := CommandPool.frames_handles hf
    have hne : ∀ k, CommandPool.Submit.nextCounter^[k] p.SubmitCounter ≠ 0 := by
      intro k
      cases k with
      | zero => simpa using hc
      | succ k =>
        rw [Function.iterate_succ_apply']
        exact CommandPool.Submit.nextCounter_ne_zero _
    refine ⟨hl, ?_, ?_, ?_⟩
    · intro h hh
      obtain ⟨k, hk2, rfl⟩ := List.getElem_of_mem hh
      have := hk k hk2
      simp [SubmitHandle.Empty, this, hne k]
    · intro h hh
      cases hs with
      | nil => simp at hh
      | cons a t =>
        simp at hh
        subst hh
        simpa using hk 0 (by simp)
    · intro k hk2
      rw [hk (k + 1) hk2, hk k (by omega), Function.iterate_succ_apply',
        CommandPool.Submit.nextCounter_eq]
  · intro m cmd sem fence
    rfl
  · intro m cmd sem fence polls hmin hmax hcmd
    exact CommandPool.create_first_frame m cmd sem fence polls hmin hmax hcmd

/-- C2 at concrete runs: three acquire-then-submit cycles on a fresh pool of two slots return the
IDs 1, 2, 3; two cycles on a pool whose counter is `2^32 - 1` return `2^32 - 1` and then 1. -/
theorem C2_witness :
    (examplePool 2).frames [[], [], [fun _ => true]] =
      .ok ((examplePool 2).framesD [[], [], [fun _ => true]]) ∧
    ((examplePool 2).framesD [[], [], [fun _ => true]]).2 =
      [{ BufferIndex := 0, ID := 1 }, { BufferIndex := 1, ID := 2 },
       { BufferIndex := 0, ID := 3 }] ∧
    (∀ h ∈ ((examplePool 2).framesD [[], [], [fun _ => true]]).2, h.Empty = false) ∧
    ({ examplePool 2 with SubmitCounter := 2 ^ 32 - 1 } : CommandPool).frames [[], []] =
      .ok (({ examplePool 2 with SubmitCounter := 2 ^ 32 - 1 } : CommandPool).framesD [[], []]) ∧
    (({ examplePool 2 with SubmitCounter := 2 ^ 32 - 1 } : CommandPool).framesD [[], []]).2 =
      [{ BufferIndex := 0, ID := 4294967295 }, { BufferIndex := 1, ID := 1 }] ∧
    (∀ h ∈ (({ examplePool 2 with SubmitCounter := 2 ^ 32 - 1 } : CommandPool).framesD [[], []]).2,
      h.Empty = false) :=
  ⟨by decide!, by decide!,
    (C2_submit_counter_skips_zero.2.2.1 [[], [], [fun _ => true]] (examplePool 2)
      ((examplePool 2).framesD [[], [], [fun _ => true]]).1
      ((examplePool 2).framesD [[], [], [fun _ => true]]).2 (by decide!) (by decide!)).2.1,
    by decide!, by decide!,
    (C2_submit_counter_skips_zero.2.2.1 [[], []]
      ({ examplePool 2 with SubmitCounter := 2 ^ 32 - 1 } : CommandPool)
      (({ examplePool 2 with SubmitCounter := 2 ^ 32 - 1 } : CommandPool).framesD [[], []]).1
      (({ examplePool 2 with SubmitCounter := 2 ^ 32 - 1 } : CommandPool).framesD [[], []]).2
      (by decide!) (by decide!)).2.1⟩

/-- C3: for every deferred-task queue and every command-pool state, `ProcessDeferredTasks`
appends to the executed tasks, in queue order and once each, exactly the longest prefix of the
queue whose handles pass `IsReady(handle, true)`, leaves exactly the rest of the queue in its
order, and changes nothing else; a handle passes iff it is empty, its slot is free, or its slot
carries another ID; every task it runs has a handle for which `IsReady` is true in either mode;
and when every queued handle is empty or names a slot of the pool the call returns normally. -/
theorem C3_ProcessDeferredTasks_runs_ready_front (c : VulkanContext) :
    (c.ProcessDeferredTasks.1 =
      { c with
          DeferredTasks := c.DeferredTasks.dropWhile fun t => c.VulkanCommandPool.readyFast t.Handle
          Executed := c.Executed ++
            (c.DeferredTasks.takeWhile fun t => c.VulkanCommandPool.readyFast t.Handle).map
              fun t => t.Task }) ∧
    (c.DeferredTasks =
      (c.DeferredTasks.takeWhile fun t => c.VulkanCommandPool.readyFast t.Handle) ++
        c.ProcessDeferredTasks.1.DeferredTasks) ∧
    (∀ t ∈ c.ProcessDeferredTasks.1.DeferredTasks.head?,
      c.VulkanCommandPool.readyFast t.Handle = false) ∧
    (∀ h : SubmitHandle, c.VulkanCommandPool.readyFast h = true ↔
      (h.Empty = true ∨ ∃ b, c.VulkanCommandPool.Buffers[h.BufferIndex]? = some b ∧
        (b.VulkanCommandBuffer = VK_NULL_HANDLE ∨ b.Handle.ID ≠ h.ID))) ∧
    (∀ t ∈ c.DeferredTasks.takeWhile fun t => c.VulkanCommandPool.readyFast t.Handle,
      ∀ (signalled : Nat → Bool) (fastCheck : Bool),
        c.VulkanCommandPool.IsReady signalled t.Handle fastCheck = .ok true) ∧
    ((∀ t ∈ c.DeferredTasks,
        t.Handle.Empty = true ∨ t.Handle.BufferIndex < c.VulkanCommandPool.MaxCommandBuffers) →
      c.ProcessDeferredTasks.2 = none) := by
  have h1 := VulkanContext.ProcessDeferredTasks.loop_tasks_fst c.VulkanCommandPool c.DeferredTasks
    c.Executed
  refine ⟨?_, ?_, ?_, ?_, ?_, ?_⟩
  · simp [VulkanContext.ProcessDeferredTasks, h1]
  · simp [VulkanContext.ProcessDeferredTasks, h1]
  · intro t ht
    simp only [VulkanContext.ProcessDeferredTasks, h1] at ht
    have := List.head?_dropWhile_not (fun t : DeferredTask => c.VulkanCommandPool.readyFast t.Handle)
      c.DeferredTasks
    cases hd : (List.dropWhile (fun t : DeferredTask => c.VulkanCommandPool.readyFast t.Handle)
      c.DeferredTasks).head? with
    | none => simp [hd] at ht
    | some x =>
      simp [hd] at ht this
      subst ht
      simpa using this
  · exact fun h => CommandPool.readyFast_iff _ h
  · intro t ht s f
    exact CommandPool.IsReady_of_readyFast s _ _ f
      (mem_takeWhile_true (fun t : DeferredTask => c.VulkanCommandPool.readyFast t.Handle) _ t ht)
  · intro hq
    simp [VulkanContext.ProcessDeferredTasks,
      VulkanContext.ProcessDeferredTasks.loop_tasks_snd _ _ _ hq]

/-- C3 at a concrete queue: the first task is ready and runs, the second is not ready and blocks
the third, which is ready. -/
theorem C3_witness :
    (∀ t ∈ exampleQueueContext.DeferredTasks,
      t.Handle.Empty = true ∨
        t.Handle.BufferIndex < exampleQueueContext.VulkanCommandPool.MaxCommandBuffers) ∧
    exampleQueueContext.DeferredTasks.map (fun t => t.Task) = [.other 1, .other 2, .other 3] ∧
    exampleQueueContext.ProcessDeferredTasks.1.Executed = [.other 1] ∧
    exampleQueueContext.ProcessDeferredTasks.1.DeferredTasks.map (fun t => t.Task) =
      [.other 2, .other 3] ∧
    exampleQueueContext.ProcessDeferredTasks.2 = none :=
  ⟨by decide!, by decide!, by decide!, by decide!,
    (C3_ProcessDeferredTasks_runs_ready_front exampleQueueContext).2.2.2.2.2 (by decide!)⟩

/-- C4: evaluation at the failing input. Three frames present images 0, 1 and 2 and record the
wait values 3, 4 and 5 for them; the next `GetAndWaitOnNextImage`, whose acquire yields image 0,
waits for 5, the value recorded for image 2 (the index held before the acquire), not for 3, the
value recorded by the submit that presented image 0. -/
theorem C4_wait_value_read_at_previous_image :
    ((VulkanContext.create exampleCreation).run (pacingFrames 3)).map
        (fun c => c.SwapChain.map fun sc =>
          (sc.Waited, sc.TimelineWaitValues, sc.CurrentImageIndex, sc.GetNextImage)) =
      .ok (some ([0, 3, 4], [3, 4, 5], 2, true)) ∧
    ((VulkanContext.create exampleCreation).run
        (pacingFrames 3 ++ [.getSwapChainTexture 0])).map
        (fun c => c.SwapChain.map fun sc =>
          (sc.Waited, sc.TimelineWaitValues, sc.CurrentImageIndex)) =
      .ok (some ([0, 3, 4, 5], [3, 4, 5], 0)) := by
  constructor <;> decide!

/-- C5: let `Submit` return on a context reached from a freshly constructed one, with
`f = CurrentFrame`, `n = NumberOfSwapChainImages` and `i = CurrentImageIndex` read before the call.
The call makes exactly one queue submission. With a non-empty present target, the wait values
afterwards are the old ones with the entry at `i` replaced by `f + n` (as a `uint64_t`; equal to
`f + n` when that is below `2^64`), the submission signals the slot's own semaphore and then the
context timeline semaphore at that same value, and the swapchain is presented on the slot's
semaphore. With an empty present target the swapchain (wait values and `CurrentFrame` included) is
unchanged and the submission signals the slot's own semaphore only. -/
theorem C5_submit_programs_timeline_signal (d : ContextCreation) (ops : List Op)
    (c c2 : VulkanContext) (present : TextureHandle) (h : SubmitHandle)
    (hrun : (VulkanContext.create d).run ops = .ok c)
    (hs : c.Submit present = .ok (c2, h)) :
    ∃ (sc : VulkanSwapChain) (slot : Nat) (b : CommandBufferData) (info : SubmitInfo),
      c.SwapChain = some sc ∧
      c.CurrentCommandBuffer.CommandBufferImpl = some slot ∧
      c.VulkanCommandPool.Buffers[slot]? = some b ∧
      c2.VulkanCommandPool.Queue = c.VulkanCommandPool.Queue ++ [info] ∧
      (present.Valid = true →
        sc.CurrentImageIndex < sc.TimelineWaitValues.length ∧
        c2.SwapChain = some
          (VulkanSwapChain.Present
            { sc with
              TimelineWaitValues := sc.TimelineWaitValues.set sc.CurrentImageIndex
                (u64 (sc.CurrentFrame + sc.NumberOfSwapChainImages)) }
            b.Semaphore) ∧
        (∀ sc2, c2.SwapChain = some sc2 →
          sc2.TimelineWaitValues[sc.CurrentImageIndex]? =
              some (u64 (sc.CurrentFrame + sc.NumberOfSwapChainImages)) ∧
            ∀ j, j ≠ sc.CurrentImageIndex →
              sc2.TimelineWaitValues[j]? = sc.TimelineWaitValues[j]?) ∧
        info.signals =
          [{ semaphore := b.Semaphore, value := 0 },
           { semaphore := c.TimelineSemaphore
             value := u64 (sc.CurrentFrame + sc.NumberOfSwapChainImages) }] ∧
        (sc.CurrentFrame + sc.NumberOfSwapChainImages < 2 ^ 64 →
          u64 (sc.CurrentFrame + sc.NumberOfSwapChainImages) =
            sc.CurrentFrame + sc.NumberOfSwapChainImages)) ∧
      (present.Valid = false →
        c2.SwapChain = c.SwapChain ∧
        info.signals = [{ semaphore := b.Semaphore, value := 0 }]) := by
  have hinv := VulkanContext.run_Inv (VulkanContext.create_Inv d) hrun
  have hsw : c.HasSwapChain = true := by
    rw [VulkanContext.run_HasSwapChain hrun]; rfl
  obtain ⟨sc1, pool1, slot, pool2, hsig, hslot, hps, rfl⟩ := VulkanContext.Submit_ctx_ok hs
  obtain ⟨b, hb, -, -, -, hQ, hL, -⟩ := CommandPool.Submit_fields hps
  cases hsc : c.SwapChain with
  | none => simp [VulkanContext.HasSwapChain, hsc] at hsw
  | some sc =>
    have hsp : VulkanContext.Submit.shouldPresent present c = present.Valid := by
      simp [VulkanContext.Submit.shouldPresent, hsw]
    obtain ⟨-, hpQ, -⟩ := VulkanContext.Submit.present_snd_fields
        (VulkanContext.Submit.shouldPresent present c) sc1 pool2
    rcases VulkanContext.Submit.signal_ok hsig with
      ⟨hp, sc0, hsc0, hlt, htl, rfl, rfl⟩ | ⟨hp, rfl, rfl⟩
    · rw [hsc] at hsc0
      obtain rfl : sc = sc0 := by simpa using hsc0
      refine ⟨sc, slot, b, _, rfl, hslot, hb, by rw [hpQ, hQ], ?_, ?_⟩
      · intro _
        have hsc2 : (VulkanContext.Submit.present (VulkanContext.Submit.shouldPresent present c)
            (some { sc with
              TimelineWaitValues := sc.TimelineWaitValues.set sc.CurrentImageIndex
                (u64 (sc.CurrentFrame + sc.NumberOfSwapChainImages)) }) pool2).1 =
            some (VulkanSwapChain.Present
              { sc with
                TimelineWaitValues := sc.TimelineWaitValues.set sc.CurrentImageIndex
                  (u64 (sc.CurrentFrame + sc.NumberOfSwapChainImages)) }
              b.Semaphore) := by
          rw [hp]
          simp [VulkanContext.Submit.present, CommandPool.AcquireLastSubmitSemaphore, hL]
        refine ⟨hlt, hsc2, ?_, ?_, ?_⟩
        · intro sc2 h2
          simp only [hsc2, Option.some.injEq] at h2
          subst h2
          refine ⟨?_, ?_⟩
          · simp [VulkanSwapChain.Present, List.getElem?_set_self hlt]
          · intro j hj
            simp [VulkanSwapChain.Present, List.getElem?_set_ne (Ne.symm hj)]
        · simp [CommandPool.Submit.signals, htl]
        · intro hlt2
          exact Nat.mod_eq_of_lt hlt2
      · intro hv
        rw [hsp, hv] at hp
        simp at hp
    · refine ⟨sc, slot, b, _, rfl, hslot, hb, by rw [hpQ, hQ], ?_, ?_⟩
      · intro hv
        rw [hsp, hv] at hp
        simp at hp
      · intro _
        refine ⟨?_, ?_⟩
        · rw [hp]
          simp [VulkanContext.Submit.present, hsc]
        · simp [CommandPool.Submit.signals, hinv.2.2]

/-- C5 at the first presenting submit on a fresh context with three images: the wait value of
image 0 becomes `0 + 3` and the submission signals the timeline semaphore (handle 2) at 3. -/
theorem C5_witness :
    (VulkanContext.create exampleCreation).run [.acquireCommandBuffer [], .getSwapChainTexture 0] =
      .ok exampleRecording ∧
    exampleRecording.Submit { index := 0, gen := 1 } =
      .ok ((exampleRecording.Submit { index := 0, gen := 1 }).toOption.getD
        (exampleRecording, { BufferIndex := 0, ID := 0 })) ∧
    ((exampleRecording.Submit { index := 0, gen := 1 }).toOption.getD
        (exampleRecording, { BufferIndex := 0, ID := 0 })).1.SwapChain.map
      (fun sc => sc.TimelineWaitValues) = some [3, 0, 0] ∧
    ∃ (sc : VulkanSwapChain) (slot : Nat) (b : CommandBufferData) (info : SubmitInfo),
      exampleRecording.SwapChain = some sc ∧
      exampleRecording.CurrentCommandBuffer.CommandBufferImpl = some slot ∧
      exampleRecording.VulkanCommandPool.Buffers[slot]? = some b ∧
      ((exampleRecording.Submit { index := 0, gen := 1 }).toOption.getD
        (exampleRecording, { BufferIndex := 0, ID := 0 })).1.VulkanCommandPool.Queue =
        exampleRecording.VulkanCommandPool.Queue ++ [info] ∧
      info.signals =
        [{ semaphore := b.Semaphore, value := 0 },
         { semaphore := exampleRecording.TimelineSemaphore
           value := u64 (sc.CurrentFrame + sc.NumberOfSwapChainImages) }] := by
  refine ⟨by decide!, by decide!, by decide!, ?_⟩
  obtain ⟨sc, slot, b, info, h1, h2, h3, h4, h5, -⟩ :=
    C5_submit_programs_timeline_signal exampleCreation
      [.acquireCommandBuffer [], .getSwapChainTexture 0] exampleRecording
      ((exampleRecording.Submit { index := 0, gen := 1 }).toOption.getD
        (exampleRecording, { BufferIndex := 0, ID := 0 })).1
      { index := 0, gen := 1 }
      ((exampleRecording.Submit { index := 0, gen := 1 }).toOption.getD
        (exampleRecording, { BufferIndex := 0, ID := 0 })).2
      (by decide!) (by decide!)
  exact ⟨sc, slot, b, info, h1, h2, h3, h4, (h5 (by decide)).2.2.2.1⟩

/-- C6: evaluation at the failing input. Ten frames with three images acquired round-robin on a
fresh context whose timeline starts at 2: frame 0 waits for 0, and every later frame `f` waits for
`f + 2`, the value signalled by the submission of frame `f - 1`; so frame 1 already waits for 3,
above the initial value, and frame 3 waits for 5, not 3. -/
theorem C6_pacing_waits_for_previous_frame :
    ((VulkanContext.create exampleCreation).run (pacingFrames 10)).map
        (fun c => (c.TimelineInitialValue, c.SwapChain.map fun sc => (sc.Waited, sc.Acquired.map Prod.snd))) =
      .ok (2, some ([0, 3, 4, 5, 6, 7, 8, 9, 10, 11], [0, 1, 2, 0, 1, 2, 0, 1, 2, 0])) := by
  decide!

/-- C7 (amended): when a submission made through `VulkanContext::Submit` without presenting is
followed, after any calls other than `Submit`, by the next submission, the wait list of that next
submission contains the binary semaphore of the slot the earlier submission was recorded in, which
is the first semaphore the earlier submission signals. (Slot semaphores are live objects, not
`VK_NULL_HANDLE`.) -/
theorem C7_submit_waits_on_unpresented_predecessor (c c1 c2 c3 : VulkanContext)
    (present present2 : TextureHandle) (h1 h3 : SubmitHandle) (ops : List Op)
    (hsem : ∀ b ∈ c.VulkanCommandPool.Buffers, b.Semaphore ≠ VK_NULL_HANDLE)
    (hs1 : c.Submit present = .ok (c1, h1))
    (hnp : VulkanContext.Submit.shouldPresent present c = false)
    (hops : ∀ op ∈ ops, op.isSubmit = false) (hrun : c1.run ops = .ok c2)
    (hs3 : c2.Submit present2 = .ok (c3, h3)) :
    ∃ (slot : Nat) (b : CommandBufferData) (info1 info3 : SubmitInfo),
      c.CurrentCommandBuffer.CommandBufferImpl = some slot ∧
      c.VulkanCommandPool.Buffers[slot]? = some b ∧
      c1.VulkanCommandPool.Queue = c.VulkanCommandPool.Queue ++ [info1] ∧
      c3.VulkanCommandPool.Queue = c.VulkanCommandPool.Queue ++ [info1, info3] ∧
      info1.signals.head? = some { semaphore := b.Semaphore, value := 0 } ∧
      b.Semaphore ∈ info3.waits.map (fun w => w.semaphore) := by
  obtain ⟨slot, b, info1, hslot, hb, -, -, -, hQ1, -, hsig1, -, -, hL1, -⟩ :=
    VulkanContext.Submit_pool hs1
  obtain ⟨slot3, b3, info3, -, -, -, -, -, hQ3, hw3, -⟩ := VulkanContext.Submit_pool hs3
  obtain ⟨hL2, hQ2, -⟩ := VulkanContext.run_not_submit hops hrun
  refine ⟨slot, b, info1, info3, hslot, hb, hQ1, by rw [hQ3, hQ2, hQ1]; simp, hsig1, ?_⟩
  have hne : b.Semaphore ≠ VK_NULL_HANDLE := hsem b (List.getElem?_mem hb)
  rw [hw3, hL2, hL1]
  simp [hnp, hne]

/-- C7: counterexample. On a fresh context a presenting submission is followed by a second
submission: the first signals the semaphore 500 of its slot, the present consumes it, and the wait
list of the second submission is empty. -/
theorem C7_counterexample_after_present :
    ((VulkanContext.create exampleCreation).run
        [.acquireCommandBuffer [], .getSwapChainTexture 0, .submit { index := 0, gen := 1 },
         .acquireCommandBuffer [], .submit { index := 0, gen := 0 }]).map
        (fun c =>
          (c.VulkanCommandPool.Queue.map fun i =>
            (i.waits.map fun w => w.semaphore, i.signals.map fun w => w.semaphore),
           c.SwapChain.map fun sc => sc.Presented)) =
      .ok ([([300], [500, 2]), ([], [501])], some [(500, 0)]) := by
  decide!

/-- C7 at a concrete run: a frame submitted without presenting, then the next frame; the second
submission waits on the semaphore 500 that the first one signalled. -/
theorem C7_witness :
    (∀ b ∈ ((VulkanContext.create exampleCreation).runD
        [.acquireCommandBuffer []]).VulkanCommandPool.Buffers, b.Semaphore ≠ VK_NULL_HANDLE) ∧
    ((VulkanContext.create exampleCreation).runD [.acquireCommandBuffer []]).Submit
      { index := 0, gen := 0 } = .ok (exampleSubmitted, { BufferIndex := 0, ID := 1 }) ∧
    exampleSubmitted.run [.acquireCommandBuffer []] =
      .ok (exampleSubmitted.runD [.acquireCommandBuffer []]) ∧
    ((exampleSubmitted.runD [.acquireCommandBuffer [], .submit { index := 0, gen := 1 }]
      ).VulkanCommandPool.Queue.map fun i =>
        (i.waits.map fun w => w.semaphore, i.signals.map fun w => w.semaphore)) =
      [([], [500]), ([500], [501, 2])] ∧
    ∃ (slot : Nat) (b : CommandBufferData) (info1 info3 : SubmitInfo),
      ((VulkanContext.create exampleCreation).runD
        [.acquireCommandBuffer []]).CurrentCommandBuffer.CommandBufferImpl = some slot ∧
      ((VulkanContext.create exampleCreation).runD
        [.acquireCommandBuffer []]).VulkanCommandPool.Buffers[slot]? = some b ∧
      exampleSubmitted.VulkanCommandPool.Queue =
        ((VulkanContext.create exampleCreation).runD
          [.acquireCommandBuffer []]).VulkanCommandPool.Queue ++ [info1] ∧
      (exampleSubmitted.runD [.acquireCommandBuffer [], .submit { index := 0, gen := 1 }]
        ).VulkanCommandPool.Queue =
        ((VulkanContext.create exampleCreation).runD
          [.acquireCommandBuffer []]).VulkanCommandPool.Queue ++ [info1, info3] ∧
      info1.signals.head? = some { semaphore := b.Semaphore, value := 0 } ∧
      b.Semaphore ∈ info3.waits.map (fun w => w.semaphore) :=
  ⟨by decide!, by decide!, by decide!, by decide!,
    C7_submit_waits_on_unpresented_predecessor
      ((VulkanContext.create exampleCreation).runD [.acquireCommandBuffer []])
      exampleSubmitted (exampleSubmitted.runD [.acquireCommandBuffer []])
      (exampleSubmitted.runD [.acquireCommandBuffer [], .submit { index := 0, gen := 1 }])
      { index := 0, gen := 0 } { index := 0, gen := 1 }
      { BufferIndex := 0, ID := 1 } { BufferIndex := 1, ID := 2 } [.acquireCommandBuffer []]
      (by decide!) (by decide!) (by decide!) (by decide!) (by decide!) (by decide!)⟩

/-- C8 (amended): let `Wait(h)` return for a non-empty handle `h`. If the readiness test made by
`Wait` itself (`IsReady(h)` with the default `fastCheck`) reports `h` ready, and in particular if
`h` had already retired (slot free or restamped), `Wait` returns the pool unchanged. If that test
reports `h` not ready, then after `Wait` the slot of `h` is free again and `IsReady(h)` is true
with and without `fastCheck`. In every case `IsReady(h)` without `fastCheck` is true afterwards,
for fence statuses that keep every fence seen signalled by `Wait` signalled. -/
theorem C8_Wait_result (fastCheckDefault : Bool) (poll later : Nat → Bool) (p p2 : CommandPool)
    (h : SubmitHandle) (hne : h.Empty = false)
    (hw : p.Wait fastCheckDefault poll later h = .ok p2) :
    (p.IsReady poll h fastCheckDefault = .ok true → p2 = p) ∧
    (p.readyFast h = true → p2 = p) ∧
    (p.IsReady poll h fastCheckDefault = .ok false →
      (∃ b, p2.Buffers[h.BufferIndex]? = some b ∧ b.VulkanCommandBuffer = VK_NULL_HANDLE) ∧
      ∀ (s : Nat → Bool) (fastCheck : Bool), p2.IsReady s h fastCheck = .ok true) ∧
    (∀ s : Nat → Bool, (∀ f, poll f = true → s f = true) → p2.IsReady s h false = .ok true) := by
  exact CommandPool.Wait_result fastCheckDefault poll later p p2 h hne hw

/-- C8: counterexample. (1) With one slot, the handle (0, 1) returned by the first submit is
waited on after the slot has been reset and acquired again: `Wait` returns at once, whatever the
default of `fastCheck`, and the slot of the handle is not free (it is encoding the next command
buffer). (2) With the default `fastCheck = false`, waiting on the handle (0, 1) of a submission
whose fence has already signalled returns without resetting the slot: the slot is still active and
`IsReady` with `fastCheck` is false. -/
theorem C8_counterexample_slot_not_free :
    ((examplePool 1).frames [[]]).map (fun r => r.2) = .ok [{ BufferIndex := 0, ID := 1 }] ∧
    (∀ fastCheckDefault : Bool,
      (do
        let (p1, _) ← (examplePool 1).frames [[]]
        let (p2, _) ← p1.AcquireCommandBuffer [fun _ => true]
        let p3 ← p2.Wait fastCheckDefault (fun _ => true) (fun _ => true)
          { BufferIndex := 0, ID := 1 }
        pure (decide (p3 = p2),
          p3.Buffers.map fun b => (b.VulkanCommandBuffer, b.Handle.ID, b.isEncoding))) =
      (.ok (true, [(400, 2, true)]) : Except Fault (Bool × List (Nat × Nat × Bool)))) ∧
    ((examplePool 2).frames [[]]).map (fun r => r.2) = .ok [{ BufferIndex := 0, ID := 1 }] ∧
    (do
        let (p1, _) ← (examplePool 2).frames [[]]
        let p2 ← p1.Wait false (fun _ => true) (fun _ => true) { BufferIndex := 0, ID := 1 }
        let fast ← p2.IsReady (fun _ => true) { BufferIndex := 0, ID := 1 } true
        let slow ← p2.IsReady (fun _ => true) { BufferIndex := 0, ID := 1 } false
        pure (decide (p2 = p1), fast, slow, p2.Buffers.map fun b => b.VulkanCommandBuffer)) =
      (.ok (true, false, true, [400, 0]) : Except Fault (Bool × Bool × Bool × List Nat)) := by
  refine ⟨by decide!, by decide!, by decide!, by decide!⟩

/-- C8 at a concrete pool: one frame submitted on a pool of two slots, then `Wait` on its handle
while its fence has not been seen signalled: the slot is free afterwards and the handle is ready
with and without `fastCheck`. -/
theorem C8_witness :
    (SubmitHandle.Empty { BufferIndex := 0, ID := 1 } = false) ∧
    ((examplePool 2).framesD [[]]).2 = [{ BufferIndex := 0, ID := 1 }] ∧
    ((examplePool 2).framesD [[]]).1.IsReady (fun _ => false) { BufferIndex := 0, ID := 1 } false =
      .ok false ∧
    ((examplePool 2).framesD [[]]).1.Wait false (fun _ => false) (fun _ => false)
      { BufferIndex := 0, ID := 1 } =
      .ok ((((examplePool 2).framesD [[]]).1.Wait false (fun _ => false) (fun _ => false)
        { BufferIndex := 0, ID := 1 }).toOption.getD (examplePool 2)) ∧
    ((∃ b, ((((examplePool 2).framesD [[]]).1.Wait false (fun _ => false) (fun _ => false)
        { BufferIndex := 0, ID := 1 }).toOption.getD (examplePool 2)).Buffers[0]? = some b ∧
        b.VulkanCommandBuffer = VK_NULL_HANDLE) ∧
      ∀ (s : Nat → Bool) (fastCheck : Bool),
        ((((examplePool 2).framesD [[]]).1.Wait false (fun _ => false) (fun _ => false)
          { BufferIndex := 0, ID := 1 }).toOption.getD (examplePool 2)).IsReady s
          { BufferIndex := 0, ID := 1 } fastCheck = .ok true) :=
  ⟨by decide, by decide!, by decide!, by decide!,
    (C8_Wait_result false (fun _ => false) (fun _ => false) ((examplePool 2).framesD [[]]).1
      ((((examplePool 2).framesD [[]]).1.Wait false (fun _ => false) (fun _ => false)
        { BufferIndex := 0, ID := 1 }).toOption.getD (examplePool 2))
      { BufferIndex := 0, ID := 1 } (by decide) (by decide!)).2.2.1 (by decide!)⟩

/-- C9 (amended): `Defer(task, h)` followed by `CommandPool::Wait(h)` followed by
`ProcessDeferredTasks()`, for a non-empty handle `h`. If `h` had already retired, or the readiness
test made by `Wait` reported `h` not ready (so that `Wait` blocked on the fence and reset the
slot), and every task queued ahead of `task` is ready under the fast check after the `Wait`,
then `ProcessDeferredTasks` returns normally, runs the tasks queued ahead in order and then `task`,
each once, and leaves the queue empty. -/
theorem C9_defer_wait_process_runs_task_once (c c1 : VulkanContext) (task : PackagedTask)
    (h : SubmitHandle) (fastCheckDefault : Bool) (poll later : Nat → Bool)
    (hne : h.Empty = false)
    (hw : (c.Defer task h).Wait fastCheckDefault poll later h = .ok c1)
    (hwaited : c.VulkanCommandPool.readyFast h = true ∨
      c.VulkanCommandPool.IsReady poll h fastCheckDefault = .ok false)
    (hahead : ∀ t ∈ c.DeferredTasks, c1.VulkanCommandPool.readyFast t.Handle = true) :
    c1.DeferredTasks = c.DeferredTasks ++ [{ Task := task, Handle := h }] ∧
    c1.Executed = c.Executed ∧
    c1.ProcessDeferredTasks =
      ({ c1 with
          DeferredTasks := []
          Executed := c.Executed ++ (c.DeferredTasks.map fun t => t.Task) ++ [task] },
        none) := by
  obtain ⟨pool, hp, rfl⟩ := VulkanContext.Wait_ctx_ok hw
  have hpool : (c.Defer task h).VulkanCommandPool = c.VulkanCommandPool := rfl
  rw [hpool] at hp
  obtain ⟨r1, r2, r3, r4⟩ := CommandPool.Wait_result fastCheckDefault poll later
    c.VulkanCommandPool pool h hne hp
  have hready : pool.readyFast h = true := by
    rcases hwaited with hr | hr
    · rw [r2 hr]; exact hr
    · exact CommandPool.readyFast_of_IsReady ((r3 hr).2 (fun _ => false) true)
  have hq : (c.Defer task h).DeferredTasks = c.DeferredTasks ++ [{ Task := task, Handle := h }] := by
    simp [VulkanContext.Defer, hne]
  refine ⟨hq, rfl, ?_⟩
  unfold VulkanContext.ProcessDeferredTasks
  simp only [hq]
  rw [VulkanContext.ProcessDeferredTasks.loop_all_ready]
  · simp [VulkanContext.Defer]
  · intro t ht
    simp only [List.mem_append, List.mem_singleton] at ht
    rcases ht with ht | rfl
    · exact hahead t ht
    · exact hready

/-- C9: counterexample. Two frames are submitted (handles (0, 1) and (1, 2)); a task is deferred on
the second handle, then the task 8 on the first handle; `Wait` on the first handle returns after
the first fence signalled (the second has not); `ProcessDeferredTasks` stops at the task in front,
which is not ready, and runs nothing: task 8 is executed zero times and stays queued. This holds
for either default of `fastCheck` (first and second part). -/
theorem C9_counterexample_blocked_by_front_task :
    ((VulkanContext.create exampleCreation).run
        [.acquireCommandBuffer [], .submit { index := 0, gen := 0 },
         .acquireCommandBuffer [], .submit { index := 0, gen := 0 },
         .defer (.other 7) { BufferIndex := 1, ID := 2 },
         .defer (.other 8) { BufferIndex := 0, ID := 1 },
         .wait false (fun _ => false) (fun _ => false) { BufferIndex := 0, ID := 1 }]).map
        (fun c =>
          (c.VulkanCommandPool.Buffers.map fun b => (b.VulkanCommandBuffer, b.Handle),
           c.ProcessDeferredTasks.1.Executed,
           c.ProcessDeferredTasks.1.DeferredTasks.map fun t => t.Task,
           c.ProcessDeferredTasks.2)) =
      .ok ([(0, { BufferIndex := 0, ID := 1 }), (401, { BufferIndex := 1, ID := 2 })],
        [], [.other 7, .other 8], none) ∧
    ((VulkanContext.create exampleCreation).run
        [.acquireCommandBuffer [], .submit { index := 0, gen := 0 },
         .acquireCommandBuffer [], .submit { index := 0, gen := 0 },
         .defer (.other 7) { BufferIndex := 1, ID := 2 },
         .defer (.other 8) { BufferIndex := 0, ID := 1 },
         .wait true (fun _ => false) (fun _ => false) { BufferIndex := 0, ID := 1 }]).map
        (fun c =>
          (c.VulkanCommandPool.Buffers.map fun b => (b.VulkanCommandBuffer, b.Handle),
           c.ProcessDeferredTasks.1.Executed,
           c.ProcessDeferredTasks.1.DeferredTasks.map fun t => t.Task,
           c.ProcessDeferredTasks.2)) =
      .ok ([(0, { BufferIndex := 0, ID := 1 }), (401, { BufferIndex := 1, ID := 2 })],
        [], [.other 7, .other 8], none) := by
  constructor <;> decide!

/-- C9 at a concrete run: one frame submitted, the task 8 deferred on its handle, `Wait` on the
handle, `ProcessDeferredTasks`: the task runs once and the queue is empty. -/
theorem C9_witness :
    ((exampleSubmitted.Defer (.other 8) { BufferIndex := 0, ID := 1 }).Wait false
        (fun _ => false) (fun _ => false) { BufferIndex := 0, ID := 1 } =
      .ok (((exampleSubmitted.Defer (.other 8) { BufferIndex := 0, ID := 1 }).Wait false
        (fun _ => false) (fun _ => false) { BufferIndex := 0, ID := 1 }).toOption.getD
          exampleSubmitted)) ∧
    exampleSubmitted.VulkanCommandPool.IsReady (fun _ => false) { BufferIndex := 0, ID := 1 }
      false = .ok false ∧
    exampleSubmitted.DeferredTasks = [] ∧
    (((exampleSubmitted.Defer (.other 8) { BufferIndex := 0, ID := 1 }).Wait false
        (fun _ => false) (fun _ => false) { BufferIndex := 0, ID := 1 }).toOption.getD
          exampleSubmitted).ProcessDeferredTasks.1.Executed = [.other 8] ∧
    (((exampleSubmitted.Defer (.other 8) { BufferIndex := 0, ID := 1 }).Wait false
        (fun _ => false) (fun _ => false) { BufferIndex := 0, ID := 1 }).toOption.getD
          exampleSubmitted).ProcessDeferredTasks.1.DeferredTasks = [] ∧
    (((exampleSubmitted.Defer (.other 8) { BufferIndex := 0, ID := 1 }).Wait false
        (fun _ => false) (fun _ => false) { BufferIndex := 0, ID := 1 }).toOption.getD
          exampleSubmitted).ProcessDeferredTasks.2 = none := by
  have h := C9_defer_wait_process_runs_task_once exampleSubmitted
    (((exampleSubmitted.Defer (.other 8) { BufferIndex := 0, ID := 1 }).Wait false
        (fun _ => false) (fun _ => false) { BufferIndex := 0, ID := 1 }).toOption.getD
          exampleSubmitted)
    (.other 8) { BufferIndex := 0, ID := 1 } false (fun _ => false) (fun _ => false)
    (by decide) (by decide!) (Or.inr (by decide!)) (by decide!)
  refine ⟨by decide!, by decide!, by decide!, ?_, ?_, ?_⟩
  · rw [h.2.2]; decide!
  · rw [h.2.2]
  · rw [h.2.2]

/-- C10 (amended): scenario S4 on a context whose command pool is freshly constructed with at least
two slots and whose deferred queue is empty: acquire and
submit a first frame, destroy a live texture, acquire and submit a second frame. The first submit
returns the handle (0, 1); the view-destruction tasks of the texture (one per view, in order) are
queued under that handle; after the second submit the first slot has not retired (the second
acquire took the free slot 1 without resetting), so all those tasks are still queued, in order,
and none has been executed. -/
theorem C10_deferred_destroy_waits_for_first_slot (c0 c5 : VulkanContext) (t : TextureHandle)
    (image : VulkanImage) (maxCommandBuffers : Nat) (cmd sem fence : Nat → Nat)
    (polls1 polls2 : List (Nat → Bool)) (present1 present2 : TextureHandle)
    (hpool : c0.VulkanCommandPool = CommandPool.create maxCommandBuffers cmd sem fence)
    (hmin : 2 ≤ maxCommandBuffers) (hmax : maxCommandBuffers < 2 ^ 32)
    (hqueue : c0.DeferredTasks = [])
    (hlive : c0.TexturePool.Get t = some image)
    (hrun : c0.run
      [.acquireCommandBuffer polls1, .submit present1, .destroy t,
       .acquireCommandBuffer polls2, .submit present2] = .ok c5) :
    (∃ c1 c2, c0.AcquireCommandBuffer polls1 = .ok c1 ∧
      c1.Submit present1 = .ok (c2, { BufferIndex := 0, ID := 1 }) ∧
      c2.DeferredTasks = []) ∧
    c5.DeferredTasks = (VulkanContext.Destroy.views image).map (fun v =>
      { Task := .destroyImageView c0.VulkanDevice v, Handle := { BufferIndex := 0, ID := 1 } }) ∧
    c5.DeferredTasks ≠ [] ∧
    c5.Executed = c0.Executed ∧
    c5.VulkanCommandPool.readyFast { BufferIndex := 0, ID := 1 } = false ∧
    c5.TexturePool.Get t = none := by
  obtain ⟨k, rfl⟩ : ∃ k, maxCommandBuffers = k + 2 := ⟨maxCommandBuffers - 2, by omega⟩
  obtain ⟨rest, hslots⟩ := CommandPool.create.slots_two cmd sem fence k
  have hB0 := hslots
  rw [← show c0.VulkanCommandPool.Buffers = CommandPool.create.slots cmd sem fence (k + 2) from by
    rw [hpool]; rfl] at hB0
  have hN0 : c0.VulkanCommandPool.NumberOfAvailableCommandBuffers = k + 2 := by
    rw [hpool]; exact Nat.mod_eq_of_lt hmax
  have hC0 : c0.VulkanCommandPool.SubmitCounter = 1 := by rw [hpool]; rfl
  obtain ⟨c1, hs1, hr1⟩ := VulkanContext.run_cons_ok hrun
  obtain ⟨c2, hs2, hr2⟩ := VulkanContext.run_cons_ok hr1
  obtain ⟨c3, hs3, hr3⟩ := VulkanContext.run_cons_ok hr2
  obtain ⟨c4, hs4, hr4⟩ := VulkanContext.run_cons_ok hr3
  obtain ⟨c5b, hs5, hr5⟩ := VulkanContext.run_cons_ok hr4
  obtain rfl : c5 = c5b := by simpa [VulkanContext.run] using hr5.symm
  -- first acquire
  obtain ⟨i1, b1, hsearch1, hal1, f1B, f1N, f1X, f1C, f1cur, f1q, f1e, f1t, f1d⟩ :=
    VulkanContext.AcquireCommandBuffer_fields (by rw [hN0]; omega) hs1
  rw [hB0] at hsearch1
  simp [CommandPool.AcquireCommandBuffer.search, VK_NULL_HANDLE] at hsearch1
  obtain ⟨rfl, rfl⟩ := hsearch1
  rw [hB0, hC0] at f1B
  rw [hC0] at f1X f1C
  rw [hN0] at f1N
  simp only [List.set_cons_zero] at f1B
  -- first submit
  obtain ⟨h1, hsub2⟩ := VulkanContext.step_submit_ok hs2
  obtain ⟨slot2, b2, info2, g2cur, g2b, -, g2h, f2B, -, -, -, -, -, -, f2C, f2N, f2X, f2q, f2e,
    f2t, f2d, f2c⟩ := VulkanContext.Submit_pool hsub2
  rw [f1cur] at g2cur
  obtain rfl : slot2 = 0 := by simpa using g2cur.symm
  rw [f1B] at g2b f2B
  simp only [List.getElem?_cons_zero, Option.some.injEq] at g2b
  subst g2b
  simp only [List.set_cons_zero] at f2B
  rw [f1q, hqueue] at f2q f2e
  simp only [List.dropWhile_nil, List.takeWhile_nil, List.map_nil, List.append_nil] at f2q f2e
  -- destroy
  obtain ⟨image3, hget3, hc3⟩ := VulkanContext.Destroy_ok hs3
  rw [f2t, f1t, hlive] at hget3
  obtain rfl : image = image3 := by simpa using hget3
  have f3B : c3.VulkanCommandPool = c2.VulkanCommandPool := by rw [hc3]
  have f3q : c3.DeferredTasks = (VulkanContext.Destroy.views image).map (fun v =>
      { Task := .destroyImageView c0.VulkanDevice v, Handle := { BufferIndex := 0, ID := 1 } }) := by
    rw [hc3]
    simp only [f2q, List.nil_append, f2d, f1d, f2X, f1X]
  have f3e : c3.Executed = c0.Executed := by rw [hc3]; simp only [f2e, f1e]
  have f3t : c3.TexturePool.Get t = none := by
    rw [hc3]
    simp only [f2t, f1t]
    exact VulkanTexturePool.Get_Destroy hlive
  have f3cur : c3.CurrentCommandBuffer = CommandBuffer.empty := by rw [hc3]; exact f2c
  -- second acquire
  have hN3 : c3.VulkanCommandPool.NumberOfAvailableCommandBuffers = k + 1 := by
    rw [f3B, f2N, f1N]
    unfold u32
    have : k + 2 + (2 ^ 32 - 1) = (k + 1) + 2 ^ 32 := by omega
    rw [this, Nat.add_mod_right]
    exact Nat.mod_eq_of_lt (by omega)
  obtain ⟨i4, b4, hsearch4, -, f4B, -, -, -, f4cur, f4q, f4e, f4t, -⟩ :=
    VulkanContext.AcquireCommandBuffer_fields (by rw [hN3]; omega) hs4
  rw [f3B, f2B] at hsearch4 f4B
  simp [CommandPool.AcquireCommandBuffer.search, VK_NULL_HANDLE] at hsearch4
  have hal1b : ¬ cmd 0 = 0 := hal1
  simp [hal1b] at hsearch4
  obtain ⟨rfl, rfl⟩ := hsearch4
  simp only [List.set_cons_succ, List.set_cons_zero] at f4B
  -- second submit
  obtain ⟨h5, hsub5⟩ := VulkanContext.step_submit_ok hs5
  obtain ⟨slot5, b5, info5, g5cur, g5b, -, -, f5B, -, -, -, -, -, -, -, -, -, f5q, f5e,
    f5t, -, -⟩ := VulkanContext.Submit_pool hsub5
  rw [f4cur] at g5cur
  obtain rfl : slot5 = 1 := by simpa using g5cur.symm
  rw [f4B] at g5b f5B
  simp only [List.getElem?_cons_succ, List.getElem?_cons_zero, Option.some.injEq] at g5b
  subst g5b
  simp only [List.set_cons_succ, List.set_cons_zero] at f5B
  have hnr : c5.VulkanCommandPool.readyFast { BufferIndex := 0, ID := 1 } = false := by
    cases hrf : c5.VulkanCommandPool.readyFast { BufferIndex := 0, ID := 1 } with
    | false => rfl
    | true =>
      rw [CommandPool.readyFast_iff, f5B] at hrf
      simp [SubmitHandle.Empty, VK_NULL_HANDLE, hal1b] at hrf
  have hviews : ∃ v vs, VulkanContext.Destroy.views image = v :: vs := by
    unfold VulkanContext.Destroy.views
    exact ⟨_, _, rfl⟩
  obtain ⟨v, vs, hv⟩ := hviews
  have hq4 : c4.DeferredTasks =
      { Task := .destroyImageView c0.VulkanDevice v, Handle := { BufferIndex := 0, ID := 1 } } ::
        vs.map (fun v => { Task := .destroyImageView c0.VulkanDevice v
                           Handle := { BufferIndex := 0, ID := 1 } }) := by
    rw [f4q, f3q, hv]; rfl
  refine ⟨⟨c1, c2, hs1, ?_, f2q⟩, ?_, ?_, ?_, hnr, ?_⟩
  · rw [hsub2, g2h]
  · rw [f5q, hq4, hv]
    simp [List.dropWhile, hnr]
  · rw [f5q, hq4]
    simp [List.dropWhile, hnr]
  · rw [f5e, hq4]
    simp [List.takeWhile, hnr, f4e, f3e]
  · rw [f5t, f4t]; exact f3t

/-- C10: counterexample. Scenario S4 with two command buffers: after the second `Submit` the three
view-destruction tasks of the destroyed texture are all still queued and none has run, although
every fence polled is reported signalled; the first slot was never reset because the second
acquire found a free slot. -/
theorem C10_counterexample_tasks_still_queued :
    exampleContext.TexturePool.Get { index := 3, gen := 1 } = some exampleTexture ∧
    (exampleContext.run
        [.acquireCommandBuffer [fun _ => true], .submit { index := 0, gen := 0 },
         .destroy { index := 3, gen := 1 },
         .acquireCommandBuffer [fun _ => true], .submit { index := 0, gen := 0 }]).map
        (fun c =>
          (c.Executed, c.DeferredTasks,
           c.VulkanCommandPool.Buffers.map fun b => (b.VulkanCommandBuffer, b.Handle))) =
      .ok ([],
        [{ Task := .destroyImageView 1 210, Handle := { BufferIndex := 0, ID := 1 } },
         { Task := .destroyImageView 1 211, Handle := { BufferIndex := 0, ID := 1 } },
         { Task := .destroyImageView 1 212, Handle := { BufferIndex := 0, ID := 1 } }],
        [(400, { BufferIndex := 0, ID := 1 }), (401, { BufferIndex := 1, ID := 2 })]) := by
  decide!

/-- C10 at the example context with two command buffers and the example texture. -/
theorem C10_witness :
    exampleContext.VulkanCommandPool =
      CommandPool.create 2 exampleCreation.commandBuffer exampleCreation.semaphore
        exampleCreation.fence ∧
    exampleContext.DeferredTasks = [] ∧
    exampleContext.TexturePool.Get { index := 3, gen := 1 } = some exampleTexture ∧
    exampleContext.run
      [.acquireCommandBuffer [], .submit { index := 0, gen := 0 }, .destroy { index := 3, gen := 1 },
       .acquireCommandBuffer [], .submit { index := 0, gen := 0 }] =
      .ok (exampleContext.runD
        [.acquireCommandBuffer [], .submit { index := 0, gen := 0 },
         .destroy { index := 3, gen := 1 },
         .acquireCommandBuffer [], .submit { index := 0, gen := 0 }]) ∧
    (exampleContext.runD
        [.acquireCommandBuffer [], .submit { index := 0, gen := 0 },
         .destroy { index := 3, gen := 1 },
         .acquireCommandBuffer [], .submit { index := 0, gen := 0 }]).DeferredTasks =
      (VulkanContext.Destroy.views exampleTexture).map (fun v =>
        { Task := .destroyImageView exampleContext.VulkanDevice v
          Handle := { BufferIndex := 0, ID := 1 } }) ∧
    (exampleContext.runD
        [.acquireCommandBuffer [], .submit { index := 0, gen := 0 },
         .destroy { index := 3, gen := 1 },
         .acquireCommandBuffer [], .submit { index := 0, gen := 0 }]).Executed =
      exampleContext.Executed := by
  have h := C10_deferred_destroy_waits_for_first_slot exampleContext
    (exampleContext.runD
        [.acquireCommandBuffer [], .submit { index := 0, gen := 0 },
         .destroy { index := 3, gen := 1 },
         .acquireCommandBuffer [], .submit { index := 0, gen := 0 }])
    { index := 3, gen := 1 } exampleTexture 2 exampleCreation.commandBuffer
    exampleCreation.semaphore exampleCreation.fence [] [] { index := 0, gen := 0 }
    { index := 0, gen := 0 } (by decide!) (by decide) (by decide) (by decide!) (by decide!)
    (by decide!)
  exact ⟨by decide!, by decide!, by decide!, by decide!, h.2.1, h.2.2.2.1⟩

/-- C12: `Destroy` of a texture handle that resolves to an image with `s` storage views
(`s` is 1 if `ImageViewStorage` is set, else 0) and `p` populated framebuffer views appends
`1 + s + p` view-destruction tasks to the end of the deferred queue, each tagged with the command
pool's next-submit handle; the tasks queued before stay in front, unchanged; no task is executed;
the command pool is untouched; and the pool slot of the handle is released by the same call. -/
theorem C12_destroy_defers_views (c : VulkanContext) (h : TextureHandle) (image : VulkanImage)
    (hget : c.TexturePool.Get h = some image) :
    ∃ c1, c.Destroy h = .ok c1 ∧
      c1.DeferredTasks = c.DeferredTasks ++ (VulkanContext.Destroy.views image).map (fun v =>
        { Task := .destroyImageView c.VulkanDevice v
          Handle := c.VulkanCommandPool.GetNextSubmitHandle }) ∧
      (VulkanContext.Destroy.views image).length =
        1 + (if image.ImageViewStorage ≠ VK_NULL_HANDLE then 1 else 0) +
          image.ImageViewForFramebuffer.flatten.countP (fun v => v ≠ VK_NULL_HANDLE) ∧
      c1.DeferredTasks.length = c.DeferredTasks.length +
        (1 + (if image.ImageViewStorage ≠ VK_NULL_HANDLE then 1 else 0) +
          image.ImageViewForFramebuffer.flatten.countP (fun v => v ≠ VK_NULL_HANDLE)) ∧
      c1.Executed = c.Executed ∧
      c1.VulkanCommandPool = c.VulkanCommandPool ∧
      c1.TexturePool.Get h = none := by
  refine ⟨_, VulkanContext.Destroy_of_Get hget, rfl, VulkanContext.Destroy.views_length image, ?_,
    rfl, rfl, VulkanTexturePool.Get_Destroy hget⟩
  simp only [List.length_append, List.length_map, VulkanContext.Destroy.views_length]

/-- C12, witness: the example texture has a storage view and one populated framebuffer view, so
its `Destroy` queues three tasks. -/
theorem C12_witness :
    exampleContext.TexturePool.Get { index := 3, gen := 1 } = some exampleTexture ∧
    ∃ c1, exampleContext.Destroy { index := 3, gen := 1 } = .ok c1 ∧
      c1.DeferredTasks = exampleContext.DeferredTasks ++
        (VulkanContext.Destroy.views exampleTexture).map (fun v =>
          { Task := .destroyImageView exampleContext.VulkanDevice v
            Handle := exampleContext.VulkanCommandPool.GetNextSubmitHandle }) ∧
      (VulkanContext.Destroy.views exampleTexture).length =
        1 + (if exampleTexture.ImageViewStorage ≠ VK_NULL_HANDLE then 1 else 0) +
          exampleTexture.ImageViewForFramebuffer.flatten.countP (fun v => v ≠ VK_NULL_HANDLE) ∧
      c1.DeferredTasks.length = exampleContext.DeferredTasks.length +
        (1 + (if exampleTexture.ImageViewStorage ≠ VK_NULL_HANDLE then 1 else 0) +
          exampleTexture.ImageViewForFramebuffer.flatten.countP (fun v => v ≠ VK_NULL_HANDLE)) ∧
      c1.Executed = exampleContext.Executed ∧
      c1.VulkanCommandPool = exampleContext.VulkanCommandPool ∧
      c1.TexturePool.Get { index := 3, gen := 1 } = none :=
  have hget : exampleContext.TexturePool.Get { index := 3, gen := 1 } = some exampleTexture := by
    decide!
  ⟨hget, C12_destroy_defers_views exampleContext _ _ hget⟩

/-- C13: on a pool reached from its construction by any calls, let an `AcquireCommandBuffer` hand
out slot `i` and let `h` be the handle that the `Submit` of that slot returns (the slot untouched
in between). Once the slot has been reset (it is free in some later state `q2`), in every state
`q3` reached afterwards, provided fewer than `2^32 - 1` submits were made since the acquire that
stamped `h` (the submit that returned `h` included): if the slot is in use again its stamped ID
differs from `h.ID`; `IsReady(h)` returns `true`, with or without the fast check; and `Wait(h)`
returns at once, leaving the pool as it is. -/
theorem C13_recycled_slot_is_ready (maxCommandBuffers : Nat) (cmd sem fence : Nat → Nat)
    (ops0 opsA ops1 ops2 : List PoolOp) (polls : List (Nat → Bool))
    (p p1 pA p2 q2 q3 : CommandPool) (i : Nat) (h : SubmitHandle)
    (h0 : (CommandPool.create maxCommandBuffers cmd sem fence).calls ops0 = .ok p)
    (ha : p.AcquireCommandBuffer polls = .ok (p1, i))
    (hA : p1.calls opsA = .ok pA)
    (hsame : pA.Buffers[i]? = p1.Buffers[i]?)
    (hs : pA.Submit i = .ok (p2, h))
    (h1 : p2.calls ops1 = .ok q2)
    (hreset : ∃ b, q2.Buffers[i]? = some b ∧ b.VulkanCommandBuffer = VK_NULL_HANDLE)
    (h2 : q2.calls ops2 = .ok q3)
    (hcount : PoolOp.submits opsA + 1 + PoolOp.submits ops1 + PoolOp.submits ops2 <
      2 ^ 32 - 1) :
    h = { BufferIndex := i, ID := p.SubmitCounter } ∧
    (∃ b, q3.Buffers[i]? = some b ∧
      (b.VulkanCommandBuffer ≠ VK_NULL_HANDLE → b.Handle.ID ≠ h.ID)) ∧
    (∀ (s : Nat → Bool) (fastCheck : Bool), q3.IsReady s h fastCheck = .ok true) ∧
    (∀ (fastCheckDefault : Bool) (poll later : Nat → Bool),
      q3.Wait fastCheckDefault poll later h = .ok q3) := by
  have hp : p.Stamped :=
    CommandPool.calls_Stamped (CommandPool.create_Stamped maxCommandBuffers cmd sem fence) h0
  obtain ⟨hcnt1, b1, hb1, hH⟩ := CommandPool.AcquireCommandBuffer_stamp hp ha
  obtain ⟨d, hd, _, hh, _, _, _, _, _, _, hcnt2, _, _⟩ := CommandPool.Submit_fields hs
  rw [hsame, hb1] at hd
  obtain rfl := Option.some.inj hd
  rw [hH] at hh
  have hcntA := CommandPool.calls_SubmitCounter hA
  have hcntq2 := CommandPool.calls_SubmitCounter h1
  rw [hcnt2, hcntA, hcnt1, ← Function.iterate_succ_apply' CommandPool.Submit.nextCounter,
    ← Function.iterate_add_apply] at hcntq2
  obtain ⟨b2, hb2, hnull⟩ := hreset
  have hrec2 : q2.Recycled i p.SubmitCounter
      (PoolOp.submits ops1 + (PoolOp.submits opsA).succ) :=
    ⟨by omega, hcntq2, b2, hb2, Or.inl hnull⟩
  obtain ⟨_, _, b3, hb3, hstate⟩ := CommandPool.calls_Recycled hrec2 h2
  have hdiff : b3.VulkanCommandBuffer ≠ VK_NULL_HANDLE → b3.Handle.ID ≠ h.ID := by
    intro hact
    rcases hstate with h0 | ⟨r, hr1, hrk, hid⟩
    · exact absurd h0 hact
    · rw [hid, hh]
      exact CommandPool.Submit.nextCounter_iterate_ne _ r hp.1.1 hp.1.2 hr1 (by omega)
  have hready : q3.readyFast h = true := by
    rw [CommandPool.readyFast_iff]
    right
    refine ⟨b3, by rw [hh]; exact hb3, ?_⟩
    by_cases hact : b3.VulkanCommandBuffer = VK_NULL_HANDLE
    · exact Or.inl hact
    · exact Or.inr (hdiff hact)
  exact ⟨hh, ⟨b3, hb3, hdiff⟩,
    fun s fastCheck => CommandPool.IsReady_of_readyFast s q3 h fastCheck hready,
    fun fastCheckDefault poll later =>
      CommandPool.Wait_of_readyFast fastCheckDefault poll later q3 h hready⟩

/-- C13, witness: on the example pool with two slots, slot 0 is acquired and submitted under the
handle (0, 1), slot 1 is acquired and submitted, slot 0 is reset and acquired again; it is then
stamped with the ID 3. -/
theorem C13_witness :
    recycleReacquired.Buffers[0]?.map (fun b => (b.VulkanCommandBuffer, b.Handle.ID)) =
      some (400, 3) ∧
    ({ BufferIndex := 0, ID := 1 } : SubmitHandle) =
      { BufferIndex := 0, ID := (examplePool 2).SubmitCounter } ∧
    (∃ b, recycleReacquired.Buffers[0]? = some b ∧
      (b.VulkanCommandBuffer ≠ VK_NULL_HANDLE →
        b.Handle.ID ≠ ({ BufferIndex := 0, ID := 1 } : SubmitHandle).ID)) ∧
    (∀ (s : Nat → Bool) (fastCheck : Bool),
      recycleReacquired.IsReady s { BufferIndex := 0, ID := 1 } fastCheck = .ok true) ∧
    (∀ (fastCheckDefault : Bool) (poll later : Nat → Bool),
      recycleReacquired.Wait fastCheckDefault poll later { BufferIndex := 0, ID := 1 } =
        .ok recycleReacquired) :=
  ⟨by decide!,
    C13_recycled_slot_is_ready 2 exampleCreation.commandBuffer exampleCreation.semaphore
      exampleCreation.fence [] [.waitSemaphore 300] recycleCalls [.acquireCommandBuffer []] []
      (examplePool 2) recycleAcquired recycleRecorded recycleSubmitted recycleReset
      recycleReacquired 0 { BufferIndex := 0, ID := 1 }
      (by decide!) (by decide!) (by decide!) (by decide!) (by decide!) (by decide!)
      ⟨{ VulkanCommandBuffer := 0, VulkanCommandBufferAllocated := 400,
         Handle := { BufferIndex := 0, ID := 1 }, Semaphore := 500, Fence := 600,
         isEncoding := false }, by decide!, by decide!⟩
      (by decide!) (by decide!)⟩

/-- C14 (amended): `AcquireLastSubmitSemaphore` returns the current last-submit semaphore and
leaves it empty, changing nothing else; called again when the semaphore is already consumed it
returns `VK_NULL_HANDLE` and changes nothing: there is no assertion in it. -/
theorem C14_AcquireLastSubmitSemaphore_exchanges (p : CommandPool) :
    p.AcquireLastSubmitSemaphore.2 = p.LastSubmitSemaphore.semaphore ∧
    p.AcquireLastSubmitSemaphore.1.LastSubmitSemaphore.semaphore = VK_NULL_HANDLE ∧
    p.AcquireLastSubmitSemaphore.1 =
      { p with LastSubmitSemaphore := { p.LastSubmitSemaphore with semaphore := VK_NULL_HANDLE } } ∧
    p.AcquireLastSubmitSemaphore.1.AcquireLastSubmitSemaphore =
      (p.AcquireLastSubmitSemaphore.1, VK_NULL_HANDLE) :=
  ⟨rfl, rfl, rfl, rfl⟩

/-- C14, counterexample to the claim as stated: after one submitted frame on the example pool the
first call returns the semaphore 500 of slot 0; the second call, with the semaphore already
consumed, returns normally, with `VK_NULL_HANDLE`. -/
theorem C14_counterexample_second_call_returns :
    exampleSubmittedPool.AcquireLastSubmitSemaphore.2 = 500 ∧
    exampleSubmittedPool.AcquireLastSubmitSemaphore.1.AcquireLastSubmitSemaphore.2 =
      VK_NULL_HANDLE ∧
    (exampleSubmittedPool.calls
      [.acquireLastSubmitSemaphore, .acquireLastSubmitSemaphore]).toOption.isSome = true := by
  decide!

/-- C15: on a pool with no free slot (the counter of available command buffers is 0 and every
slot is pending: active command buffer set, not encoding, its allocated command buffer not null),
with `polls` the fence statuses seen by the successive rounds of `TryResetCommandBuffers` and
fewer than `2^32` slots: if some round reports the fence of some slot
signalled, `AcquireCommandBuffer` returns; whenever it returns, the slot it hands out is one whose
fence was reported signalled by one of the rounds; and as long as no round reports a fence of the
pool signalled the loop is still spinning when the observations are used up. -/
theorem C15_acquire_returns_signalled_slot (p : CommandPool) (polls : List (Nat → Bool))
    (hN : p.NumberOfAvailableCommandBuffers = 0) (hlen : p.MaxCommandBuffers < 2 ^ 32)
    (hfull : ∀ b, b ∈ p.Buffers → b.VulkanCommandBuffer ≠ VK_NULL_HANDLE ∧
      b.isEncoding = false ∧ b.VulkanCommandBufferAllocated ≠ VK_NULL_HANDLE) :
    ((∃ s, s ∈ polls ∧ ∃ b, b ∈ p.Buffers ∧ s b.Fence = true) →
      ∃ p3 i, p.AcquireCommandBuffer polls = .ok (p3, i)) ∧
    (∀ p3 i, p.AcquireCommandBuffer polls = .ok (p3, i) →
      ∃ b s, p.Buffers[i]? = some b ∧ s ∈ polls ∧ s b.Fence = true) ∧
    ((∀ s, s ∈ polls → ∀ b, b ∈ p.Buffers → s b.Fence = false) →
      p.AcquireCommandBuffer polls = .error .spinning) := by
  have hquiet : (∀ s, s ∈ polls → ∀ b, b ∈ p.Buffers → s b.Fence = false) →
      p.AcquireCommandBuffer polls = .error .spinning := by
    intro hq
    apply CommandPool.AcquireCommandBuffer_of_spin_error
    apply CommandPool.AcquireCommandBuffer.spin_quiet hN
    intro s hs b hb
    simp [CommandPool.TryResetCommandBuffers.resets, hq s hs b hb]
  by_cases hex : ∃ s, s ∈ polls ∧ ∃ b, b ∈ p.Buffers ∧ s b.Fence = true
  · obtain ⟨pre, s, post, hl, hs, hpre⟩ :=
      exists_first_of_exists (fun s => ∃ b, b ∈ p.Buffers ∧ s b.Fence = true) polls hex
    have hq : ∀ t, t ∈ pre → ∀ b, b ∈ p.Buffers → t b.Fence = false := by
      intro t ht b hb
      cases htb : t b.Fence with
      | false => rfl
      | true => exact absurd ⟨b, hb, htb⟩ (hpre t ht)
    obtain ⟨p3, i, b, hacq, hb, hsb, _⟩ :=
      CommandPool.AcquireCommandBuffer_first_signalled post hN hlen hfull hq hs
    rw [← hl] at hacq
    refine ⟨fun _ => ⟨p3, i, hacq⟩, ?_, hquiet⟩
    intro p4 j hacq4
    rw [hacq] at hacq4
    obtain ⟨_, rfl⟩ := Prod.mk.inj (Except.ok.inj hacq4)
    exact ⟨b, s, hb, by rw [hl]; simp, hsb⟩
  · have hq : ∀ s, s ∈ polls → ∀ b, b ∈ p.Buffers → s b.Fence = false := by
      intro s hs b hb
      cases hsb : s b.Fence with
      | false => rfl
      | true => exact absurd ⟨s, hs, b, hb, hsb⟩ hex
    refine ⟨fun h => absurd h hex, ?_, hquiet⟩
    intro p3 i hacq
    rw [hquiet hq] at hacq
    exact Except.noConfusion hacq

/-- C15, witness: on the example pool with two slots, after two frames have been submitted both
slots are pending; a third acquire whose first round sees no fence signalled and whose second
round sees the fence 600 of slot 0 signalled hands out slot 0. -/
theorem C15_witness :
    (exampleFullPool.NumberOfAvailableCommandBuffers = 0 ∧
      exampleFullPool.MaxCommandBuffers < 2 ^ 32 ∧
      (∀ b, b ∈ exampleFullPool.Buffers → b.VulkanCommandBuffer ≠ VK_NULL_HANDLE ∧
        b.isEncoding = false ∧ b.VulkanCommandBufferAllocated ≠ VK_NULL_HANDLE)) ∧
    (exampleFullPool.AcquireCommandBuffer
      [fun _ => false, fun f => f == 600]).toOption.map (fun r => r.2) = some 0 ∧
    (((∃ s, s ∈ [fun _ => false, fun f => f == 600] ∧
        ∃ b, b ∈ exampleFullPool.Buffers ∧ s b.Fence = true) →
      ∃ p3 i, exampleFullPool.AcquireCommandBuffer [fun _ => false, fun f => f == 600] =
        .ok (p3, i)) ∧
    (∀ p3 i, exampleFullPool.AcquireCommandBuffer [fun _ => false, fun f => f == 600] =
        .ok (p3, i) →
      ∃ b s, exampleFullPool.Buffers[i]? = some b ∧ s ∈ [fun _ => false, fun f => f == 600] ∧
        s b.Fence = true) ∧
    ((∀ s, s ∈ [fun _ => false, fun f => f == 600] → ∀ b, b ∈ exampleFullPool.Buffers →
        s b.Fence = false) →
      exampleFullPool.AcquireCommandBuffer [fun _ => false, fun f => f == 600] =
        .error .spinning)) :=
  have hN : exampleFullPool.NumberOfAvailableCommandBuffers = 0 := by decide!
  have hlen : exampleFullPool.MaxCommandBuffers < 2 ^ 32 := by decide!
  have hfull : ∀ b, b ∈ exampleFullPool.Buffers → b.VulkanCommandBuffer ≠ VK_NULL_HANDLE ∧
      b.isEncoding = false ∧ b.VulkanCommandBufferAllocated ≠ VK_NULL_HANDLE := by decide!
  ⟨⟨hN, hlen, hfull⟩, by decide!,
    C15_acquire_returns_signalled_slot exampleFullPool [fun _ => false, fun f => f == 600]
      hN hlen hfull⟩

/-- C16: on a non-empty list `GetSwapChainFormat` returns an entry of the list, at some index
`i`. The preferred pair is (`VK_FORMAT_R8G8B8A8_SRGB`, `VK_COLOR_SPACE_SRGB_NONLINEAR_KHR`), or
(`VK_FORMAT_R8G8B8A8_UNORM`, `VK_COLOR_SPACE_BT709_LINEAR_EXT`) when `SRGB_Linear` is asked for.
The entry returned is the first one equal to the preferred pair (no entry before index `i` equals
it, whatever its format); or, when no entry equals the pair, the first one with the preferred
format; or, when no entry has the preferred format, the entry of index 0. -/
theorem C16_GetSwapChainFormat_choice (availableFormats : List VkSurfaceFormatKHR)
    (desiredColorSpace : ColorSpace) (hne : availableFormats ≠ []) :
    VulkanSwapChain.GetSwapChainFormat.preferred .SRGB_NonLinear =
      { format := VK_FORMAT_R8G8B8A8_SRGB, colorSpace := VK_COLOR_SPACE_SRGB_NONLINEAR_KHR } ∧
    VulkanSwapChain.GetSwapChainFormat.preferred .SRGB_Linear =
      { format := VK_FORMAT_R8G8B8A8_UNORM, colorSpace := VK_COLOR_SPACE_BT709_LINEAR_EXT } ∧
    ∃ fmt i, VulkanSwapChain.GetSwapChainFormat availableFormats desiredColorSpace = .ok fmt ∧
      availableFormats[i]? = some fmt ∧
      ((fmt = VulkanSwapChain.GetSwapChainFormat.preferred desiredColorSpace ∧
          ∀ j : Nat, j < i → ∀ g : VkSurfaceFormatKHR, availableFormats[j]? = some g →
            g ≠ VulkanSwapChain.GetSwapChainFormat.preferred desiredColorSpace) ∨
        ((∀ g : VkSurfaceFormatKHR, g ∈ availableFormats →
            g ≠ VulkanSwapChain.GetSwapChainFormat.preferred desiredColorSpace) ∧
          fmt.format = (VulkanSwapChain.GetSwapChainFormat.preferred desiredColorSpace).format ∧
          ∀ j : Nat, j < i → ∀ g : VkSurfaceFormatKHR, availableFormats[j]? = some g →
            g.format ≠ (VulkanSwapChain.GetSwapChainFormat.preferred desiredColorSpace).format) ∨
        ((∀ g : VkSurfaceFormatKHR, g ∈ availableFormats →
            g.format ≠ (VulkanSwapChain.GetSwapChainFormat.preferred desiredColorSpace).format) ∧
          i = 0)) :=
  ⟨rfl, rfl, VulkanSwapChain.GetSwapChainFormat_spec availableFormats desiredColorSpace hne⟩

/-- C16, witness: in `exampleFormats` the entry of index 0 has the preferred format with another
colour space and the entry of index 2 is the preferred pair; the entry of index 2 is returned. -/
theorem C16_witness :
    exampleFormats ≠ [] ∧
    VulkanSwapChain.GetSwapChainFormat exampleFormats .SRGB_NonLinear =
      .ok { format := 43, colorSpace := 0 } ∧
    (VulkanSwapChain.GetSwapChainFormat.preferred .SRGB_NonLinear =
      { format := VK_FORMAT_R8G8B8A8_SRGB, colorSpace := VK_COLOR_SPACE_SRGB_NONLINEAR_KHR } ∧
    VulkanSwapChain.GetSwapChainFormat.preferred .SRGB_Linear =
      { format := VK_FORMAT_R8G8B8A8_UNORM, colorSpace := VK_COLOR_SPACE_BT709_LINEAR_EXT } ∧
    ∃ fmt i, VulkanSwapChain.GetSwapChainFormat exampleFormats .SRGB_NonLinear = .ok fmt ∧
      exampleFormats[i]? = some fmt ∧
      ((fmt = VulkanSwapChain.GetSwapChainFormat.preferred .SRGB_NonLinear ∧
          ∀ j : Nat, j < i → ∀ g : VkSurfaceFormatKHR, exampleFormats[j]? = some g →
            g ≠ VulkanSwapChain.GetSwapChainFormat.preferred .SRGB_NonLinear) ∨
        ((∀ g : VkSurfaceFormatKHR, g ∈ exampleFormats →
            g ≠ VulkanSwapChain.GetSwapChainFormat.preferred .SRGB_NonLinear) ∧
          fmt.format = (VulkanSwapChain.GetSwapChainFormat.preferred .SRGB_NonLinear).format ∧
          ∀ j : Nat, j < i → ∀ g : VkSurfaceFormatKHR, exampleFormats[j]? = some g →
            g.format ≠ (VulkanSwapChain.GetSwapChainFormat.preferred .SRGB_NonLinear).format) ∨
        ((∀ g : VkSurfaceFormatKHR, g ∈ exampleFormats →
            g.format ≠ (VulkanSwapChain.GetSwapChainFormat.preferred .SRGB_NonLinear).format) ∧
          i = 0))) :=
  ⟨by decide, by decide!, C16_GetSwapChainFormat_choice exampleFormats .SRGB_NonLinear (by decide)⟩

/-- C17: what the constructor computes, for all values of the two flag words: the colour
attachment, transfer-source and transfer-destination bits are always set, and the storage bit is
added iff the surface's supported usage flags contain the storage bit and bit 0 of the format's
optimal-tiling features is set. Bit 0 is `VK_FORMAT_FEATURE_SAMPLED_IMAGE_BIT`, so a format that
can be sampled but not used as a storage image gets the storage usage (first evaluation), and a
format that has the storage-image feature but not the sampled-image one does not (second
evaluation). -/
theorem C17_storage_usage_follows_bit_zero :
    (∀ supportedUsageFlags optimalTilingFeatures : Nat,
      VulkanSwapChain.usageFlags supportedUsageFlags optimalTilingFeatures =
        if (u32 supportedUsageFlags &&& VK_IMAGE_USAGE_STORAGE_BIT) ≠ 0 ∧
            u32 optimalTilingFeatures % 2 = 1 then
          VK_IMAGE_USAGE_COLOR_ATTACHMENT_BIT ||| VK_IMAGE_USAGE_TRANSFER_DST_BIT |||
            VK_IMAGE_USAGE_TRANSFER_SRC_BIT ||| VK_IMAGE_USAGE_STORAGE_BIT
        else
          VK_IMAGE_USAGE_COLOR_ATTACHMENT_BIT ||| VK_IMAGE_USAGE_TRANSFER_DST_BIT |||
            VK_IMAGE_USAGE_TRANSFER_SRC_BIT) ∧
    (VK_FORMAT_FEATURE_SAMPLED_IMAGE_BIT &&& VK_FORMAT_FEATURE_STORAGE_IMAGE_BIT = 0 ∧
      VulkanSwapChain.usageFlags VK_IMAGE_USAGE_STORAGE_BIT VK_FORMAT_FEATURE_SAMPLED_IMAGE_BIT &&&
        VK_IMAGE_USAGE_STORAGE_BIT = VK_IMAGE_USAGE_STORAGE_BIT) ∧
    ((VK_FORMAT_FEATURE_STORAGE_IMAGE_BIT ||| 0x8) &&& VK_FORMAT_FEATURE_STORAGE_IMAGE_BIT ≠ 0 ∧
      VulkanSwapChain.usageFlags VK_IMAGE_USAGE_STORAGE_BIT
        (VK_FORMAT_FEATURE_STORAGE_IMAGE_BIT ||| 0x8) &&& VK_IMAGE_USAGE_STORAGE_BIT = 0) :=
  ⟨VulkanSwapChain.usageFlags_eq, by decide!, by decide!⟩

/-- C18: whenever the constructor of `VulkanSwapChain` returns, `NumberOfSwapChainImages` is the
number of images of the swapchain, at least 1 and at most `MAX_IMAGES`, and `AcquireSemaphores`,
`Textures` and `TimelineWaitValues` each have `NumberOfSwapChainImages` entries. The creation
request carries the surface's `minImageCount` as it is; when that is more than `MAX_IMAGES` and
the swapchain has at least the images that were asked for, the constructor does not return: the
second `vkGetSwapchainImagesKHR` is handed `MAX_IMAGES` entries for more images and `VK_ASSERT`
ends the run. Evaluated for a surface that asks for three images with `MAX_IMAGES = 2`
(construction fails) and with `MAX_IMAGES = 16` (three images, three entries in each vector). -/
theorem C18_clamped_construction_does_not_return :
    (∀ (support : SwapChainSupport) (desiredColorSpace : ColorSpace) (d : ContextCreation)
        (createInfo : VkSwapchainCreateInfoKHR) (sc : VulkanSwapChain)
        (pool : VulkanTexturePool),
      VulkanSwapChain.construct support desiredColorSpace d = .ok (createInfo, sc, pool) →
      sc.NumberOfSwapChainImages = u32 d.swapChainImageCount ∧
      sc.NumberOfSwapChainImages ≤ d.MAX_IMAGES ∧
      0 < sc.NumberOfSwapChainImages ∧
      sc.AcquireSemaphores.length = sc.NumberOfSwapChainImages ∧
      sc.Textures.length = sc.NumberOfSwapChainImages ∧
      sc.TimelineWaitValues.length = sc.NumberOfSwapChainImages ∧
      createInfo.minImageCount = support.minImageCount) ∧
    (∀ (support : SwapChainSupport) (desiredColorSpace : ColorSpace) (d : ContextCreation),
      d.MAX_IMAGES < support.minImageCount →
      support.minImageCount ≤ u32 d.swapChainImageCount →
      ∀ r, VulkanSwapChain.construct support desiredColorSpace d ≠ .ok r) ∧
    (exampleClampedCreation.MAX_IMAGES = 2 ∧
      (VulkanSwapChain.createInfo exampleSupport .SRGB_NonLinear).toOption.map
        (fun createInfo => createInfo.minImageCount) = some 3 ∧
      u32 exampleClampedCreation.swapChainImageCount = 3 ∧
      VulkanSwapChain.construct exampleSupport .SRGB_NonLinear exampleClampedCreation =
        .error .driverCallFailed) ∧
    (exampleCreation.MAX_IMAGES = 16 ∧
      (VulkanSwapChain.construct exampleSupport .SRGB_NonLinear exampleCreation).toOption.map
        (fun r => (r.1.minImageCount, r.2.1.NumberOfSwapChainImages,
          r.2.1.AcquireSemaphores.length, r.2.1.Textures.length,
          r.2.1.TimelineWaitValues.length)) = some (3, 3, 3, 3, 3)) := by
  refine ⟨?_, ?_, by decide!, by decide!⟩
  · intro support desiredColorSpace d createInfo sc pool h
    exact VulkanSwapChain.construct_counts h
  · intro support desiredColorSpace d hmax hdriver r
    exact VulkanSwapChain.construct_incomplete (by omega) r

/-- C19: what `CreateVulkanInstance` leaves in `Configuration.enableValidationLayers` is whether
the validation layer is among the enumerated layers, whatever the caller asked for; a caller who
asked for `false` on a system that has the layer ends with `true`. -/
theorem C19_enableValidationLayers_is_foundLayer :
    (∀ (validationLayer : String) (platform : SurfacePlatform)
        (layerProperties allInstanceExtensions : List String) (Configuration : ContextConfiguration),
      (VulkanContext.CreateVulkanInstance validationLayer platform layerProperties
        allInstanceExtensions Configuration).1.enableValidationLayers =
          decide (validationLayer ∈ layerProperties)) ∧
    (VulkanContext.CreateVulkanInstance exampleValidationLayer .x11
      ["VK_LAYER_MESA_overlay", exampleValidationLayer] exampleInstanceExtensions
      { enableValidationLayers := false }).1.enableValidationLayers = true := by
  refine ⟨?_, by decide!⟩
  intro validationLayer platform layerProperties allInstanceExtensions Configuration
  unfold VulkanContext.CreateVulkanInstance
  simp only []
  rw [Bool.eq_iff_iff]
  simp [VulkanContext.CreateVulkanInstance.foundLayer_iff]

/-- C20: the request that `CreateVulkanInstance` hands to `vkCreateInstance` always names the
validation layer as its one enabled layer, also when the layer is not among the enumerated ones
(evaluated on a system that enumerates one other layer). The enabled extensions are the requested
names that are enumerated, in request order. -/
theorem C20_validation_layer_always_enabled :
    (∀ (validationLayer : String) (platform : SurfacePlatform)
        (layerProperties allInstanceExtensions : List String) (Configuration : ContextConfiguration),
      (VulkanContext.CreateVulkanInstance validationLayer platform layerProperties
        allInstanceExtensions Configuration).2.enabledLayerNames = [validationLayer] ∧
      (VulkanContext.CreateVulkanInstance validationLayer platform layerProperties
        allInstanceExtensions Configuration).2.enabledExtensionNames =
          (VulkanContext.CreateVulkanInstance.instanceExtensionNames
            (decide (validationLayer ∈ layerProperties)) platform).filter
              fun name => name ∈ allInstanceExtensions) ∧
    exampleValidationLayer ∉ ["VK_LAYER_MESA_overlay"] ∧
    (VulkanContext.CreateVulkanInstance exampleValidationLayer .x11 ["VK_LAYER_MESA_overlay"]
      exampleInstanceExtensions { enableValidationLayers := true }).2 =
        { enabledLayerNames := [exampleValidationLayer]
          enabledExtensionNames := ["VK_KHR_surface", "VK_KHR_xlib_surface"]
          enabledValidationFeatures := [] } := by
  refine ⟨?_, by decide!, by decide!⟩
  intro validationLayer platform layerProperties allInstanceExtensions Configuration
  unfold VulkanContext.CreateVulkanInstance
  simp only [VulkanContext.CreateVulkanInstance.availableInstanceExtensionNames_eq, true_and]
  congr 2
  rw [Bool.eq_iff_iff]
  simp [VulkanContext.CreateVulkanInstance.foundLayer_iff]

/-- C21: `Submit` of a slot that is encoding returns the slot's handle and makes one queue
submission of the slot's command buffer with its fence. The wait list of that submission is the
pending wait semaphore, if set, followed by the last-submit semaphore, if set (at most two
entries); its signal list is the slot's own semaphore followed by the pending signal, if set (one
or two entries). Afterwards the pending wait and the pending signal are empty, the last-submit
semaphore and handle are those of the slot, and the slot is the same slot, no longer encoding. -/
theorem C21_Submit_wait_and_signal_lists (p : CommandPool) (data : Nat) (d : CommandBufferData)
    (hd : p.Buffers[data]? = some d) (he : d.isEncoding = true) :
    ∃ p2 info, p.Submit data = .ok (p2, d.Handle) ∧
      p2.Queue = p.Queue ++ [info] ∧
      info.waits =
        (if p.WaitOnSemaphore.semaphore ≠ VK_NULL_HANDLE then [p.WaitOnSemaphore] else []) ++
        (if p.LastSubmitSemaphore.semaphore ≠ VK_NULL_HANDLE then [p.LastSubmitSemaphore]
          else []) ∧
      info.waits.length ≤ 2 ∧
      info.signals =
        { semaphore := d.Semaphore, value := 0 } ::
          (if p.SignalSemaphore.semaphore ≠ VK_NULL_HANDLE then [p.SignalSemaphore] else []) ∧
      1 ≤ info.signals.length ∧ info.signals.length ≤ 2 ∧
      info.commandBuffer = d.VulkanCommandBuffer ∧ info.fence = d.Fence ∧
      p2.WaitOnSemaphore.semaphore = VK_NULL_HANDLE ∧
      p2.SignalSemaphore.semaphore = VK_NULL_HANDLE ∧
      p2.LastSubmitSemaphore.semaphore = d.Semaphore ∧
      p2.LastSubmitHandle = d.Handle ∧
      p2.Buffers[data]? = some { d with isEncoding := false } ∧
      (∀ j, j ≠ data → p2.Buffers[j]? = p.Buffers[j]?) := by
  obtain ⟨p2, hs⟩ := CommandPool.Submit_of_encoding hd he
  obtain ⟨d1, hd1, _, _, hbufs, hq, hls, hlh, hw, hsig, _, _, _⟩ := CommandPool.Submit_fields hs
  rw [hd] at hd1
  obtain rfl := Option.some.inj hd1
  refine ⟨p2, _, hs, hq, rfl, ?_, rfl, ?_, ?_, rfl, rfl, hw, hsig, hls, hlh, ?_, ?_⟩
  · simp only [CommandPool.Submit.waits]
    split <;> split <;> simp
  · simp [CommandPool.Submit.signals]
  · simp only [CommandPool.Submit.signals]
    split <;> simp
  · rw [hbufs]
    exact List.getElem?_set_self (lt_length_of_getElem? hd)
  · intro j hj
    rw [hbufs]
    exact List.getElem?_set_ne (Ne.symm hj)

/-- C21, witness: on the example pool slot 0 is encoding and the acquire semaphore 300 is the
pending wait; its submit waits on 300 and signals the slot's semaphore 500. -/
theorem C21_witness :
    (recycleRecorded.Buffers[0]? =
      some { VulkanCommandBuffer := 400, VulkanCommandBufferAllocated := 400,
             Handle := { BufferIndex := 0, ID := 1 }, Semaphore := 500, Fence := 600,
             isEncoding := true }) ∧
    (recycleRecorded.Submit 0).toOption.map (fun r => r.1.Queue) =
      some [{ waits := [{ semaphore := 300, value := 0 }], commandBuffer := 400,
              signals := [{ semaphore := 500, value := 0 }], fence := 600 }] ∧
    ∃ p2 info, recycleRecorded.Submit 0 = .ok (p2, { BufferIndex := 0, ID := 1 }) ∧
      p2.Queue = recycleRecorded.Queue ++ [info] ∧
      info.waits =
        (if recycleRecorded.WaitOnSemaphore.semaphore ≠ VK_NULL_HANDLE then
          [recycleRecorded.WaitOnSemaphore] else []) ++
        (if recycleRecorded.LastSubmitSemaphore.semaphore ≠ VK_NULL_HANDLE then
          [recycleRecorded.LastSubmitSemaphore] else []) ∧
      info.waits.length ≤ 2 ∧
      info.signals =
        { semaphore := 500, value := 0 } ::
          (if recycleRecorded.SignalSemaphore.semaphore ≠ VK_NULL_HANDLE then
            [recycleRecorded.SignalSemaphore] else []) ∧
      1 ≤ info.signals.length ∧ info.signals.length ≤ 2 ∧
      info.commandBuffer = 400 ∧ info.fence = 600 ∧
      p2.WaitOnSemaphore.semaphore = VK_NULL_HANDLE ∧
      p2.SignalSemaphore.semaphore = VK_NULL_HANDLE ∧
      p2.LastSubmitSemaphore.semaphore = 500 ∧
      p2.LastSubmitHandle = { BufferIndex := 0, ID := 1 } ∧
      p2.Buffers[0]? =
        some { VulkanCommandBuffer := 400, VulkanCommandBufferAllocated := 400,
               Handle := { BufferIndex := 0, ID := 1 }, Semaphore := 500, Fence := 600,
               isEncoding := false } ∧
      (∀ j, j ≠ 0 → p2.Buffers[j]? = recycleRecorded.Buffers[j]?) :=
  have hd : recycleRecorded.Buffers[0]? =
      some { VulkanCommandBuffer := 400, VulkanCommandBufferAllocated := 400,
             Handle := { BufferIndex := 0, ID := 1 }, Semaphore := 500, Fence := 600,
             isEncoding := true } := by decide!
  ⟨hd, by decide!, C21_Submit_wait_and_signal_lists recycleRecorded 0 _ hd rfl⟩

/-- C22: one call of `TryResetCommandBuffers` with the fence statuses `s`. A slot that is not
encoding, has an active command buffer and whose fence is signalled becomes the same slot with the
active command buffer null; every other slot is unchanged; the counter of available command
buffers grows by the number of slots reset (as long as that does not overflow 32 bits); the
handles, the submission counter, the pending wait and signal and the rest of the pool are
unchanged. The result depends on `s` through the fences of the slots only, and a second call that
sees no fence signalled that the first did not see signalled changes nothing. -/
theorem C22_TryResetCommandBuffers_effect (p : CommandPool) (s : Nat → Bool) :
    (∀ (i : Nat) (b : CommandBufferData), p.Buffers[i]? = some b →
      (b.isEncoding = false ∧ b.VulkanCommandBuffer ≠ VK_NULL_HANDLE ∧ s b.Fence = true →
        (p.TryResetCommandBuffers s).Buffers[i]? =
          some { b with VulkanCommandBuffer := VK_NULL_HANDLE }) ∧
      (¬(b.isEncoding = false ∧ b.VulkanCommandBuffer ≠ VK_NULL_HANDLE ∧ s b.Fence = true) →
        (p.TryResetCommandBuffers s).Buffers[i]? = some b)) ∧
    (p.TryResetCommandBuffers s).Buffers.length = p.Buffers.length ∧
    (p.NumberOfAvailableCommandBuffers +
        p.Buffers.countP (fun b => b.isEncoding = false ∧
          b.VulkanCommandBuffer ≠ VK_NULL_HANDLE ∧ s b.Fence = true) < 2 ^ 32 →
      (p.TryResetCommandBuffers s).NumberOfAvailableCommandBuffers =
        p.NumberOfAvailableCommandBuffers +
          p.Buffers.countP (fun b => b.isEncoding = false ∧
            b.VulkanCommandBuffer ≠ VK_NULL_HANDLE ∧ s b.Fence = true)) ∧
    (p.TryResetCommandBuffers s).SubmitCounter = p.SubmitCounter ∧
    (p.TryResetCommandBuffers s).WaitOnSemaphore = p.WaitOnSemaphore ∧
    (p.TryResetCommandBuffers s).SignalSemaphore = p.SignalSemaphore ∧
    (p.TryResetCommandBuffers s).LastSubmitSemaphore = p.LastSubmitSemaphore ∧
    (p.TryResetCommandBuffers s).LastSubmitHandle = p.LastSubmitHandle ∧
    (p.TryResetCommandBuffers s).NextSubmitHandle = p.NextSubmitHandle ∧
    (p.TryResetCommandBuffers s).Queue = p.Queue ∧
    (∀ s1 : Nat → Bool, (∀ b, b ∈ p.Buffers → s1 b.Fence = s b.Fence) →
      p.TryResetCommandBuffers s1 = p.TryResetCommandBuffers s) ∧
    (∀ s2 : Nat → Bool, (∀ b, b ∈ p.Buffers → s2 b.Fence = true → s b.Fence = true) →
      (p.TryResetCommandBuffers s).TryResetCommandBuffers s2 = p.TryResetCommandBuffers s) := by
  have hcount : p.Buffers.countP (fun b => decide (b.isEncoding = false ∧
      b.VulkanCommandBuffer ≠ VK_NULL_HANDLE ∧ s b.Fence = true)) =
      p.Buffers.countP (CommandPool.TryResetCommandBuffers.resets s) := by
    apply List.countP_congr
    intro b _
    simp only [decide_eq_true_eq]
    exact (CommandPool.TryResetCommandBuffers.resets_iff s b).symm
  refine ⟨?_, ?_, ?_, rfl, rfl, rfl, rfl, rfl, rfl, rfl, ?_, ?_⟩
  · intro i b hb
    have hi : (p.TryResetCommandBuffers s).Buffers[i]? =
        some (CommandPool.TryResetCommandBuffers.slot s b) := by
      rw [CommandPool.TryResetCommandBuffers_Buffers, List.getElem?_map, hb]
      rfl
    constructor
    · intro h
      rw [hi, CommandPool.TryResetCommandBuffers.slot_of_resets
        ((CommandPool.TryResetCommandBuffers.resets_iff s b).mpr h)]
    · intro h
      have hr : CommandPool.TryResetCommandBuffers.resets s b = false := by
        cases hr : CommandPool.TryResetCommandBuffers.resets s b with
        | false => rfl
        | true => exact absurd ((CommandPool.TryResetCommandBuffers.resets_iff s b).mp hr) h
      rw [hi, CommandPool.TryResetCommandBuffers.slot_of_not_resets hr]
  · rw [CommandPool.TryResetCommandBuffers_Buffers, List.length_map]
  · intro hn
    rw [hcount] at hn ⊢
    exact CommandPool.TryResetCommandBuffers_counter s p hn
  · intro s1 h1
    unfold CommandPool.TryResetCommandBuffers
    simp only [CommandPool.TryResetCommandBuffers.loop_congr s s1 p.Buffers _ h1]
  · intro s2 h2
    exact CommandPool.TryResetCommandBuffers_twice s s2 p h2

/-- C22, witness: on the example pool with both slots pending, a round that sees the fence 600 of
slot 0 signalled frees slot 0, leaves slot 1 as it is and makes one command buffer available. -/
theorem C22_witness :
    ((exampleFullPool.TryResetCommandBuffers fun f => f == 600).Buffers.map
      fun b => b.VulkanCommandBuffer) = [0, 401] ∧
    exampleFullPool.NumberOfAvailableCommandBuffers = 0 ∧
    (exampleFullPool.TryResetCommandBuffers
      fun f => f == 600).NumberOfAvailableCommandBuffers = 1 ∧
    (exampleFullPool.TryResetCommandBuffers fun f => f == 600).Buffers.length =
      exampleFullPool.Buffers.length ∧
    (exampleFullPool.TryResetCommandBuffers fun f => f == 600).SubmitCounter =
      exampleFullPool.SubmitCounter :=
  ⟨by decide!, by decide!, by decide!,
    (C22_TryResetCommandBuffers_effect exampleFullPool fun f => f == 600).2.1,
    (C22_TryResetCommandBuffers_effect exampleFullPool fun f => f == 600).2.2.2.1⟩

/-- C23 (amended): when the get-next-image flag is set (and the pool has no pending wait),
`GetAndWaitOnNextImage` acquires the next image with the acquire semaphore found at the index
that `CurrentImageIndex` holds when the call is made, before the acquire overwrites it; it stores
the acquired index in `CurrentImageIndex`, registers that same semaphore as the pending wait of
the command pool and clears the flag. When the flag is not set the call changes no state. -/
theorem C23_acquire_semaphore_at_current_index (sc : VulkanSwapChain) (pool : CommandPool)
    (acquired : Nat) :
    (sc.GetNextImage = true →
      pool.WaitOnSemaphore.semaphore = VK_NULL_HANDLE →
      ∀ waitValue acquireSemaphore,
        sc.TimelineWaitValues[sc.CurrentImageIndex]? = some waitValue →
        sc.AcquireSemaphores[sc.CurrentImageIndex]? = some acquireSemaphore →
        sc.GetAndWaitOnNextImage acquired pool = .ok
          ({ sc with
              Waited := sc.Waited ++ [waitValue]
              Acquired := sc.Acquired ++ [(acquireSemaphore, acquired)]
              CurrentImageIndex := acquired
              GetNextImage := false },
            { pool with
              WaitOnSemaphore := { pool.WaitOnSemaphore with semaphore := acquireSemaphore } })) ∧
    (sc.GetNextImage = false → sc.GetAndWaitOnNextImage acquired pool = .ok (sc, pool)) := by
  constructor
  · intro hflag hw waitValue acquireSemaphore hv hsem
    unfold VulkanSwapChain.GetAndWaitOnNextImage
    simp [hflag, hv, hsem, CommandPool.WaitSemaphore, CHECK, hw, bind, Except.bind, pure,
      Except.pure]
  · intro hflag
    unfold VulkanSwapChain.GetAndWaitOnNextImage
    simp [hflag]

/-- C23, counterexample to the claim as stated: on the fresh example swapchain
(`CurrentImageIndex = 0`, acquire semaphores 300, 301, 302) a call whose acquire returns image 1
uses and registers the semaphore 300 of index 0, not the semaphore 301 of the incoming image. -/
theorem C23_counterexample_semaphore_of_previous_index :
    exampleSwapChain.GetNextImage = true ∧
    exampleSwapChain.CurrentImageIndex = 0 ∧
    exampleSwapChain.AcquireSemaphores = [300, 301, 302] ∧
    (exampleSwapChain.GetAndWaitOnNextImage 1 (examplePool 2)).toOption.map
      (fun r => (r.1.CurrentImageIndex, r.1.Acquired, r.2.WaitOnSemaphore.semaphore)) =
      some (1, [(300, 1)], 300) := by
  decide!

/-- C23, witness: the call of the counterexample, and the same call with the flag cleared. -/
theorem C23_witness :
    (exampleSwapChain.GetNextImage = true →
      (examplePool 2).WaitOnSemaphore.semaphore = VK_NULL_HANDLE →
      ∀ waitValue acquireSemaphore,
        exampleSwapChain.TimelineWaitValues[exampleSwapChain.CurrentImageIndex]? =
          some waitValue →
        exampleSwapChain.AcquireSemaphores[exampleSwapChain.CurrentImageIndex]? =
          some acquireSemaphore →
        exampleSwapChain.GetAndWaitOnNextImage 1 (examplePool 2) = .ok
          ({ exampleSwapChain with
              Waited := exampleSwapChain.Waited ++ [waitValue]
              Acquired := exampleSwapChain.Acquired ++ [(acquireSemaphore, 1)]
              CurrentImageIndex := 1
              GetNextImage := false },
            { examplePool 2 with
              WaitOnSemaphore :=
                { (examplePool 2).WaitOnSemaphore with semaphore := acquireSemaphore } })) ∧
    exampleSwapChain.GetNextImage = true ∧
    (examplePool 2).WaitOnSemaphore.semaphore = VK_NULL_HANDLE ∧
    exampleSwapChain.TimelineWaitValues[exampleSwapChain.CurrentImageIndex]? = some 0 ∧
    exampleSwapChain.AcquireSemaphores[exampleSwapChain.CurrentImageIndex]? = some 300 :=
  ⟨(C23_acquire_semaphore_at_current_index exampleSwapChain (examplePool 2) 1).1,
    by decide!, by decide!, by decide!, by decide!⟩

/-- C24: in every state `q` of a pool reached from its construction (fewer than `2^32` slots, the
driver having allocated a command buffer for each) through calls of `AcquireCommandBuffer`,
`Submit`, `TryResetCommandBuffers`, `Wait`, `WaitAll` and the other pool calls:
`NumberOfAvailableCommandBuffers` is the number of slots whose active command buffer is null, so
it is at most `MaxCommandBuffers`; every encoding slot has an active command buffer; when the
counter is not 0 the search of `AcquireCommandBuffer` finds a free slot, the acquire returns it and
the counter goes down by one; and whatever `AcquireCommandBuffer` observes, it returns or is still
spinning (no "No command buffers where available" check fails), and when it returns the counter
it leaves is below the number of slots (the decrement did not wrap). -/
theorem C24_available_counter_is_free_count (maxCommandBuffers : Nat) (cmd sem fence : Nat → Nat)
    (ops : List PoolOp) (q : CommandPool)
    (hmax : maxCommandBuffers < 2 ^ 32)
    (hcmd : ∀ i, i < maxCommandBuffers → cmd i ≠ VK_NULL_HANDLE)
    (hrun : (CommandPool.create maxCommandBuffers cmd sem fence).calls ops = .ok q) :
    q.NumberOfAvailableCommandBuffers =
      q.Buffers.countP (fun b => b.VulkanCommandBuffer = VK_NULL_HANDLE) ∧
    (∀ b, b ∈ q.Buffers → b.isEncoding = true → b.VulkanCommandBuffer ≠ VK_NULL_HANDLE) ∧
    q.NumberOfAvailableCommandBuffers ≤ q.MaxCommandBuffers ∧
    (q.NumberOfAvailableCommandBuffers ≠ 0 → ∀ polls : List (Nat → Bool),
      ∃ q3 i b, CommandPool.AcquireCommandBuffer.search q.Buffers = some (i, b) ∧
        q.AcquireCommandBuffer polls = .ok (q3, i) ∧
        q.Buffers[i]? = some b ∧ b.VulkanCommandBuffer = VK_NULL_HANDLE ∧
        q3.NumberOfAvailableCommandBuffers + 1 = q.NumberOfAvailableCommandBuffers) ∧
    (∀ polls : List (Nat → Bool),
      (∃ q3 i, q.AcquireCommandBuffer polls = .ok (q3, i)) ∨
        q.AcquireCommandBuffer polls = .error .spinning) ∧
    (∀ (polls : List (Nat → Bool)) (q3 : CommandPool) (i : Nat),
      q.AcquireCommandBuffer polls = .ok (q3, i) →
        q3.NumberOfAvailableCommandBuffers + 1 ≤ q3.MaxCommandBuffers) := by
  have hq : q.Counted :=
    CommandPool.calls_Counted
      (CommandPool.create_Counted maxCommandBuffers cmd sem fence hmax hcmd) hrun
  refine ⟨hq.2.1, fun b hb => (hq.2.2 b hb).1, ?_, ?_, ?_, ?_⟩
  · rw [hq.2.1]
    exact List.countP_le_length _
  · intro hn polls
    obtain ⟨q3, i, b, hsearch, ha, hi, hnull⟩ := CommandPool.Counted.acquire hq hn polls
    refine ⟨q3, i, b, hsearch, ha, hi, hnull, ?_⟩
    obtain ⟨_, _, _, _, hn3, _, _⟩ := CommandPool.AcquireCommandBuffer_available hn ha
    have hle : q.Buffers.countP (fun b => b.VulkanCommandBuffer = VK_NULL_HANDLE) ≤
        q.Buffers.length := List.countP_le_length _
    have hlen := hq.1
    have hcnt := hq.2.1
    rw [hn3]
    unfold u32
    omega
  · intro polls
    exact CommandPool.Counted.acquire_result hq polls
  · intro polls q3 i ha
    exact (CommandPool.Counted.acquire_counter hq ha).2

/-- C24, witness: the example pool with two slots after slot 0 has been acquired, submitted, reset
and acquired again while slot 1 is pending: no slot is free and the counter is 0. -/
theorem C24_witness :
    (examplePool 2).calls countedCalls = .ok recycleReacquired ∧
    recycleReacquired.NumberOfAvailableCommandBuffers = 0 ∧
    (recycleReacquired.Buffers.map fun b => (b.VulkanCommandBuffer, b.isEncoding)) =
      [(400, true), (401, false)] ∧
    (recycleReacquired.NumberOfAvailableCommandBuffers =
      recycleReacquired.Buffers.countP (fun b => b.VulkanCommandBuffer = VK_NULL_HANDLE) ∧
    (∀ b, b ∈ recycleReacquired.Buffers → b.isEncoding = true →
      b.VulkanCommandBuffer ≠ VK_NULL_HANDLE) ∧
    recycleReacquired.NumberOfAvailableCommandBuffers ≤ recycleReacquired.MaxCommandBuffers ∧
    (recycleReacquired.NumberOfAvailableCommandBuffers ≠ 0 → ∀ polls : List (Nat → Bool),
      ∃ q3 i b, CommandPool.AcquireCommandBuffer.search recycleReacquired.Buffers = some (i, b) ∧
        recycleReacquired.AcquireCommandBuffer polls = .ok (q3, i) ∧
        recycleReacquired.Buffers[i]? = some b ∧ b.VulkanCommandBuffer = VK_NULL_HANDLE ∧
        q3.NumberOfAvailableCommandBuffers + 1 =
          recycleReacquired.NumberOfAvailableCommandBuffers) ∧
    (∀ polls : List (Nat → Bool),
      (∃ q3 i, recycleReacquired.AcquireCommandBuffer polls = .ok (q3, i)) ∨
        recycleReacquired.AcquireCommandBuffer polls = .error .spinning) ∧
    (∀ (polls : List (Nat → Bool)) (q3 : CommandPool) (i : Nat),
      recycleReacquired.AcquireCommandBuffer polls = .ok (q3, i) →
        q3.NumberOfAvailableCommandBuffers + 1 ≤ q3.MaxCommandBuffers)) :=
  have hrun : (CommandPool.create 2 exampleCreation.commandBuffer exampleCreation.semaphore
      exampleCreation.fence).calls countedCalls = .ok recycleReacquired := by decide!
  ⟨hrun, by decide!, by decide!,
    C24_available_counter_is_free_count 2 exampleCreation.commandBuffer
      exampleCreation.semaphore exampleCreation.fence countedCalls recycleReacquired
      (by decide) (by decide!) hrun⟩

/-- C25: on a context constructed with `n` swapchain images (`n` at least 1, as the constructor
of the swapchain checks) and reached by any calls, `k` of which were presenting submits:
`CurrentFrame` is `k` (as a `uint64_t`), `k` presents have been made, and the timeline values
programmed by the submissions are, in order, `0 + n`, `1 + n`, ..., `(k - 1) + n` (as
`uint64_t`), one per presenting submit. So, short of 64-bit overflow, the value of index `j` is
`j + n`, it is above the initial value `n - 1` of the timeline semaphore, and the values are
strictly increasing. -/
theorem C25_timeline_signal_values (d : ContextCreation) (ops : List Op) (c : VulkanContext)
    (hn : 0 < min (u32 d.swapChainImageCount) d.MAX_IMAGES)
    (hrun : (VulkanContext.create d).run ops = .ok c) :
    ∃ sc, c.SwapChain = some sc ∧
      sc.NumberOfSwapChainImages = min (u32 d.swapChainImageCount) d.MAX_IMAGES ∧
      sc.CurrentFrame = u64 (Op.presents ops) ∧
      sc.Presented.length = Op.presents ops ∧
      timelineSignals c.VulkanCommandPool.Queue =
        (List.range (Op.presents ops)).map (fun j => u64 (j + sc.NumberOfSwapChainImages)) ∧
      c.TimelineInitialValue = sc.NumberOfSwapChainImages - 1 ∧
      (∀ (j v : Nat), (timelineSignals c.VulkanCommandPool.Queue)[j]? = some v →
        j + sc.NumberOfSwapChainImages < 2 ^ 64 →
        v = j + sc.NumberOfSwapChainImages ∧ c.TimelineInitialValue < v) ∧
      (Op.presents ops + sc.NumberOfSwapChainImages ≤ 2 ^ 64 →
        (timelineSignals c.VulkanCommandPool.Queue).Pairwise (fun a b => a < b)) := by
  obtain ⟨_, hinit, sc, hsc, hnum, hframe, hpres, hsig⟩ :=
    VulkanContext.run_Paced (VulkanContext.create_Paced d) hrun
  rw [Nat.zero_add] at hframe hpres hsig
  have hlt : min (u32 d.swapChainImageCount) d.MAX_IMAGES < 2 ^ 32 :=
    Nat.lt_of_le_of_lt (Nat.min_le_left _ _) (Nat.mod_lt _ (by norm_num))
  have hinit2 : c.TimelineInitialValue = sc.NumberOfSwapChainImages - 1 := by
    rw [hinit, hnum]
    generalize min (u32 d.swapChainImageCount) d.MAX_IMAGES = m at hn hlt
    unfold u32
    omega
  rw [← hnum] at hsig
  refine ⟨sc, hsc, hnum, hframe, hpres, hsig, hinit2, ?_, ?_⟩
  · intro j v hv hsmall
    rw [hsig, List.getElem?_map] at hv
    have hj : j < Op.presents ops := by
      by_contra hge
      rw [List.getElem?_eq_none (by rw [List.length_range]; omega)] at hv
      exact Option.noConfusion hv
    rw [List.getElem?_range hj] at hv
    have hv2 : v = j + sc.NumberOfSwapChainImages := by
      rw [← Option.some.inj hv]
      exact Nat.mod_eq_of_lt hsmall
    refine ⟨hv2, ?_⟩
    rw [hinit2, hv2, hnum]
    omega
  · intro hsmall
    have hmap : (List.range (Op.presents ops)).map
        (fun j => u64 (j + sc.NumberOfSwapChainImages)) =
        (List.range (Op.presents ops)).map (fun j => j + sc.NumberOfSwapChainImages) := by
      apply List.map_congr_left
      intro j hj
      rw [List.mem_range] at hj
      exact Nat.mod_eq_of_lt (by omega)
    rw [hsig, hmap]
    exact List.Pairwise.map _ (fun a b hab => by omega) (List.pairwise_lt_range _)

/-- C25, witness: on the example context (three swapchain images) a presenting frame, a submit
without present target and another presenting frame program the timeline values 3 and 4. -/
theorem C25_witness :
    (VulkanContext.create exampleCreation).run mixedFrames = .ok exampleMixed ∧
    Op.presents mixedFrames = 2 ∧
    exampleMixed.VulkanCommandPool.Queue.length = 3 ∧
    timelineSignals exampleMixed.VulkanCommandPool.Queue = [3, 4] ∧
    exampleMixed.TimelineInitialValue = 2 ∧
    ∃ sc, exampleMixed.SwapChain = some sc ∧
      sc.NumberOfSwapChainImages =
        min (u32 exampleCreation.swapChainImageCount) exampleCreation.MAX_IMAGES ∧
      sc.CurrentFrame = u64 (Op.presents mixedFrames) ∧
      sc.Presented.length = Op.presents mixedFrames ∧
      timelineSignals exampleMixed.VulkanCommandPool.Queue =
        (List.range (Op.presents mixedFrames)).map
          (fun j => u64 (j + sc.NumberOfSwapChainImages)) ∧
      exampleMixed.TimelineInitialValue = sc.NumberOfSwapChainImages - 1 ∧
      (∀ (j v : Nat), (timelineSignals exampleMixed.VulkanCommandPool.Queue)[j]? = some v →
        j + sc.NumberOfSwapChainImages < 2 ^ 64 →
        v = j + sc.NumberOfSwapChainImages ∧ exampleMixed.TimelineInitialValue < v) ∧
      (Op.presents mixedFrames + sc.NumberOfSwapChainImages ≤ 2 ^ 64 →
        (timelineSignals exampleMixed.VulkanCommandPool.Queue).Pairwise (fun a b => a < b)) :=
  have hrun : (VulkanContext.create exampleCreation).run mixedFrames = .ok exampleMixed := by
    decide!
  ⟨hrun, by decide!, by decide!, by decide!, by decide!,
    C25_timeline_signal_values exampleCreation mixedFrames exampleMixed (by decide!) hrun⟩

end Eos
